import Mathlib

/-!
Verification of the go-i2p/go-i2ptunnel-config conversion core.

The Go sources are shallowly embedded: strings are lists of characters
(`Str`), Go maps are association lists kept behind `Option` so that a Go
`nil` map is distinguishable from an empty one, fallible code returns
`Option` or `Except`, and a Go panic (the unchecked type assertion in
`parsePropertyKey`) is modelled as `Option.none`.  The external tokenizer
(magiconair/properties) and the YAML serializer (gopkg.in/yaml.v2) are
modelled at their interface boundary: the properties parser consumes the
flat key/value stream the tokenizer produces, with a textual tokenizer
model (`propTokenize`) used for escape-free text such as the generator
emits; the YAML document is the decoded wrapper structure itself.
-/

namespace I2PConv

/-- Strings are modelled as lists of characters so that list lemmas apply. -/
abbrev Str := List Char

/-- Coerce a Lean string literal into the model representation. -/
def str (s : String) : Str := s.data

/-- The white-space class used by Go's strings.TrimSpace (ASCII part). -/
def isSpaceGo (c : Char) : Bool :=
  c = ' ' || c = '\t' || c = '\n' || c = '\x0b' || c = '\x0c' || c = '\r'

/-- strings.TrimSpace, left side. -/
def trimLeft (s : Str) : Str := s.dropWhile isSpaceGo

/-- strings.TrimSpace, right side. -/
def trimRight (s : Str) : Str := (s.reverse.dropWhile isSpaceGo).reverse

/-- Go strings.TrimSpace (ASCII white space). -/
def trimSpace (s : Str) : Str := trimRight (trimLeft s)

/-- Go strings.HasPrefix. -/
def startsWith (p s : Str) : Bool := p.isPrefixOf s

/-- Go strings.HasSuffix. -/
def endsWith (p s : Str) : Bool := p.isSuffixOf s

/-- Go strings.TrimPrefix. -/
def dropPre (p s : Str) : Str := if startsWith p s then s.drop p.length else s

/-- Go strings.TrimSuffix. -/
def dropSuf (p s : Str) : Str :=
  if endsWith p s then s.take (s.length - p.length) else s

/-- Go strings.Contains for a single-character separator. -/
def containsChar (c : Char) (s : Str) : Bool := s.contains c

/-- Go strings.Split on a one-character separator: the list of fields. -/
def splitCh (c : Char) : Str → List Str
  | [] => [[]]
  | a :: as =>
    if a = c then [] :: splitCh c as
    else
      match splitCh c as with
      | [] => [[a]]
      | h :: t => (a :: h) :: t

/-- Go strings.SplitN with limit 2: the text before the first separator and
the text after it, or none when the separator does not occur. -/
def splitFirst (c : Char) : Str → Option (Str × Str)
  | [] => none
  | a :: as =>
    if a = c then some ([], as)
    else (splitFirst c as).map (fun p => (a :: p.1, p.2))

/-- Go strings.SplitN with limit 3 on a one-character separator. -/
def splitN3 (c : Char) (s : Str) : List Str :=
  match splitFirst c s with
  | none => [s]
  | some (a, rest) =>
    match splitFirst c rest with
    | none => [a, rest]
    | some (b, rest2) => [a, b, rest2]

/-- Go strings.ToLower (ASCII part, all strings here are ASCII). -/
def toLowerS (s : Str) : Str := s.map Char.toLower

/-- Go strings.ReplaceAll for single characters. -/
def replaceAllCh (a b : Char) (s : Str) : Str :=
  s.map (fun c => if c = a then b else c)

/-- Go strings.Join. -/
def joinSep (sep : Str) : List Str → Str
  | [] => []
  | [x] => x
  | x :: xs => x ++ sep ++ joinSep sep xs

/-- Concatenate lines, each terminated by a newline, as the Go generators
do with their string builders. -/
def joinNL (ls : List Str) : Str := (ls.map (· ++ ['\n'])).flatten

/-- Decimal digits, fuel-structured so the kernel can evaluate it. -/
def natToStrF : Nat → Nat → Str
  | 0, _ => []
  | fuel + 1, n =>
    if n < 10 then [Char.ofNat (48 + n)]
    else natToStrF fuel (n / 10) ++ [Char.ofNat (48 + n % 10)]

/-- The decimal digits of a natural number, most significant first. -/
def natToStr (n : Nat) : Str := natToStrF (n + 1) n

/-- Go strconv.Itoa. -/
def intToStr (i : Int) : Str :=
  if i < 0 then '-' :: natToStr i.natAbs else natToStr i.natAbs

/-- Read a non-empty all-digit string as a natural number. -/
def readDigits (s : Str) : Option Nat :=
  if s ≠ [] ∧ s.all Char.isDigit then
    some (s.foldl (fun acc c => acc * 10 + (c.toNat - 48)) 0)
  else none

/-- Go strconv.Atoi: an optional sign followed by at least one digit.
(The int64 overflow error is not modelled; no claim involves values near
2^63.) -/
def atoi (s : Str) : Option Int :=
  match s with
  | [] => none
  | c :: rest =>
    if c = '+' then (readDigits rest).map Int.ofNat
    else if c = '-' then (readDigits rest).map (fun n => -(n : Int))
    else (readDigits (c :: rest)).map Int.ofNat

/-- The exact domain of Go strconv.ParseBool: the value it accepts, none
otherwise. -/
def goParseBool (s : Str) : Option Bool :=
  if s = str "1" ∨ s = str "t" ∨ s = str "T" ∨ s = str "TRUE" ∨
     s = str "true" ∨ s = str "True" then some true
  else if s = str "0" ∨ s = str "f" ∨ s = str "F" ∨ s = str "FALSE" ∨
     s = str "false" ∨ s = str "False" then some false
  else none

/-- The dynamically-typed option values stored in the config maps
(`interface\x7b\x7d` in Go): boolean, integer, string, or string list. -/
inductive Value where
  | int (n : Int)
  | bool (b : Bool)
  | str (s : Str)
  | list (xs : List Str)
deriving DecidableEq, Repr

/-- Go fmt.Sprint / the %v verb on the stored value kinds. -/
def goSprint : Value → Str
  | .int n => intToStr n
  | .bool true => str "true"
  | .bool false => str "false"
  | .str s => s
  | .list xs => '[' :: joinSep (str " ") xs ++ [']']

/-- Go fmt's %s verb on the stored value kinds: strings print verbatim,
string slices print like %v, and non-string scalars print with the
%!s(type=value) mis-verb decoration. -/
def goSprintS : Value → Str
  | .int n => str "%!s(int=" ++ intToStr n ++ [')']
  | .bool true => str "%!s(bool=true)"
  | .bool false => str "%!s(bool=false)"
  | .str s => s
  | .list xs => '[' :: joinSep (str " ") xs ++ [']']

/-- parseValue (src/lib/properties.go): boolean via strconv.ParseBool,
else integer via strconv.Atoi, else comma-split into a raw string list,
else the string itself. -/
def parseValue (s : Str) : Value :=
  match goParseBool s with
  | some b => .bool b
  | none =>
    match atoi s with
    | some n => .int n
    | none =>
      if containsChar ',' s then .list (splitCh ',' s) else .str s

/-- parseINIValue (src/lib/ini.go): i2pd boolean keywords first, then
integer, then a comma-split list with trimmed elements, else the trimmed
string. -/
def parseINIValue (s : Str) : Value :=
  let original := trimSpace s
  let lower := toLowerS original
  if lower = str "true" ∨ lower = str "yes" ∨ lower = str "on" ∨
     lower = str "enabled" then .bool true
  else if lower = str "false" ∨ lower = str "no" ∨ lower = str "off" ∨
     lower = str "disabled" then .bool false
  else
    match atoi original with
    | some n => .int n
    | none =>
      if containsChar ',' original then
        .list ((splitCh ',' original).map trimSpace)
      else .str original

/-- parseINIBooleanValue (src/lib/ini.go): boolean-specific key parsing
that additionally accepts 1/0, defaulting to false. -/
def parseINIBooleanValue (s : Str) : Bool :=
  let lower := toLowerS (trimSpace s)
  if lower = str "true" ∨ lower = str "yes" ∨ lower = str "1" ∨
     lower = str "on" ∨ lower = str "enabled" then true
  else false

/-- A Go map from string to value: `none` is a nil map, `some` an
allocated one, holding entries in insertion order with unique keys. -/
abbrev GoMap := Option (List (Str × Value))

/-- Go map assignment (the call sites all allocate a nil map before
writing, so assignment always yields an allocated map). -/
def assocSet (m : List (Str × Value)) (k : Str) (v : Value) : List (Str × Value) :=
  match m with
  | [] => [(k, v)]
  | (k₀, v₀) :: t => if k₀ = k then (k, v) :: t else (k₀, v₀) :: assocSet t k v

/-- Write through an optional map, allocating when nil, as the Go code
does with its nil-map guards before each write. -/
def mapSet (m : GoMap) (k : Str) (v : Value) : GoMap :=
  some (assocSet (m.getD []) k v)

/-- Go map read: absent keys (and nil maps) read as absent. -/
def mapGet (m : GoMap) (k : Str) : Option Value :=
  (m.getD []).foldr (fun p acc => if p.1 = k then some p.2 else acc) none

/-- The canonical tunnel model (TunnelConfig, src/lib/i2pconv.go).  Field
names `Type` and `Interface` collide with Lean vocabulary and are spelled
`Typ` and `Iface`. -/
structure TunnelConfig where
  Name : Str
  Typ : Str
  Iface : Str
  Port : Int
  Target : Str
  PersistentKey : Bool
  Description : Str
  I2CP : GoMap
  Tunnel : GoMap
  Inbound : GoMap
  Outbound : GoMap
deriving DecidableEq, Repr

/-- The zero value of TunnelConfig: empty strings, port 0, nil maps. -/
def emptyConfig : TunnelConfig :=
  { Name := [], Typ := [], Iface := [], Port := 0, Target := [],
    PersistentKey := false, Description := [], I2CP := none,
    Tunnel := none, Inbound := none, Outbound := none }

/-- The config each parser starts from: four allocated empty groups. -/
def initConfig : TunnelConfig :=
  { emptyConfig with
    I2CP := some []
    Tunnel := some []
    Inbound := some []
    Outbound := some [] }

example : parseValue (str "4,0") = .list [str "4", str "0"] := by decide
example : parseValue (str "7") = .int 7 := by decide
example : parseValue (str "1") = .bool true := by decide
example : parseINIValue (str "1") = .int 1 := by decide
example : parseINIValue (str " a, b ") = .list [str "a", str "b"] := by decide
example : atoi (str "-42") = some (-42) := by decide
example : intToStr (-42) = str "-42" := by decide

/-- parseNumberedTunnelProperty (src/lib/properties.go): numbered
tunnel.N.property values fill fields only when still unset; a second
name is stored as Tunnel alternateName. -/
def parseNumberedTunnelProperty (property v : Str) (c : TunnelConfig) : TunnelConfig :=
  if property = str "name" then
    if c.Name = [] then { c with Name := v }
    else { c with Tunnel := mapSet c.Tunnel (str "alternateName") (.str v) }
  else if property = str "type" then
    if c.Typ = [] then { c with Typ := v } else c
  else if property = str "interface" then
    if c.Iface = [] then { c with Iface := v } else c
  else if property = str "listenPort" then
    if c.Port = 0 then
      match atoi v with
      | some p => { c with Port := p }
      | none => c
    else c
  else if property = str "targetDestination" then
    if c.Target = [] then { c with Target := v } else c
  else if property = str "targetHost" then
    if c.Target = [] then { c with Target := v } else c
  else if property = str "targetPort" then
    match atoi v with
    | some p => { c with Tunnel := mapSet c.Tunnel (str "targetPort") (.int p) }
    | none => c
  else if property = str "description" then
    if c.Description = [] then { c with Description := v } else c
  else { c with Tunnel := mapSet c.Tunnel property (parseValue v) }

/-- The flat-key switch of parsePropertyKey (src/lib/properties.go).
Allocation of a nil group map is kept faithful even where the write is
then skipped on an Atoi failure. -/
def flatSwitch (k v : Str) (c : TunnelConfig) : TunnelConfig :=
  if k = str "name" then { c with Name := v }
  else if k = str "type" then { c with Typ := v }
  else if k = str "interface" then { c with Iface := v }
  else if k = str "listenPort" then
    match atoi v with
    | some p => { c with Port := p }
    | none => c
  else if k = str "targetDestination" then { c with Target := v }
  else if k = str "targetHost" then { c with Target := v }
  else if k = str "targetPort" then
    match atoi v with
    | some p => { c with Tunnel := mapSet c.Tunnel (str "targetPort") (.int p) }
    | none => c
  else if k = str "description" then { c with Description := v }
  else if k = str "proxyList" then
    { c with Tunnel := mapSet c.Tunnel (str "proxyList") (parseValue v) }
  else if k = str "sharedClient" then
    { c with Tunnel := mapSet c.Tunnel (str "sharedClient") (parseValue v) }
  else if k = str "startOnLoad" then
    { c with Tunnel := mapSet c.Tunnel (str "startOnLoad") (parseValue v) }
  else if k = str "accessList" then
    { c with Tunnel := mapSet c.Tunnel (str "accessList") (parseValue v) }
  else if k = str "spoofedHost" then
    { c with Tunnel := mapSet c.Tunnel (str "spoofedHost") (parseValue v) }
  else if k = str "i2cpHost" then
    { c with I2CP := mapSet c.I2CP (str "host") (.str v) }
  else if k = str "i2cpPort" then
    let c₁ := { c with I2CP := some (c.I2CP.getD []) }
    match atoi v with
    | some p => { c₁ with I2CP := mapSet c₁.I2CP (str "port") (.int p) }
    | none => c₁
  else c

/-- The option-prefix chain at the end of parsePropertyKey.  The Go code
asserts parseValue(s).(bool) without a check for
option.persistentClientKey; a non-boolean coercion is a runtime panic,
modelled as none. -/
def optionRoute (k v : Str) (c : TunnelConfig) : Option TunnelConfig :=
  if startsWith (str "option.i2cp.") k then
    some { c with I2CP := mapSet c.I2CP (dropPre (str "option.i2cp.") k) (parseValue v) }
  else if startsWith (str "option.i2ptunnel.") k then
    some { c with Tunnel := mapSet c.Tunnel (dropPre (str "option.i2ptunnel.") k) (parseValue v) }
  else if startsWith (str "option.inbound.") k then
    some { c with Inbound := mapSet c.Inbound (dropPre (str "option.inbound.") k) (parseValue v) }
  else if startsWith (str "option.outbound.") k then
    some { c with Outbound := mapSet c.Outbound (dropPre (str "option.outbound.") k) (parseValue v) }
  else if k = str "option.persistentClientKey" then
    match parseValue v with
    | .bool b => some { c with PersistentKey := b }
    | _ => none
  else some c

/-- parsePropertyKey (src/lib/properties.go): comments and configFile
keys are skipped, tunnel.N.property keys are routed to the numbered
handler, then the flat switch and the option-prefix chain both run. -/
def parsePropertyKey (k v : Str) (c : TunnelConfig) : Option TunnelConfig :=
  if startsWith (str "#") k || startsWith (str "configFile") k then some c
  else if startsWith (str "tunnel.") k && containsChar '.' k then
    match splitN3 '.' k with
    | [_, _, property] => some (parseNumberedTunnelProperty property v c)
    | _ => optionRoute k v (flatSwitch k v c)
  else optionRoute k v (flatSwitch k v c)

/-- parseJavaProperties (src/lib/properties.go) on the flat key/value
stream produced by the magiconair/properties tokenizer, in file order.
none models the panic reachable through parsePropertyKey. -/
def parseJavaProperties (ts : List (Str × Str)) : Option TunnelConfig :=
  ts.foldlM (fun c p => parsePropertyKey p.1 p.2 c) initConfig

/-- formatPropertyValue (src/lib/properties.go): string slices join on a
bare comma, everything else prints with fmt.Sprint. -/
def formatPropertyValue : Value → Str
  | .list xs => joinSep (str ",") xs
  | v => goSprint v

/-- The lines written by generateJavaProperties (src/lib/properties.go),
in source order; the map range loops iterate in model (insertion)
order. -/
def propLines (c : TunnelConfig) : List Str :=
  (if c.Name ≠ [] then [str "name=" ++ c.Name] else []) ++
  (if c.Typ ≠ [] then [str "type=" ++ c.Typ] else []) ++
  (if c.Iface ≠ [] then [str "interface=" ++ c.Iface] else []) ++
  (if c.Port ≠ 0 then [str "listenPort=" ++ intToStr c.Port] else []) ++
  (if c.Target ≠ [] then [str "targetDestination=" ++ c.Target] else []) ++
  (if c.PersistentKey then [str "option.persistentClientKey=true"] else []) ++
  (if c.Description ≠ [] then [str "description=" ++ c.Description] else []) ++
  (c.I2CP.getD []).map (fun p => str "option.i2cp." ++ p.1 ++ '=' :: formatPropertyValue p.2) ++
  (c.Tunnel.getD []).map (fun p =>
    if p.1 = str "proxyList" ∨ p.1 = str "sharedClient" ∨ p.1 = str "startOnLoad" ∨
       p.1 = str "accessList" ∨ p.1 = str "spoofedHost" ∨ p.1 = str "targetPort"
    then p.1 ++ '=' :: formatPropertyValue p.2
    else str "option.i2ptunnel." ++ p.1 ++ '=' :: formatPropertyValue p.2) ++
  (c.Inbound.getD []).map (fun p => str "option.inbound." ++ p.1 ++ '=' :: formatPropertyValue p.2) ++
  (c.Outbound.getD []).map (fun p => str "option.outbound." ++ p.1 ++ '=' :: formatPropertyValue p.2)

/-- generateJavaProperties (src/lib/properties.go). -/
def generateJavaProperties (c : TunnelConfig) : Str := joinNL (propLines c)

/-- The key/value/whitespace separator class of the Java properties
line grammar. -/
def isKeySep (c : Char) : Bool := c = '=' || c = ':' || c = ' ' || c = '\t'

/-- One natural line of escape-free Java properties text, read the way
the magiconair/properties lexer reads it on its plain path: leading
blanks dropped, blank lines and comment lines skipped, the key up to
the first separator, one optional = or : consumed, and the value with
leading blanks dropped.  This is a proof intermediary for text without
escapes, line continuations or carriage returns: the program itself is
modelled by the full lexer below (lexBeforeKey and friends), and
lineToToken_clean plus lexBeforeKey_line prove the two agree on every
line the generator emits from a propCleanStrong config. -/
def lineToToken (l : Str) : Option (Str × Str) :=
  let t := l.dropWhile (fun c => c = ' ' || c = '\t' || c = '\x0c')
  match t with
  | [] => none
  | c :: _ =>
    if c = '#' ∨ c = '!' then none
    else
      let key := t.takeWhile (fun c => !(isKeySep c))
      let rest := t.dropWhile (fun c => !(isKeySep c))
      let r₁ := rest.dropWhile (fun c => c = ' ' || c = '\t')
      let r₂ := match r₁ with
        | c :: cs => if c = '=' ∨ c = ':' then cs else r₁
        | [] => []
      some (key, r₂.dropWhile (fun c => c = ' ' || c = '\t'))

/-- The flat token stream of escape-free properties text — the
intermediary the round-trip proof routes through; propsFull_roundtrip
shows the full lexer produces this same stream on clean generated
text. -/
def propTokenize (s : Str) : List (Str × Str) :=
  (splitCh '\n' s).filterMap lineToToken

/-- Parsing escape-free properties text through the simple tokenizer —
the stepping stone the round-trip proof routes through; the program is
parseJavaPropertiesText, defined over the full lexer. -/
def parsePropsText (s : Str) : Option TunnelConfig :=
  parseJavaProperties (propTokenize s)

example :
    (parseJavaProperties [(str "name", str "X"), (str "type", str "httpclient"),
      (str "listenPort", str "4444"),
      (str "option.i2cp.leaseSetEncType", str "4,0")]).map
      (fun c => (c.Name, c.Typ, c.Port, mapGet c.I2CP (str "leaseSetEncType"))) =
    some (str "X", str "httpclient", 4444, some (.list [str "4", str "0"])) := by
  decide

example :
    (parsePropsText (str "name=FirstName\ntunnel.0.name=SecondName\ntype=client\ntunnel.1.type=server")).map
      (fun c => (c.Name, c.Typ)) = some (str "FirstName", str "client") := by
  decide

example :
    parsePropsText (generateJavaProperties initConfig) = some initConfig := by
  decide

/-- ParseError (src/lib/errors.go): a structural fault with line context.
Line and Column are Go ints. -/
structure ParseError where
  Line : Int
  Column : Int
  Content : Str
  Context : List Str
  Message : Str
  Format : Str
deriving DecidableEq, Repr

/-- extractContext (src/lib/errors.go): up to contextLines lines before
and after the 1-indexed target line, clamped; nil outside the input. -/
def extractContext (input : Str) (targetLine : Int) (contextLines : Nat) :
    List Str × Str :=
  let lines := splitCh '\n' input
  if targetLine < 1 ∨ targetLine > (lines.length : Int) then ([], [])
  else
    let targetIdx := (targetLine - 1).toNat
    let start := targetIdx - contextLines
    let stop := min (targetIdx + contextLines + 1) lines.length
    ((lines.drop start).take (stop - start), (lines.drop targetIdx).headD [])

/-- newParseError (src/lib/errors.go). -/
def newParseError (input : Str) (line column : Int) (format message : Str) :
    ParseError :=
  let ctx := extractContext input line 2
  { Line := line, Column := column, Content := ctx.2, Context := ctx.1,
    Message := message, Format := format }

/-- parseINIKeyValue (src/lib/ini.go): the i2pd key routing switch. -/
def parseINIKeyValue (key value : Str) (c : TunnelConfig) : TunnelConfig :=
  if key = str "name" then
    if c.Name = [] then { c with Name := value } else c
  else if key = str "type" then { c with Typ := value }
  else if key = str "host" ∨ key = str "interface" then { c with Iface := value }
  else if key = str "port" then
    match atoi value with
    | some p => { c with Port := p }
    | none => c
  else if key = str "destination" then { c with Target := value }
  else if key = str "address" then { c with Target := value }
  else if key = str "hostoverride" then
    { c with Tunnel := mapSet c.Tunnel (str "hostoverride") (.str value) }
  else if key = str "description" then { c with Description := value }
  else if key = str "keys" then
    if toLowerS value = str "transient" then { c with PersistentKey := false }
    else
      { c with PersistentKey := true,
               Tunnel := mapSet c.Tunnel (str "keyfile") (.str value) }
  else if key = str "gzip" then
    { c with Tunnel := mapSet c.Tunnel (str "gzip") (.bool (parseINIBooleanValue value)) }
  else if key = str "accesslist" then
    { c with Tunnel := mapSet c.Tunnel (str "accesslist") (parseINIValue value) }
  else if key = str "signaturetype" then
    { c with Tunnel := mapSet c.Tunnel (str "signaturetype") (parseINIValue value) }
  else if key = str "explicitpeers" then
    { c with Tunnel := mapSet c.Tunnel (str "explicitpeers") (parseINIValue value) }
  else if key = str "multicast" then
    { c with Tunnel := mapSet c.Tunnel (str "multicast") (.bool (parseINIBooleanValue value)) }
  else if key = str "webircpassword" then
    { c with Tunnel := mapSet c.Tunnel (str "webircpassword") (.str value) }
  else if key = str "maptoloopback" then
    { c with Tunnel := mapSet c.Tunnel (str "maptoloopback") (.bool (parseINIBooleanValue value)) }
  else if key = str "enableuniquelocal" then
    { c with Tunnel := mapSet c.Tunnel (str "enableuniquelocal") (.bool (parseINIBooleanValue value)) }
  else if startsWith (str "i2cp.") key then
    { c with I2CP := mapSet c.I2CP (dropPre (str "i2cp.") key) (parseINIValue value) }
  else if startsWith (str "crypto.") key then
    { c with Tunnel := mapSet c.Tunnel key (parseINIValue value) }
  else if startsWith (str "streamr.") key then
    { c with Tunnel := mapSet c.Tunnel key (parseINIValue value) }
  else if startsWith (str "inbound.") key then
    { c with Inbound := mapSet c.Inbound (dropPre (str "inbound.") key) (parseINIValue value) }
  else if startsWith (str "outbound.") key then
    { c with Outbound := mapSet c.Outbound (dropPre (str "outbound.") key) (parseINIValue value) }
  else { c with Tunnel := mapSet c.Tunnel key (parseINIValue value) }

/-- One iteration of the parseINI line loop (src/lib/ini.go).  The state
carries the config under construction and currentSection; idx is the
0-based index of the raw line within the input. -/
def parseINILine (input : Str) (st : TunnelConfig × Str) (idx : Nat)
    (originalLine : Str) : Except ParseError (TunnelConfig × Str) :=
  let c := st.1
  let line := trimSpace originalLine
  if line = [] ∨ startsWith (str ";") line ∨ startsWith (str "#") line then
    .ok st
  else if startsWith (str "[") line then
    if ¬ endsWith (str "]") line then
      .error (newParseError input (idx + 1 : Nat) 0 (str "ini")
        (str "unclosed section bracket - expected ']'"))
    else
      let currentSection := dropSuf (str "]") (dropPre (str "[") line)
      if currentSection = [] then
        .error (newParseError input (idx + 1 : Nat) 0 (str "ini")
          (str "empty section name - sections must have a name"))
      else if c.Name = [] then
        .ok ({ c with Name := currentSection }, currentSection)
      else .ok (c, currentSection)
  else
    match splitFirst '=' line with
    | none =>
      if containsChar '=' originalLine then
        .error (newParseError input (idx + 1 : Nat) 0 (str "ini")
          (str "malformed key=value pair - check for extra '=' characters"))
      else
        .error (newParseError input (idx + 1 : Nat) 0 (str "ini")
          (str "expected key=value pair or section header [name]"))
    | some (rawKey, rawValue) =>
      let key := trimSpace rawKey
      let value := trimSpace rawValue
      if key = [] then
        .error (newParseError input (idx + 1 : Nat) 0 (str "ini")
          (str "empty key name - key=value pairs must have a key"))
      else .ok (parseINIKeyValue key value c, st.2)

/-- Fold a monadic step over an indexed list, the model of a Go
for-range loop with early error return. -/
def foldIdxM {σ : Type} (f : σ → Nat → Str → Except ParseError σ) :
    σ → Nat → List Str → Except ParseError σ
  | st, _, [] => .ok st
  | st, i, l :: ls => do foldIdxM f (← f st i l) (i + 1) ls

/-- parseINI (src/lib/ini.go): split into lines, walk them with the
section/key-value grammar, faulting at the offending 1-indexed line. -/
def parseINI (input : Str) : Except ParseError TunnelConfig := do
  let st ← foldIdxM (parseINILine input) (initConfig, []) 0 (splitCh '\n' input)
  return st.1

/-- formatINIValue (src/lib/ini.go): slices join with a comma and a
space, booleans normalize to lowercase, the rest prints with
fmt.Sprint. -/
def formatINIValue : Value → Str
  | .list xs => joinSep (str ", ") xs
  | .bool true => str "true"
  | .bool false => str "false"
  | v => goSprint v

/-- The value of the keys line written by generateINI (src/lib/ini.go):
a keyfile entry prints through the %s verb, otherwise a default name
derived from the tunnel name, and transient when the key is not
persistent. -/
def iniKeysVal (c : TunnelConfig) : Str :=
  if c.PersistentKey then
    match mapGet c.Tunnel (str "keyfile") with
    | some v => goSprintS v
    | none =>
      let keyName := replaceAllCh ' ' '_' c.Name
      let keyName := if keyName = [] then str "tunnel" else keyName
      keyName ++ str ".dat"
  else str "transient"

/-- The keys line written by generateINI (src/lib/ini.go). -/
def iniKeysLine (c : TunnelConfig) : Str := str "keys = " ++ iniKeysVal c

/-- The lines written by generateINI (src/lib/ini.go), in source order. -/
def iniLines (c : TunnelConfig) : List Str :=
  (if c.Name ≠ [] then ['[' :: c.Name ++ [']']] else []) ++
  (if c.Typ ≠ [] then [str "type = " ++ c.Typ] else []) ++
  (if c.Iface ≠ [] then [str "host = " ++ c.Iface] else []) ++
  (if c.Port ≠ 0 then [str "port = " ++ intToStr c.Port] else []) ++
  (if c.Target ≠ [] then
    if c.Typ = str "server" ∨ c.Typ = str "httpserver" ∨ c.Typ = str "ircserver"
    then [str "address = " ++ c.Target]
    else [str "destination = " ++ c.Target]
   else []) ++
  (if c.Description ≠ [] then [str "description = " ++ c.Description] else []) ++
  [iniKeysLine c] ++
  (c.I2CP.getD []).map (fun p => str "i2cp." ++ p.1 ++ str " = " ++ formatINIValue p.2) ++
  ((c.Tunnel.getD []).filter (fun p => p.1 ≠ str "keyfile")).map
    (fun p => p.1 ++ str " = " ++ formatINIValue p.2) ++
  (c.Inbound.getD []).map (fun p => str "inbound." ++ p.1 ++ str " = " ++ formatINIValue p.2) ++
  (c.Outbound.getD []).map (fun p => str "outbound." ++ p.1 ++ str " = " ++ formatINIValue p.2)

/-- generateINI (src/lib/ini.go). -/
def generateINI (c : TunnelConfig) : Str := joinNL (iniLines c)

/-- Substring test (Go strings.Contains). -/
def isSubstr (p : Str) : Str → Bool
  | [] => p.isPrefixOf []
  | c :: t => p.isPrefixOf (c :: t) || isSubstr p t

/-- The line number of an INI fault, when parsing faulted. -/
def errLine (r : Except ParseError TunnelConfig) : Option Int :=
  match r with
  | .error e => some e.Line
  | .ok _ => none

/-- The message of an INI fault, when parsing faulted. -/
def errMsg (r : Except ParseError TunnelConfig) : Option Str :=
  match r with
  | .error e => some e.Message
  | .ok _ => none

example :
    errLine (parseINI (str "[tunnel\ntype = client")) = some 1 ∧
    (errMsg (parseINI (str "[tunnel\ntype = client"))).map
      (fun m => isSubstr (str "unclosed section bracket") m) = some true := by
  decide

example :
    errLine (parseINI (str "[]\ntype = client")) = some 1 ∧
    (errMsg (parseINI (str "[]\ntype = client"))).map
      (fun m => isSubstr (str "empty section name") m) = some true := by
  decide

example :
    errLine (parseINI (str "[test]\ntype client")) = some 2 ∧
    errLine (parseINI (str "[test]\n= value")) = some 2 := by
  decide

example :
    (parseINI (str "[test]\nkey = a=b")).toOption.map
      (fun c => mapGet c.Tunnel (str "key")) = some (some (.str (str "a=b"))) := by
  decide

example :
    (parseINI (str "keys = mykey\nkeyfile = transient")).toOption.map
      (fun c => (c.PersistentKey, mapGet c.Tunnel (str "keyfile"))) =
    some (true, some (.str (str "transient"))) := by
  decide

example :
    ((parseINI (str "keys = mykey\nkeyfile = transient")).toOption.bind
      (fun c => (parseINI (generateINI c)).toOption.map (·.PersistentKey))) =
    some false := by
  decide


/-- The decoded YAML document: the tunnels map of the wrapper struct in
parseYAML (src/lib/yaml.go), entries in document order.  Serialization
of this wrapper is the yaml.v2 library, modelled as the identity at the
document level. -/
abbrev YamlDoc := List (Str × TunnelConfig)

/-- parseYAML (src/lib/yaml.go) after a successful unmarshal: an empty
tunnels map is an error, otherwise the first entry is extracted and its
map key overwrites the name field. -/
def parseYAML (w : YamlDoc) : Except Str TunnelConfig :=
  match w with
  | [] => .error (str "yaml: no tunnels found in tunnels map")
  | (name, cfg) :: _ => .ok { cfg with Name := name }

/-- generateYAML (src/lib/yaml.go): a single-entry tunnels map keyed by
the tunnel name. -/
def generateYAML (c : TunnelConfig) : YamlDoc := [(c.Name, c)]

/-- Drop a literal from the front of the text, or fail (the non-verb
part of fmt.Sscanf matching). -/
def expectLit (lit s : Str) : Option Str :=
  if startsWith lit s then some (s.drop lit.length) else none

/-- A space in an Sscanf format: skip any run of spaces. -/
def skipSpaces (s : Str) : Str := s.dropWhile (· = ' ')

/-- The %d verb of fmt.Sscanf: skip spaces, then an optionally signed
decimal integer; the unread remainder is returned. -/
def scanInt (s : Str) : Option (Int × Str) :=
  let s := skipSpaces s
  match s with
  | '-' :: rest =>
    let ds := rest.takeWhile Char.isDigit
    if ds = [] then none
    else (readDigits ds).map (fun n => (-(n : Int), rest.drop ds.length))
  | '+' :: rest =>
    let ds := rest.takeWhile Char.isDigit
    if ds = [] then none
    else (readDigits ds).map (fun n => ((n : Int), rest.drop ds.length))
  | _ =>
    let ds := s.takeWhile Char.isDigit
    if ds = [] then none
    else (readDigits ds).map (fun n => ((n : Int), s.drop ds.length))

/-- Sscanf with format "yaml: line %d:" (pattern 1 of enhanceYAMLError). -/
def scanYamlLine (msg : Str) : Option Int := do
  let r ← expectLit (str "yaml:") msg
  let r ← expectLit (str "line") (skipSpaces r)
  let (n, r) ← scanInt r
  let _ ← expectLit (str ":") r
  return n

/-- Sscanf with format "line %d:" (pattern 2 of enhanceYAMLError). -/
def scanBareLine (msg : Str) : Option Int := do
  let r ← expectLit (str "line") msg
  let (n, r) ← scanInt r
  let _ ← expectLit (str ":") r
  return n

/-- The remainder after the first occurrence of a pattern
(strings.Index followed by slicing). -/
def afterFirst (pat : Str) : Str → Option Str
  | [] => if pat = [] then some [] else none
  | c :: t =>
    if startsWith pat (c :: t) then some ((c :: t).drop pat.length)
    else afterFirst pat t

/-- Pattern 3 of enhanceYAMLError: "line " anywhere, followed by an
Sscanf %d read. -/
def scanAnyLine (msg : Str) : Option Int := do
  let r ← afterFirst (str "line ") msg
  let (n, _) ← scanInt r
  return n

/-- The three line-extraction attempts of enhanceYAMLError, in order. -/
def extractLineNum (msg : Str) : Option Int :=
  (scanYamlLine msg).orElse (fun _ => (scanBareLine msg).orElse (fun _ => scanAnyLine msg))

/-- The outcome of enhanceYAMLError: a located ParseError, or the
original library error wrapped by fmt.Errorf. -/
inductive EnhanceResult where
  | fault (e : ParseError)
  | wrapped (msg : Str)
deriving DecidableEq, Repr

/-- enhanceYAMLError (src/lib/yaml.go): extract a line number with the
three patterns; on success with a positive line, strip everything up to
the first ": " from the message and build a ParseError; otherwise wrap
the original error. -/
def enhanceYAMLError (input errMsg : Str) : EnhanceResult :=
  match extractLineNum errMsg with
  | some lineNum =>
    if lineNum > 0 then
      let message := match afterFirst (str ": ") errMsg with
        | some rest => rest
        | none => errMsg
      .fault (newParseError input lineNum 0 (str "yaml") message)
    else .wrapped (str "yaml parse error: " ++ errMsg)
  | none => .wrapped (str "yaml parse error: " ++ errMsg)

example :
    enhanceYAMLError [] (str "boom") = .wrapped (str "yaml parse error: boom") := by
  decide

example :
    (match enhanceYAMLError (str "a
b
c
d
e
f") (str "yaml: line 5: bad thing") with
     | .fault e => some (e.Line, e.Format)
     | .wrapped _ => none) = some (5, str "yaml") := by
  decide

example :
    enhanceYAMLError [] (str "see line abc, line 7") =
      .wrapped (str "yaml parse error: see line abc, line 7") := by
  decide

example :
    (match enhanceYAMLError [] (str "deadline 5 exceeded") with
     | .fault e => some e.Line
     | .wrapped _ => none) = some 5 := by
  decide


/-- A loose executable model of Go net.ParseIP, exact on dotted-quad
IPv4 (Go rejects leading zeros) and permissive on colon-bearing IPv6
text; the claims never reach it with a nonempty interface or target
host. -/
def goParseIPOk (s : Str) : Bool :=
  let fields := splitCh '.' s
  let ipv4 :=
    fields.length = 4 &&
    fields.all (fun f =>
      f ≠ [] && f.length ≤ 3 && f.all Char.isDigit &&
      (f.headD '0' ≠ '0' || f.length = 1) &&
      (readDigits f).getD 256 ≤ 255)
  let ipv6 :=
    containsChar ':' s && s ≠ [] &&
    s.all (fun c => c.isDigit || (97 ≤ c.toNat && c.toNat ≤ 102) ||
      (65 ≤ c.toNat && c.toNat ≤ 70) || c = ':' || c = '.')
  ipv4 || ipv6

/-- validatePort (src/lib/validation.go): nonpositive ports pass (the
field is treated as unset), the range is 1..65535, and strict mode
faults below 1024. -/
def validatePort (strict : Bool) (c : TunnelConfig) : Option Str :=
  if c.Port ≤ 0 then none
  else if c.Port < 1 ∨ c.Port > 65535 then
    some (str "port " ++ intToStr c.Port ++ str " is out of valid range (1-65535)")
  else if strict ∧ c.Port < 1024 then
    some (str "port " ++ intToStr c.Port ++
      str " is in privileged range (1-1023), may require root privileges")
  else none

/-- validateInterface (src/lib/validation.go). -/
def validateInterface (strict : Bool) (c : TunnelConfig) : Option Str :=
  if c.Iface = [] then none
  else if goParseIPOk c.Iface then none
  else if c.Iface = str "localhost" ∨ c.Iface = str "127.0.0.1" ∨
      c.Iface = str "0.0.0.0" ∨ c.Iface = str "::" ∨ c.Iface = str "::1" then none
  else if strict then
    some (str "interface '" ++ c.Iface ++ str "' should be a valid IP address or localhost")
  else if c.Iface.any (fun ch => ch = ' ' ∨ ch = '\t' ∨ ch = '\n' ∨ ch = '\r') then
    some (str "interface '" ++ c.Iface ++ str "' contains whitespace characters")
  else none

/-- validateTarget (src/lib/validation.go): host or host:port, with the
port an integer in 1..65535. -/
def validateTarget (c : TunnelConfig) : Option Str :=
  if c.Target = [] then none
  else
    let parts := splitCh ':' c.Target
    if parts.length > 2 then
      some (str "target '" ++ c.Target ++ str "' has invalid format, should be 'host' or 'host:port'")
    else
      let host := parts.headD []
      if host = [] then some (str "target '" ++ c.Target ++ str "' has empty host part")
      else if ¬ goParseIPOk host ∧
          host.any (fun ch => ch = ' ' ∨ ch = '\t' ∨ ch = '\n' ∨ ch = '\r') then
        some (str "target host '" ++ host ++ str "' contains whitespace characters")
      else
        match parts with
        | [_, portStr] =>
          (match atoi portStr with
          | none => some (str "target port '" ++ portStr ++ str "' is not a valid number")
          | some p =>
            if p < 1 ∨ p > 65535 then
              some (str "target port " ++ intToStr p ++ str " is out of valid range (1-65535)")
            else none)
        | _ => none

/-- The three field checkers a validation rule can carry. -/
inductive VField where
  | port
  | target
  | iface
deriving DecidableEq, Repr

/-- A validation rule: field, required flag and description; in the
source tables the validator always matches the field, so it is derived
from it. -/
structure VRule where
  field : VField
  required : Bool
  descr : Str
deriving DecidableEq, Repr

/-- initializeTunnelSpecs (src/lib/validation.go): the rule list for a
lower-cased tunnel type, or none for an unknown type. -/
def specRules (t : Str) : Option (List VRule) :=
  if t = str "httpclient" then some
    [⟨.port, true, str "Local port is required for HTTP client"⟩,
     ⟨.iface, false, str "Interface must be valid if specified"⟩,
     ⟨.target, false, str "Target must be valid if specified"⟩]
  else if t = str "httpserver" then some
    [⟨.target, true, str "Target is required for HTTP server"⟩,
     ⟨.port, false, str "Port must be valid if specified"⟩,
     ⟨.iface, false, str "Interface must be valid if specified"⟩]
  else if t = str "sockstunnel" then some
    [⟨.port, true, str "Local port is required for SOCKS tunnel"⟩,
     ⟨.iface, false, str "Interface must be valid if specified"⟩]
  else if t = str "socksserver" then some
    [⟨.port, true, str "Local port is required for SOCKS tunnel"⟩,
     ⟨.iface, false, str "Interface must be valid if specified"⟩]
  else if t = str "client" then some
    [⟨.port, true, str "Local port is required for client tunnel"⟩,
     ⟨.target, false, str "Target must be valid if specified"⟩,
     ⟨.iface, false, str "Interface must be valid if specified"⟩]
  else if t = str "server" then some
    [⟨.target, true, str "Target is required for server tunnel"⟩,
     ⟨.port, false, str "Port must be valid if specified"⟩,
     ⟨.iface, false, str "Interface must be valid if specified"⟩]
  else if t = str "ircclient" then some
    [⟨.port, true, str "Local port is required for IRC client"⟩,
     ⟨.iface, false, str "Interface must be valid if specified"⟩]
  else if t = str "ircserver" then some
    [⟨.target, true, str "Target is required for IRC server"⟩,
     ⟨.port, false, str "Port must be valid if specified"⟩,
     ⟨.iface, false, str "Interface must be valid if specified"⟩]
  else if t = str "streamrclient" then some
    [⟨.port, true, str "Local port is required for streaming client"⟩,
     ⟨.iface, false, str "Interface must be valid if specified"⟩]
  else if t = str "streamrserver" then some
    [⟨.target, true, str "Target is required for streaming server"⟩,
     ⟨.port, false, str "Port must be valid if specified"⟩,
     ⟨.iface, false, str "Interface must be valid if specified"⟩]
  else if t = str "httpbidirserver" then some
    [⟨.target, true, str "Target is required for bidirectional server"⟩,
     ⟨.port, false, str "Port must be valid if specified"⟩,
     ⟨.iface, false, str "Interface must be valid if specified"⟩]
  else if t = str "socksirc" then some
    [⟨.port, true, str "Local port is required for SOCKS IRC"⟩,
     ⟨.iface, false, str "Interface must be valid if specified"⟩]
  else none

/-- applyRule (src/lib/validation.go): the required-field check, then
the field checker, each wrapping its message with the rule
description. -/
def applyRule (strict : Bool) (c : TunnelConfig) (r : VRule) : Option Str :=
  let requiredErr : Option Str :=
    if r.required then
      match r.field with
      | .port =>
        if c.Port ≤ 0 then
          some (r.descr ++ str ": port must be specified and greater than 0")
        else none
      | .target =>
        if c.Target = [] then
          some (r.descr ++ str ": target must be specified")
        else none
      | .iface =>
        if c.Iface = [] then
          some (r.descr ++ str ": interface must be specified")
        else none
    else none
  match requiredErr with
  | some e => some e
  | none =>
    let checkerErr :=
      match r.field with
      | .port => validatePort strict c
      | .target => validateTarget c
      | .iface => validateInterface strict c
    checkerErr.map (fun e => r.descr ++ str ": " ++ e)

/-- The character class strings.ContainsAny(name, " \t\n\r=[]") tests in
validateBasicFields. -/
def badNameChar (ch : Char) : Bool :=
  ch = ' ' ∨ ch = '\t' ∨ ch = '\n' ∨ ch = '\r' ∨ ch = '=' ∨ ch = '[' ∨ ch = ']'

/-- validateBasicFields (src/lib/validation.go). -/
def validateBasicFields (c : TunnelConfig) : Option Str :=
  if c.Name = [] then some (str "tunnel name is required")
  else if c.Typ = [] then some (str "tunnel type is required")
  else if c.Name.any badNameChar then
    some (str "tunnel name '" ++ c.Name ++
      str "' contains invalid characters (spaces, tabs, newlines, equals, or brackets)")
  else none

/-- validateFormatSpecific (src/lib/validation.go) with its three
per-dialect strict-mode name constraints. -/
def validateFormatSpecific (strict : Bool) (format : Str) (c : TunnelConfig) :
    Option Str :=
  if format = str "properties" then
    if strict ∧ c.Name.any (fun ch => ch = '.' ∨ ch = '=') then
      some (str "tunnel name '" ++ c.Name ++
        str "' contains characters that may cause issues in properties format")
    else none
  else if format = str "ini" then
    if strict ∧ c.Name.any (fun ch => ch = '[' ∨ ch = ']') then
      some (str "tunnel name '" ++ c.Name ++
        str "' contains characters that may cause issues in INI format")
    else none
  else if format = str "yaml" then
    if strict ∧ (startsWith (str " ") c.Name ∨ endsWith (str " ") c.Name) then
      some (str "tunnel name '" ++ c.Name ++
        str "' has leading or trailing spaces that may cause issues in YAML format")
    else none
  else none

/-- Validate (src/lib/validation.go): basic fields, the type-specific
rule walk stopping at the first failure, then the format-specific
constraints.  Unknown types fault in strict mode only. -/
def Validate (strict : Bool) (format : Str) (c : TunnelConfig) : Option Str :=
  match validateBasicFields c with
  | some e => some e
  | none =>
    match specRules (toLowerS c.Typ) with
    | none =>
      if strict then some (str "unknown tunnel type: " ++ c.Typ) else none
    | some rules =>
      match rules.findSome? (applyRule strict c) with
      | some e => some e
      | none => validateFormatSpecific strict format c

/-- Options (src/unnamed/part_000): flatten a config into a key/value
list; group values print with the %v verb.  The Go map is modelled by
this list, whose keys are pairwise distinct by construction. -/
def Options (c : TunnelConfig) : List (Str × Str) :=
  [(str "Name", c.Name), (str "Type", c.Typ)] ++
  (if c.Iface ≠ [] then [(str "Interface", c.Iface)] else []) ++
  (if c.Port ≠ 0 then [(str "Port", intToStr c.Port)] else []) ++
  (if c.Target ≠ [] then [(str "Target", c.Target)] else []) ++
  (if c.PersistentKey then [(str "PersistentKey", str "true")] else []) ++
  (if c.Description ≠ [] then [(str "Description", c.Description)] else []) ++
  (c.I2CP.getD []).map (fun p => (str "I2CP." ++ p.1, goSprint p.2)) ++
  (c.Tunnel.getD []).map (fun p => (str "Tunnel." ++ p.1, goSprint p.2)) ++
  (c.Inbound.getD []).map (fun p => (str "Inbound." ++ p.1, goSprint p.2)) ++
  (c.Outbound.getD []).map (fun p => (str "Outbound." ++ p.1, goSprint p.2))

/-- One entry of SetOptions (src/unnamed/part_000): the field switch,
the length-guarded prefix routing, and the two fallible conversions. -/
def setOption (c : TunnelConfig) (k v : Str) : Except Str TunnelConfig :=
  if k = str "Name" then .ok { c with Name := v }
  else if k = str "Type" then .ok { c with Typ := v }
  else if k = str "Interface" then .ok { c with Iface := v }
  else if k = str "Port" then
    match atoi v with
    | some p => .ok { c with Port := p }
    | none => .error (str "invalid port")
  else if k = str "Target" then .ok { c with Target := v }
  else if k = str "PersistentKey" then
    match goParseBool v with
    | some b => .ok { c with PersistentKey := b }
    | none => .error (str "invalid persistent key")
  else if k = str "Description" then .ok { c with Description := v }
  else if k.length > 5 ∧ k.take 5 = str "I2CP." then
    .ok { c with I2CP := mapSet c.I2CP (k.drop 5) (.str v) }
  else if k.length > 7 ∧ k.take 7 = str "Tunnel." then
    .ok { c with Tunnel := mapSet c.Tunnel (k.drop 7) (.str v) }
  else if k.length > 8 ∧ k.take 8 = str "Inbound." then
    .ok { c with Inbound := mapSet c.Inbound (k.drop 8) (.str v) }
  else if k.length > 9 ∧ k.take 9 = str "Outbound." then
    .ok { c with Outbound := mapSet c.Outbound (k.drop 9) (.str v) }
  else .ok c

/-- SetOptions (src/unnamed/part_000), folded over the option list. -/
def SetOptions (c : TunnelConfig) (opts : List (Str × Str)) :
    Except Str TunnelConfig :=
  opts.foldlM (fun c p => setOption c p.1 p.2) c

example :
    Validate false [] { emptyConfig with Name := str "t", Typ := str "httpclient", Port := 80 } = none := by
  decide

example :
    (Validate true [] { emptyConfig with Name := str "t", Typ := str "httpclient", Port := 80 }).map
      (isSubstr (str "privileged range")) = some true := by
  decide

example :
    (Validate false [] { emptyConfig with Name := str "t", Typ := str "httpclient", Port := 70000 }).map
      (isSubstr (str "out of valid range")) = some true := by
  decide

example :
    (Validate false [] { emptyConfig with Name := str "t", Typ := str "httpclient" }).map
      (isSubstr (str "Local port is required")) = some true := by
  decide

example :
    (SetOptions emptyConfig (Options { emptyConfig with Name := str "N", Typ := str "client", Port := -3, PersistentKey := true, I2CP := some [(str "x", .list [str "4", str "0"])] })).toOption.map
      (fun c => (c.Name, c.Typ, c.Port, c.PersistentKey, mapGet c.I2CP (str "x"))) =
    some (str "N", str "client", -3, true, some (.str (str "[4 0]"))) := by
  decide


/-! ### General lemmas about the string model -/

theorem ne_of_head {a b : Char} {s t : Str} (hab : a ≠ b) : a :: s ≠ b :: t :=
  fun h => hab (List.cons.inj h).1

theorem append_ne_of_take {p q : Str} (k : Str) (h : ¬ p = q.take p.length) :
    p ++ k ≠ q := fun he => h (by rw [← he, List.take_left])

theorem isSubstr_of_starts {p s : Str} (h : startsWith p s = true) :
    isSubstr p s = true := by
  cases s with
  | nil => simpa [isSubstr, startsWith] using h
  | cons c t => simp [isSubstr, startsWith] at h ⊢; exact Or.inl h

theorem isSubstr_append_right {p t : Str} (s : Str) (h : isSubstr p t = true) :
    isSubstr p (s ++ t) = true := by
  induction s with
  | nil => simpa using h
  | cons c cs ih => simp [isSubstr]; exact Or.inr ih

theorem startsWith_append (p k : Str) : startsWith p (p ++ k) = true := by
  induction p with
  | nil => simp [startsWith, List.isPrefixOf]
  | cons c cs ih => simpa [startsWith, List.isPrefixOf] using ih

theorem isSubstr_mid (s t : Str) (p : Str) :
    isSubstr p (s ++ (p ++ t)) = true :=
  isSubstr_append_right s (isSubstr_of_starts (startsWith_append p t))

theorem dropWhile_eq_self_of_none {p : Char → Bool} {s : Str}
    (h : ∀ c ∈ s, p c = false) : s.dropWhile p = s := by
  cases s with
  | nil => rfl
  | cons c t => simp [List.dropWhile, h c (by simp)]

theorem trimLeft_eq_self {s : Str} (h : ∀ c ∈ s, isSpaceGo c = false) :
    trimLeft s = s := dropWhile_eq_self_of_none h

theorem trimRight_eq_self {s : Str} (h : ∀ c ∈ s, isSpaceGo c = false) :
    trimRight s = s := by
  unfold trimRight
  rw [dropWhile_eq_self_of_none (fun c hc => h c (by simpa using hc)), List.reverse_reverse]

theorem trimSpace_eq_self {s : Str} (h : ∀ c ∈ s, isSpaceGo c = false) :
    trimSpace s = s := by
  unfold trimSpace
  rw [trimLeft_eq_self h, trimRight_eq_self h]

theorem natToStrF_irrel : ∀ f₁ f₂ n, n < f₁ → n < f₂ →
    natToStrF f₁ n = natToStrF f₂ n := by
  intro f₁
  induction f₁ with
  | zero => intro f₂ n h; omega
  | succ f ih =>
    intro f₂ n h₁ h₂
    cases f₂ with
    | zero => omega
    | succ f₂ =>
      show natToStrF (f + 1) n = natToStrF (f₂ + 1) n
      unfold natToStrF
      by_cases h10 : n < 10
      · simp [h10]
      · simp only [h10, if_false]
        rw [ih f₂ (n / 10) (by omega) (by omega)]

theorem natToStr_unfold (n : Nat) :
    natToStr n = if n < 10 then [Char.ofNat (48 + n)]
      else natToStr (n / 10) ++ [Char.ofNat (48 + n % 10)] := by
  show natToStrF (n + 1) n = _
  unfold natToStrF
  by_cases h10 : n < 10
  · simp [h10]
  · simp only [h10, if_false]
    rw [natToStrF_irrel n (n / 10 + 1) (n / 10) (by omega) (by omega)]
    rfl

theorem natToStr_digit_char {n : Nat} (h : n < 10) :
    (Char.ofNat (48 + n)).isDigit = true ∧ (Char.ofNat (48 + n)).toNat = 48 + n := by
  interval_cases n <;> exact ⟨rfl, rfl⟩

theorem natToStr_spec (n : Nat) :
    natToStr n ≠ [] ∧ ∀ c ∈ natToStr n, c.isDigit = true := by
  induction n using Nat.strong_induction_on with
  | _ n ih =>
    rw [natToStr_unfold]
    by_cases h10 : n < 10
    · simp only [h10, if_true]
      refine ⟨by simp, ?_⟩
      intro c hc
      simp at hc
      rw [hc]
      exact (natToStr_digit_char h10).1
    · simp only [h10, if_false]
      have hrec := ih (n / 10) (by omega)
      refine ⟨by simp [hrec.1], ?_⟩
      intro c hc
      rcases List.mem_append.mp hc with h | h
      · exact hrec.2 c h
      · simp at h
        rw [h]
        exact (natToStr_digit_char (by omega)).1

theorem foldl_digits_natToStr (n : Nat) :
    (natToStr n).foldl (fun acc c => acc * 10 + (c.toNat - 48)) 0 = n := by
  induction n using Nat.strong_induction_on with
  | _ n ih =>
    rw [natToStr_unfold]
    by_cases h10 : n < 10
    · simp only [h10, if_true, List.foldl]
      rw [(natToStr_digit_char h10).2]
      omega
    · simp only [h10, if_false]
      rw [List.foldl_append, ih (n / 10) (by omega)]
      simp only [List.foldl]
      rw [(natToStr_digit_char (show n % 10 < 10 by omega)).2]
      omega

theorem readDigits_natToStr (n : Nat) : readDigits (natToStr n) = some n := by
  unfold readDigits
  have hs := natToStr_spec n
  rw [if_pos ⟨hs.1, by simpa [List.all_eq_true] using hs.2⟩]
  rw [foldl_digits_natToStr]

theorem atoi_natToStr (n : Nat) : atoi (natToStr n) = some (n : Int) := by
  have hs := natToStr_spec n
  rcases hd : natToStr n with _ | ⟨c, t⟩
  · exact absurd hd hs.1
  · have hcd : c.isDigit = true := hs.2 c (by rw [hd]; simp)
    have hplus : ¬ c = '+' := by
      intro h; rw [h] at hcd; exact absurd hcd (by decide)
    have hminus : ¬ c = '-' := by
      intro h; rw [h] at hcd; exact absurd hcd (by decide)
    show (if c = '+' then _ else if c = '-' then _ else (readDigits (c :: t)).map Int.ofNat) = _
    rw [if_neg hplus, if_neg hminus, ← hd, readDigits_natToStr]
    rfl

theorem atoi_intToStr (i : Int) : atoi (intToStr i) = some i := by
  unfold intToStr
  by_cases hneg : i < 0
  · simp only [hneg, if_true]
    show (readDigits (natToStr i.natAbs)).map (fun n => -(n : Int)) = some i
    rw [readDigits_natToStr]
    have h : ((i.natAbs : Int)) = -i := by omega
    simp [h]
  · simp only [hneg, if_false]
    rw [atoi_natToStr]
    have h : ((i.natAbs : Int)) = i := by omega
    simp [h]

/-- Does a coerced value carry the boolean variant? -/
def isBoolV : Value → Bool
  | .bool _ => true
  | _ => false

/-- Does a coerced value carry the list variant? -/
def isListV : Value → Bool
  | .list _ => true
  | _ => false

theorem readDigits_some {s : Str} {m : Nat} (h : readDigits s = some m) :
    s ≠ [] ∧ ∀ c ∈ s, c.isDigit = true := by
  unfold readDigits at h
  split at h
  · next hc => exact ⟨hc.1, by simpa [List.all_eq_true] using hc.2⟩
  · exact absurd h (by simp)

theorem atoi_chars {s : Str} {n : Int} (h : atoi s = some n) :
    s ≠ [] ∧ ∀ c ∈ s, c.isDigit = true ∨ c = '+' ∨ c = '-' := by
  cases s with
  | nil => exact absurd h (by simp [atoi])
  | cons c t =>
    refine ⟨by simp, ?_⟩
    have hmain : ∀ d ∈ t, d.isDigit = true ∨ d = '+' ∨ d = '-' := by
      intro d hd
      simp only [atoi] at h
      split_ifs at h
      · rcases hrd : readDigits t with _ | m
        · rw [hrd] at h; simp at h
        · exact Or.inl ((readDigits_some hrd).2 d hd)
      · rcases hrd : readDigits t with _ | m
        · rw [hrd] at h; simp at h
        · exact Or.inl ((readDigits_some hrd).2 d hd)
      · rcases hrd : readDigits (c :: t) with _ | m
        · rw [hrd] at h; simp at h
        · exact Or.inl ((readDigits_some hrd).2 d (List.mem_cons_of_mem c hd))
    intro d hd
    rw [List.mem_cons] at hd
    rcases hd with rfl | hd
    · simp only [atoi] at h
      split_ifs at h with h1 h2
      · exact Or.inr (Or.inl h1)
      · exact Or.inr (Or.inr h2)
      · rcases hrd : readDigits (d :: t) with _ | m
        · rw [hrd] at h; simp at h
        · exact Or.inl ((readDigits_some hrd).2 d (by simp))
    · exact hmain d hd

theorem space_cases {c : Char} (h : isSpaceGo c = true) :
    c = ' ' ∨ c = '\t' ∨ c = '\n' ∨ c = '\x0b' ∨ c = '\x0c' ∨ c = '\r' := by
  simp [isSpaceGo] at h
  tauto

theorem atoiChar_not_space {c : Char}
    (h : c.isDigit = true ∨ c = '+' ∨ c = '-') : isSpaceGo c = false := by
  by_contra hsp
  rw [Bool.not_eq_false] at hsp
  rcases space_cases hsp with h6 | h6 | h6 | h6 | h6 | h6 <;> subst h6 <;>
    rcases h with hd | hd | hd <;> first
      | exact absurd hd (by decide)
      | exact absurd hd (by decide)

theorem atoi_trimSpace {s : Str} {n : Int} (h : atoi s = some n) :
    trimSpace s = s :=
  trimSpace_eq_self (fun c hc => atoiChar_not_space ((atoi_chars h).2 c hc))

theorem toLower_eq_self_of_lt {c : Char} (h : c.toNat < 65) : c.toLower = c := by
  have hn : ¬(c.toNat ≥ 65 ∧ c.toNat ≤ 90) := by omega
  simp [Char.toLower, hn]

theorem isDigit_toNat_bounds {c : Char} (hd : c.isDigit = true) :
    48 ≤ c.toNat ∧ c.toNat ≤ 57 := by
  simp only [Char.isDigit, Bool.and_eq_true, decide_eq_true_eq, UInt32.le_def,
    BitVec.le_def] at hd
  have h48 : (UInt32.toBitVec 48).toNat = 48 := rfl
  have h57 : (UInt32.toBitVec 57).toNat = 57 := rfl
  rw [h48, h57] at hd
  show 48 ≤ c.val.toBitVec.toNat ∧ c.val.toBitVec.toNat ≤ 57
  omega

theorem atoiChar_toLower {c : Char}
    (h : c.isDigit = true ∨ c = '+' ∨ c = '-') : c.toLower = c := by
  apply toLower_eq_self_of_lt
  rcases h with hd | hd | hd
  · have := isDigit_toNat_bounds hd
    omega
  · subst hd; decide
  · subst hd; decide

theorem atoi_toLowerS_head {s : Str} {n : Int} (h : atoi s = some n) :
    ∀ d wt, toLowerS s = d :: wt → d.isDigit = true ∨ d = '+' ∨ d = '-' := by
  obtain ⟨hne, hall⟩ := atoi_chars h
  cases s with
  | nil => exact absurd rfl hne
  | cons c t =>
    intro d wt heq
    have hc := hall c (by simp)
    have hcd : c.toLower = d := (List.cons.inj heq).1
    rw [← hcd, atoiChar_toLower hc]
    exact hc

theorem atoi_not_vocab {s : Str} {n : Int} (h : atoi s = some n) (w : String)
    (hw : ((str w).headD ' ').isDigit = false)
    (hw2 : (str w).headD ' ' ≠ '+') (hw3 : (str w).headD ' ' ≠ '-')
    (hwne : str w ≠ []) : toLowerS s ≠ str w := by
  intro heq
  rcases hd : str w with _ | ⟨d, wt⟩
  · exact hwne hd
  · rw [hd] at heq
    have hh := atoi_toLowerS_head h d wt heq
    rw [hd] at hw hw2 hw3
    simp at hw hw2 hw3
    rcases hh with h1 | h1 | h1
    · rw [h1] at hw; cases hw
    · exact hw2 h1
    · exact hw3 h1

theorem parseINIValue_atoi {s : Str} {n : Int} (h : atoi s = some n) :
    parseINIValue s = .int n := by
  unfold parseINIValue
  rw [atoi_trimSpace h]
  rw [if_neg, if_neg, h]
  · push_neg
    refine ⟨?_, ?_, ?_, ?_⟩ <;>
      exact atoi_not_vocab h _ (by decide) (by decide) (by decide) (by decide)
  · push_neg
    refine ⟨?_, ?_, ?_, ?_⟩ <;>
      exact atoi_not_vocab h _ (by decide) (by decide) (by decide) (by decide)

theorem parseValue_atoi {s : Str} {n : Int} (h : atoi s = some n)
    (hb : goParseBool s = none) : parseValue s = .int n := by
  unfold parseValue
  rw [hb, h]


theorem parseValue_never_list_on_int {s : Str} {n : Int} (h : atoi s = some n) :
    isListV (parseValue s) = false := by
  unfold parseValue
  rcases hb : goParseBool s with _ | b
  · rw [h]; rfl
  · rfl

theorem isBoolV_parseValue (s : Str) :
    isBoolV (parseValue s) = (goParseBool s).isSome := by
  rcases h : goParseBool s with _ | b
  · simp only [parseValue, h]
    rcases h2 : atoi s with _ | n
    · simp only [h2]
      split <;> rfl
    · rfl
  · simp only [parseValue, h]
    rfl

/-! ### Claim theorems -/

/-- C2 (corrected): coercion of "4,0" gives the two-element string list
and coercion of "7" gives the integer 7 in both dialects; a token that
fully parses as a base-10 integer is never list-coerced, and it is
returned as an integer provided it is not in the dialect's boolean
vocabulary — for the INI coercion that holds for every integer token,
while the properties coercion hands "1" and "0" to strconv.ParseBool
first. -/
theorem C2_coercion_amended :
    parseValue (str "4,0") = .list [str "4", str "0"] ∧
    parseINIValue (str "4,0") = .list [str "4", str "0"] ∧
    parseValue (str "7") = .int 7 ∧ parseINIValue (str "7") = .int 7 ∧
    (∀ (s : Str) (n : Int), atoi s = some n → parseINIValue s = .int n) ∧
    (∀ (s : Str) (n : Int), atoi s = some n → goParseBool s = none →
      parseValue s = .int n) ∧
    (∀ (s : Str) (n : Int), atoi s = some n →
      isListV (parseValue s) = false ∧ isListV (parseINIValue s) = false) := by
  refine ⟨by decide, by decide, by decide, by decide, ?_, ?_, ?_⟩
  · exact fun s n h => parseINIValue_atoi h
  · exact fun s n h hb => parseValue_atoi h hb
  · intro s n h
    exact ⟨parseValue_never_list_on_int h, by rw [parseINIValue_atoi h]; rfl⟩

/-- C2 counterexample: the token "1" fully parses as the base-10
integer 1, yet the properties coercion returns the boolean true, not
the integer — the claim's general sentence fails on it. -/
theorem C2_counterexample :
    atoi (str "1") = some 1 ∧ parseValue (str "1") = .bool true ∧
    ¬ parseValue (str "1") = .int 1 := by decide

/-- C2 witness: the amended general clauses applied at the concrete
token "7". -/
theorem C2_witness :
    parseINIValue (str "7") = Value.int 7 ∧
    isListV (parseValue (str "7")) = false :=
  ⟨C2_coercion_amended.2.2.2.2.1 (str "7") 7 (by decide),
   (C2_coercion_amended.2.2.2.2.2.2 (str "7") 7 (by decide)).1⟩

/-- C3 (code bug): the properties parser is documented as lenient and
error-free, but the unchecked parseValue(s).(bool) assertion for
option.persistentClientKey panics on any value outside strconv
ParseBool's domain: at the failing input the model returns no config
instead of a config. -/
theorem C3_panic_on_nonbool_persistent_key :
    parseJavaProperties [(str "option.persistentClientKey", str "maybe")] = none := by
  decide

/-- C4 (corrected): the properties coercion returns a boolean exactly
for strconv.ParseBool's vocabulary — 1, t, T, TRUE, true, True, 0, f,
F, FALSE, false, False — not for the case-insensitive spellings of
true/false alone; in particular "1" is boolean while "tRuE" and "yes"
are not. -/
theorem C4_properties_bool_vocab :
    (∀ s : Str, isBoolV (parseValue s) = true ↔
      (s = str "1" ∨ s = str "t" ∨ s = str "T" ∨ s = str "TRUE" ∨ s = str "true" ∨
       s = str "True" ∨ s = str "0" ∨ s = str "f" ∨ s = str "F" ∨ s = str "FALSE" ∨
       s = str "false" ∨ s = str "False")) ∧
    parseValue (str "true") = .bool true ∧ parseValue (str "FALSE") = .bool false ∧
    isBoolV (parseValue (str "yes")) = false ∧
    isBoolV (parseValue (str "tRuE")) = false := by
  refine ⟨?_, by decide, by decide, by decide, by decide⟩
  intro s
  rw [isBoolV_parseValue]
  unfold goParseBool
  split_ifs with h1 h2
  · exact iff_of_true rfl (by tauto)
  · exact iff_of_true rfl (by tauto)
  · exact iff_of_false (by simp) (by tauto)

/-- C4 counterexample: "1" is coerced to a boolean by the properties
coercion although it does not case-insensitively equal true or
false. -/
theorem C4_counterexample :
    isBoolV (parseValue (str "1")) = true ∧ parseValue (str "1") = .bool true ∧
    ¬ toLowerS (str "1") = str "true" ∧ ¬ toLowerS (str "1") = str "false" := by
  decide

/-- C5 (code bug): the spec fixes PersistentKey = true for any
option.persistentClientKey value, but the code assigns the coerced
boolean, so the value "false" yields PersistentKey = false (and a
non-boolean value panics, C3). -/
theorem C5_persistent_key_follows_value :
    (parseJavaProperties [(str "option.persistentClientKey", str "false")]).map
      (fun c => c.PersistentKey) = some false ∧
    (parseJavaProperties [(str "option.persistentClientKey", str "TRUE")]).map
      (fun c => c.PersistentKey) = some true := by
  decide

@[simp] theorem newParseError_Message (input : Str) (l c : Int) (f m : Str) :
    (newParseError input l c f m).Message = m := rfl

@[simp] theorem newParseError_Line (input : Str) (l c : Int) (f m : Str) :
    (newParseError input l c f m).Line = l := rfl

@[simp] theorem newParseError_Format (input : Str) (l c : Int) (f m : Str) :
    (newParseError input l c f m).Format = f := rfl

theorem splitFirst_eq_none {c : Char} {s : Str} (h : splitFirst c s = none) :
    containsChar c s = false := by
  induction s with
  | nil => rfl
  | cons a t ih =>
    unfold splitFirst at h
    by_cases hac : a = c
    · rw [if_pos hac] at h; cases h
    · rw [if_neg hac] at h
      rw [Option.map_eq_none'] at h
      have ht : containsChar c t = false := ih h
      have hca : (c == a) = false := by
        rw [beq_eq_false_iff_ne]
        exact Ne.symm hac
      show ((a :: t).contains c) = false
      rw [List.contains_cons, hca]
      exact ht

theorem mem_trimLeft {c : Char} {s : Str} (hc : isSpaceGo c = false)
    (h : c ∈ s) : c ∈ trimLeft s := by
  unfold trimLeft
  rw [← List.takeWhile_append_dropWhile isSpaceGo s] at h
  rcases List.mem_append.mp h with h1 | h1
  · exact absurd (List.mem_takeWhile_imp h1) (by simp [hc])
  · exact h1

theorem mem_trimRight {c : Char} {s : Str} (hc : isSpaceGo c = false)
    (h : c ∈ s) : c ∈ trimRight s := by
  unfold trimRight
  rw [List.mem_reverse]
  exact mem_trimLeft hc (by simpa using h)

theorem mem_trimSpace {c : Char} {s : Str} (hc : isSpaceGo c = false)
    (h : c ∈ s) : c ∈ trimSpace s :=
  mem_trimRight hc (mem_trimLeft hc h)

theorem parseINILine_error_msg {input : Str} {st : TunnelConfig × Str}
    {idx : Nat} {line : Str} {e : ParseError}
    (h : parseINILine input st idx line = .error e) :
    e.Message = str "unclosed section bracket - expected ']'" ∨
    e.Message = str "empty section name - sections must have a name" ∨
    e.Message = str "expected key=value pair or section header [name]" ∨
    e.Message = str "empty key name - key=value pairs must have a key" := by
  simp only [parseINILine] at h
  repeat' split at h
  all_goals simp only [reduceCtorEq, Except.error.injEq] at h
  all_goals (try (subst h; simp only [newParseError_Message]; decide))
  all_goals
    (exfalso
     rename_i hnone hct
     have h1 : '=' ∈ line := by simpa [containsChar] using hct
     have h2 : ¬ '=' ∈ trimSpace line := by
       simpa [containsChar] using splitFirst_eq_none hnone
     exact h2 (mem_trimSpace (by decide) h1))

theorem foldIdxM_error
    {f : (TunnelConfig × Str) → Nat → Str → Except ParseError (TunnelConfig × Str)} :
    ∀ (ls : List Str) (i : Nat) (st : TunnelConfig × Str) (e : ParseError),
      foldIdxM f st i ls = .error e → ∃ st₂ j l, f st₂ j l = .error e := by
  intro ls
  induction ls with
  | nil => intro i st e h; exact absurd h (by simp [foldIdxM])
  | cons l t ih =>
    intro i st e h
    unfold foldIdxM at h
    cases hf : f st i l with
    | error e₂ =>
      rw [hf] at h
      simp only [bind, Except.bind] at h
      cases h
      exact ⟨st, i, l, hf⟩
    | ok st₂ =>
      rw [hf] at h
      simp only [bind, Except.bind] at h
      exact ih (i + 1) st₂ e h

theorem parseINI_error_msgs (input : Str) (e : ParseError)
    (h : parseINI input = .error e) :
    e.Message = str "unclosed section bracket - expected ']'" ∨
    e.Message = str "empty section name - sections must have a name" ∨
    e.Message = str "expected key=value pair or section header [name]" ∨
    e.Message = str "empty key name - key=value pairs must have a key" := by
  unfold parseINI at h
  cases hff : foldIdxM (parseINILine input) (initConfig, []) 0 (splitCh '\n' input) with
  | error e₂ =>
    rw [hff] at h
    simp only [bind, Except.bind] at h
    cases h
    obtain ⟨st₂, j, l, he⟩ := foldIdxM_error _ _ _ _ hff
    exact parseINILine_error_msg he
  | ok st =>
    rw [hff] at h
    simp only [bind, Except.bind] at h
    cases h

/-- C6 (confirmed): the INI parser faults on exactly the four malformed
shapes at the offending line — unclosed section bracket and empty
section name at their line, missing = and empty key at theirs — extra =
characters after the first are legal, and every fault the parser can
ever raise carries one of those four messages (the fifth in-code message
about extra = characters is unreachable, since a line whose trimmed text
has no = never contains one). -/
theorem C6_ini_fault_catalogue :
    (errLine (parseINI (str "[tunnel\ntype = client")) = some 1 ∧
     (errMsg (parseINI (str "[tunnel\ntype = client"))).map
       (isSubstr (str "unclosed section bracket")) = some true) ∧
    (errLine (parseINI (str "[]\ntype = client")) = some 1 ∧
     (errMsg (parseINI (str "[]\ntype = client"))).map
       (isSubstr (str "empty section name")) = some true) ∧
    (errLine (parseINI (str "[test]\ntype client")) = some 2 ∧
     (errMsg (parseINI (str "[test]\ntype client"))).map
       (isSubstr (str "expected key=value pair")) = some true) ∧
    (errLine (parseINI (str "[test]\n= value")) = some 2 ∧
     (errMsg (parseINI (str "[test]\n= value"))).map
       (isSubstr (str "empty key name")) = some true) ∧
    ((parseINI (str "[test]\nkey = a=b")).toOption.map
       (fun c => mapGet c.Tunnel (str "key")) = some (some (.str (str "a=b")))) ∧
    (∀ (input : Str) (e : ParseError), parseINI input = .error e →
      e.Message = str "unclosed section bracket - expected ']'" ∨
      e.Message = str "empty section name - sections must have a name" ∨
      e.Message = str "expected key=value pair or section header [name]" ∨
      e.Message = str "empty key name - key=value pairs must have a key") := by
  refine ⟨by decide, by decide, by decide, by decide, by decide, ?_⟩
  exact parseINI_error_msgs

/-- C6 witness: the message-classification clause applied at the first
concrete malformed input. -/
theorem C6_witness :
    (newParseError (str "[tunnel\ntype = client") 1 0 (str "ini")
      (str "unclosed section bracket - expected ']'")).Message =
        str "unclosed section bracket - expected ']'" ∨
    (newParseError (str "[tunnel\ntype = client") 1 0 (str "ini")
      (str "unclosed section bracket - expected ']'")).Message =
        str "empty section name - sections must have a name" ∨
    (newParseError (str "[tunnel\ntype = client") 1 0 (str "ini")
      (str "unclosed section bracket - expected ']'")).Message =
        str "expected key=value pair or section header [name]" ∨
    (newParseError (str "[tunnel\ntype = client") 1 0 (str "ini")
      (str "unclosed section bracket - expected ']'")).Message =
        str "empty key name - key=value pairs must have a key" :=
  C6_ini_fault_catalogue.2.2.2.2.2 (str "[tunnel\ntype = client")
    (newParseError (str "[tunnel\ntype = client") 1 0 (str "ini")
      (str "unclosed section bracket - expected ']'")) (by rfl)

/-- An httpclient config with the given name and local port, empty
interface and target, used to state the port-validation claim. -/
def cfgH (name : Str) (port : Int) : TunnelConfig :=
  { Name := name, Typ := str "httpclient", Iface := [], Port := port, Target := [],
    PersistentKey := false, Description := [], I2CP := none, Tunnel := none,
    Inbound := none, Outbound := none }

@[simp] theorem cfgH_Name (n : Str) (p : Int) : (cfgH n p).Name = n := rfl

@[simp] theorem cfgH_Typ (n : Str) (p : Int) : (cfgH n p).Typ = str "httpclient" := rfl

@[simp] theorem cfgH_Iface (n : Str) (p : Int) : (cfgH n p).Iface = [] := rfl

@[simp] theorem cfgH_Port (n : Str) (p : Int) : (cfgH n p).Port = p := rfl

@[simp] theorem cfgH_Target (n : Str) (p : Int) : (cfgH n p).Target = [] := rfl

theorem basicFields_cfgH (name : Str) (port : Int) (h1 : ¬ name = [])
    (h2 : name.any badNameChar = false) :
    validateBasicFields (cfgH name port) = none := by
  unfold validateBasicFields
  simp only [cfgH_Name, cfgH_Typ]
  rw [if_neg h1, if_neg (by decide), if_neg (by simp [h2])]

theorem validate_httpclient (strict : Bool) (name : Str) (port : Int)
    (h1 : ¬ name = []) (h2 : name.any badNameChar = false) :
    Validate strict [] (cfgH name port) =
      if port ≤ 0 then
        some (str "Local port is required for HTTP client: port must be specified and greater than 0")
      else if port > 65535 then
        some ((str "Local port is required for HTTP client" ++ str ": ") ++
          ((str "port " ++ intToStr port) ++ str " is out of valid range (1-65535)"))
      else if strict ∧ port < 1024 then
        some ((str "Local port is required for HTTP client" ++ str ": ") ++
          ((str "port " ++ intToStr port) ++
            str " is in privileged range (1-1023), may require root privileges"))
      else none := by
  unfold Validate
  rw [basicFields_cfgH name port h1 h2]
  have hty : toLowerS (cfgH name port).Typ = str "httpclient" := by rfl
  rw [hty]
  rw [show specRules (str "httpclient") = some
    [⟨.port, true, str "Local port is required for HTTP client"⟩,
     ⟨.iface, false, str "Interface must be valid if specified"⟩,
     ⟨.target, false, str "Target must be valid if specified"⟩] from rfl]
  have hr2 : applyRule strict (cfgH name port)
      ⟨.iface, false, str "Interface must be valid if specified"⟩ = none := by
    simp [applyRule, validateInterface]
  have hr3 : applyRule strict (cfgH name port)
      ⟨.target, false, str "Target must be valid if specified"⟩ = none := by
    simp [applyRule, validateTarget]
  have hfmt : validateFormatSpecific strict [] (cfgH name port) = none := by
    simp +decide [validateFormatSpecific]
  by_cases hp0 : port ≤ 0
  · have hr1 : applyRule strict (cfgH name port)
        ⟨.port, true, str "Local port is required for HTTP client"⟩ =
        some (str "Local port is required for HTTP client: port must be specified and greater than 0") := by
      simp only [applyRule, cfgH_Port]
      rw [if_pos hp0]
      rfl
    simp [List.findSome?, hr1, hp0]
  · by_cases hp65 : port > 65535
    · have hr1 : applyRule strict (cfgH name port)
          ⟨.port, true, str "Local port is required for HTTP client"⟩ =
          some ((str "Local port is required for HTTP client" ++ str ": ") ++
            ((str "port " ++ intToStr port) ++ str " is out of valid range (1-65535)")) := by
        simp only [applyRule, cfgH_Port]
        rw [if_neg hp0]
        simp only [validatePort, cfgH_Port]
        rw [if_neg hp0, if_pos (Or.inr hp65)]
        rfl
      simp [List.findSome?, hr1, hp0, hp65]
    · by_cases hpriv : strict = true ∧ port < 1024
      · obtain ⟨hstr, hlt⟩ := hpriv
        subst hstr
        have hr1 : applyRule true (cfgH name port)
            ⟨.port, true, str "Local port is required for HTTP client"⟩ =
            some ((str "Local port is required for HTTP client" ++ str ": ") ++
              ((str "port " ++ intToStr port) ++
                str " is in privileged range (1-1023), may require root privileges")) := by
          simp only [applyRule, cfgH_Port]
          rw [if_neg hp0]
          simp only [validatePort, cfgH_Port]
          rw [if_neg hp0, if_neg (show ¬(port < 1 ∨ port > 65535) by omega),
            if_pos (show True ∧ port < 1024 from ⟨trivial, hlt⟩)]
          rfl
        simp [List.findSome?, hr1, hp0, hp65, hlt]
      · have hr1 : applyRule strict (cfgH name port)
            ⟨.port, true, str "Local port is required for HTTP client"⟩ = none := by
          simp only [applyRule, cfgH_Port]
          rw [if_neg hp0]
          simp only [validatePort, cfgH_Port]
          rw [if_neg hp0, if_neg (show ¬(port < 1 ∨ port > 65535) by omega),
            if_neg hpriv]
          rfl
        simp [List.findSome?, hr1, hr2, hr3, hfmt, hp0, hp65, hpriv]


/-- C7 (corrected): for an httpclient config whose name passes the basic
field checks and whose interface and target are empty, a port above
65535 faults with "out of valid range" in both modes, a port in
1024..65535 passes in both modes, a port in 1..1023 faults with
"privileged range" exactly in strict mode, and a nonpositive port faults
with the required-port message, not the range message. -/
theorem C7_port_validation_amended :
    (∀ (strict : Bool) (name : Str) (port : Int), ¬ name = [] →
      name.any badNameChar = false → port > 65535 →
      ∃ m, Validate strict [] (cfgH name port) = some m ∧
        isSubstr (str "out of valid range") m = true) ∧
    (∀ (strict : Bool) (name : Str) (port : Int), ¬ name = [] →
      name.any badNameChar = false → 1024 ≤ port → port ≤ 65535 →
      Validate strict [] (cfgH name port) = none) ∧
    (∀ (name : Str) (port : Int), ¬ name = [] →
      name.any badNameChar = false → 1 ≤ port → port ≤ 1023 →
      (∃ m, Validate true [] (cfgH name port) = some m ∧
        isSubstr (str "privileged range") m = true) ∧
      Validate false [] (cfgH name port) = none) ∧
    (∀ (strict : Bool) (name : Str) (port : Int), ¬ name = [] →
      name.any badNameChar = false → port ≤ 0 →
      ∃ m, Validate strict [] (cfgH name port) = some m ∧
        isSubstr (str "Local port is required") m = true ∧
        isSubstr (str "out of valid range") m = false) := by
  refine ⟨?_, ?_, ?_, ?_⟩
  · intro strict name port h1 h2 hp
    rw [validate_httpclient strict name port h1 h2,
      if_neg (show ¬ port ≤ 0 by omega), if_pos hp]
    exact ⟨_, rfl, isSubstr_append_right _ (isSubstr_append_right _ (by decide))⟩
  · intro strict name port h1 h2 hlo hhi
    rw [validate_httpclient strict name port h1 h2,
      if_neg (show ¬ port ≤ 0 by omega), if_neg (show ¬ port > 65535 by omega),
      if_neg (show ¬ (strict = true ∧ port < 1024) by rintro ⟨-, h⟩; omega)]
  · intro name port h1 h2 hlo hhi
    constructor
    · rw [validate_httpclient true name port h1 h2,
        if_neg (show ¬ port ≤ 0 by omega), if_neg (show ¬ port > 65535 by omega),
        if_pos (show true = true ∧ port < 1024 from ⟨rfl, by omega⟩)]
      exact ⟨_, rfl, isSubstr_append_right _ (isSubstr_append_right _ (by decide))⟩
    · rw [validate_httpclient false name port h1 h2,
        if_neg (show ¬ port ≤ 0 by omega), if_neg (show ¬ port > 65535 by omega),
        if_neg (show ¬ (false = true ∧ port < 1024) by rintro ⟨h, -⟩; cases h)]
  · intro strict name port h1 h2 hp
    rw [validate_httpclient strict name port h1 h2, if_pos hp]
    exact ⟨_, rfl, by decide, by decide⟩

/-- C7 counterexample: a negative port yields the required-port fault,
whose message does not contain "out of valid range" as the claim
demands. -/
theorem C7_counterexample :
    (Validate false [] (cfgH (str "t") (-1))).map
      (isSubstr (str "out of valid range")) = some false := by decide

/-- C7 witness: the out-of-range clause applied at port 70000, the
pass clause at 4444 and the privileged clause at 80. -/
theorem C7_witness :
    (∃ m, Validate false [] (cfgH (str "t") 70000) = some m ∧
      isSubstr (str "out of valid range") m = true) ∧
    Validate true [] (cfgH (str "t") 4444) = none ∧
    (∃ m, Validate true [] (cfgH (str "t") 80) = some m ∧
      isSubstr (str "privileged range") m = true) ∧
    Validate false [] (cfgH (str "t") 80) = none :=
  ⟨C7_port_validation_amended.1 false (str "t") 70000 (by decide) (by decide)
     (by decide),
   C7_port_validation_amended.2.1 true (str "t") 4444 (by decide) (by decide)
     (by decide) (by decide),
   (C7_port_validation_amended.2.2.1 (str "t") 80 (by decide) (by decide)
     (by decide) (by decide)).1,
   (C7_port_validation_amended.2.2.1 (str "t") 80 (by decide) (by decide)
     (by decide) (by decide)).2⟩

/-- All four option groups of a config are allocated (non-nil). -/
def allGroupsSome (c : TunnelConfig) : Bool :=
  c.I2CP.isSome && c.Tunnel.isSome && c.Inbound.isSome && c.Outbound.isSome

theorem allGroupsSome_mk (n t i : Str) (p : Int) (tg : Str) (pk : Bool) (d : Str)
    (g1 g2 g3 g4 : GoMap) :
    allGroupsSome ⟨n, t, i, p, tg, pk, d, g1, g2, g3, g4⟩ =
      (g1.isSome && g2.isSome && g3.isSome && g4.isSome) := rfl

theorem isSome_mapSet (m : GoMap) (k : Str) (v : Value) :
    (mapSet m k v).isSome = true := rfl

set_option maxHeartbeats 1000000 in
theorem parseNumberedTunnelProperty_groups (property v : Str) (c : TunnelConfig)
    (hc : allGroupsSome c = true) :
    allGroupsSome (parseNumberedTunnelProperty property v c) = true := by
  have hhc := hc
  simp only [allGroupsSome, Bool.and_eq_true] at hhc
  obtain ⟨⟨⟨h1, h2⟩, h3⟩, h4⟩ := hhc
  have key : ∀ c₂, parseNumberedTunnelProperty property v c = c₂ → allGroupsSome c₂ = true := by
    intro c₂ h
    simp only [parseNumberedTunnelProperty] at h
    repeat' split at h
    all_goals
      (subst h
       first
       | exact hc
       | simp only [allGroupsSome_mk, isSome_mapSet, Option.isSome_some, h1, h2,
           h3, h4, Bool.and_self, Bool.and_true, Bool.true_and])
  exact key _ rfl

set_option maxHeartbeats 1000000 in
theorem flatSwitch_groups (k v : Str) (c : TunnelConfig)
    (hc : allGroupsSome c = true) : allGroupsSome (flatSwitch k v c) = true := by
  have hhc := hc
  simp only [allGroupsSome, Bool.and_eq_true] at hhc
  obtain ⟨⟨⟨h1, h2⟩, h3⟩, h4⟩ := hhc
  unfold flatSwitch
  by_cases e1 : k = str "name"
  · rw [if_pos e1]; exact hc
  rw [if_neg e1]
  by_cases e2 : k = str "type"
  · rw [if_pos e2]; exact hc
  rw [if_neg e2]
  by_cases e3 : k = str "interface"
  · rw [if_pos e3]; exact hc
  rw [if_neg e3]
  by_cases e4 : k = str "listenPort"
  · rw [if_pos e4]
    cases atoi v with
    | none => exact hc
    | some p => exact hc
  rw [if_neg e4]
  by_cases e5 : k = str "targetDestination"
  · rw [if_pos e5]; exact hc
  rw [if_neg e5]
  by_cases e6 : k = str "targetHost"
  · rw [if_pos e6]; exact hc
  rw [if_neg e6]
  by_cases e7 : k = str "targetPort"
  · rw [if_pos e7]
    cases atoi v with
    | none => exact hc
    | some p =>
      simp only [allGroupsSome_mk, isSome_mapSet, Option.isSome_some, h1, h2,
        h3, h4, Bool.and_self, Bool.and_true, Bool.true_and]
  rw [if_neg e7]
  by_cases e8 : k = str "description"
  · rw [if_pos e8]; exact hc
  rw [if_neg e8]
  by_cases e9 : k = str "proxyList"
  · rw [if_pos e9]
    simp only [allGroupsSome_mk, isSome_mapSet, Option.isSome_some, h1, h2,
      h3, h4, Bool.and_self, Bool.and_true, Bool.true_and]
  rw [if_neg e9]
  by_cases e10 : k = str "sharedClient"
  · rw [if_pos e10]
    simp only [allGroupsSome_mk, isSome_mapSet, Option.isSome_some, h1, h2,
      h3, h4, Bool.and_self, Bool.and_true, Bool.true_and]
  rw [if_neg e10]
  by_cases e11 : k = str "startOnLoad"
  · rw [if_pos e11]
    simp only [allGroupsSome_mk, isSome_mapSet, Option.isSome_some, h1, h2,
      h3, h4, Bool.and_self, Bool.and_true, Bool.true_and]
  rw [if_neg e11]
  by_cases e12 : k = str "accessList"
  · rw [if_pos e12]
    simp only [allGroupsSome_mk, isSome_mapSet, Option.isSome_some, h1, h2,
      h3, h4, Bool.and_self, Bool.and_true, Bool.true_and]
  rw [if_neg e12]
  by_cases e13 : k = str "spoofedHost"
  · rw [if_pos e13]
    simp only [allGroupsSome_mk, isSome_mapSet, Option.isSome_some, h1, h2,
      h3, h4, Bool.and_self, Bool.and_true, Bool.true_and]
  rw [if_neg e13]
  by_cases e14 : k = str "i2cpHost"
  · rw [if_pos e14]
    simp only [allGroupsSome_mk, isSome_mapSet, Option.isSome_some, h1, h2,
      h3, h4, Bool.and_self, Bool.and_true, Bool.true_and]
  rw [if_neg e14]
  by_cases e15 : k = str "i2cpPort"
  · rw [if_pos e15]
    cases atoi v with
    | none =>
      simp only [allGroupsSome_mk, isSome_mapSet, Option.isSome_some, h1, h2,
        h3, h4, Bool.and_self, Bool.and_true, Bool.true_and]
    | some p =>
      simp only [allGroupsSome_mk, isSome_mapSet, Option.isSome_some, h1, h2,
        h3, h4, Bool.and_self, Bool.and_true, Bool.true_and]
  rw [if_neg e15]
  exact hc

set_option maxHeartbeats 1000000 in
theorem optionRoute_groups {k v : Str} {c c₂ : TunnelConfig}
    (h : optionRoute k v c = some c₂)
    (hc : allGroupsSome c = true) : allGroupsSome c₂ = true := by
  have h' := hc
  simp only [allGroupsSome, Bool.and_eq_true] at h'
  obtain ⟨⟨⟨h1, h2⟩, h3⟩, h4⟩ := h'
  simp only [optionRoute] at h
  repeat' split at h
  all_goals first
    | (injection h with h2x; subst h2x;
       first
       | exact hc
       | simp only [allGroupsSome_mk, isSome_mapSet, Option.isSome_some, h1, h2,
           h3, h4, Bool.and_self, Bool.and_true, Bool.true_and])
    | (cases h)

set_option maxHeartbeats 1000000 in
theorem parsePropertyKey_groups {k v : Str} {c c₂ : TunnelConfig}
    (h : parsePropertyKey k v c = some c₂)
    (hc : allGroupsSome c = true) : allGroupsSome c₂ = true := by
  simp only [parsePropertyKey] at h
  repeat' split at h
  all_goals first
    | (injection h with h2; subst h2;
       first
       | exact hc
       | exact parseNumberedTunnelProperty_groups _ _ _ hc)
    | (exact optionRoute_groups h (flatSwitch_groups _ _ _ hc))
    | (cases h)

theorem parseJavaProperties_groups_aux :
    ∀ (ts : List (Str × Str)) (c₀ c : TunnelConfig), allGroupsSome c₀ = true →
      ts.foldlM (fun c p => parsePropertyKey p.1 p.2 c) c₀ = some c →
      allGroupsSome c = true := by
  intro ts
  induction ts with
  | nil =>
    intro c₀ c h0 h
    cases h
    exact h0
  | cons p t ih =>
    intro c₀ c h0 h
    rw [List.foldlM_cons] at h
    cases hp : parsePropertyKey p.1 p.2 c₀ with
    | none => rw [hp] at h; cases h
    | some c₁ =>
      rw [hp] at h
      exact ih c₁ c (parsePropertyKey_groups hp h0) h

set_option maxHeartbeats 1000000 in
theorem parseINIKeyValue_groups (k v : Str) (c : TunnelConfig)
    (hc : allGroupsSome c = true) :
    allGroupsSome (parseINIKeyValue k v c) = true := by
  have hhc := hc
  simp only [allGroupsSome, Bool.and_eq_true] at hhc
  obtain ⟨⟨⟨h1, h2⟩, h3⟩, h4⟩ := hhc
  have tun : ∀ (tk : Str) (tv : Value),
      allGroupsSome { c with Tunnel := mapSet c.Tunnel tk tv } = true := by
    intro tk tv
    simp only [allGroupsSome_mk, isSome_mapSet, Option.isSome_some, h1, h2,
      h3, h4, Bool.and_self, Bool.and_true, Bool.true_and]
  unfold parseINIKeyValue
  by_cases e1 : k = str "name"
  · rw [if_pos e1]
    by_cases en : c.Name = []
    · rw [if_pos en]; exact hc
    · rw [if_neg en]; exact hc
  rw [if_neg e1]
  by_cases e2 : k = str "type"
  · rw [if_pos e2]; exact hc
  rw [if_neg e2]
  by_cases e3 : k = str "host" ∨ k = str "interface"
  · rw [if_pos e3]; exact hc
  rw [if_neg e3]
  by_cases e4 : k = str "port"
  · rw [if_pos e4]
    cases atoi v with
    | none => exact hc
    | some p => exact hc
  rw [if_neg e4]
  by_cases e5 : k = str "destination"
  · rw [if_pos e5]; exact hc
  rw [if_neg e5]
  by_cases e6 : k = str "address"
  · rw [if_pos e6]; exact hc
  rw [if_neg e6]
  by_cases e7 : k = str "hostoverride"
  · rw [if_pos e7]; exact tun _ _
  rw [if_neg e7]
  by_cases e8 : k = str "description"
  · rw [if_pos e8]; exact hc
  rw [if_neg e8]
  by_cases e9 : k = str "keys"
  · rw [if_pos e9]
    by_cases et : toLowerS v = str "transient"
    · rw [if_pos et]; exact hc
    · rw [if_neg et]
      simp only [allGroupsSome_mk, isSome_mapSet, Option.isSome_some, h1, h2,
        h3, h4, Bool.and_self, Bool.and_true, Bool.true_and]
  rw [if_neg e9]
  by_cases e10 : k = str "gzip"
  · rw [if_pos e10]; exact tun _ _
  rw [if_neg e10]
  by_cases e11 : k = str "accesslist"
  · rw [if_pos e11]; exact tun _ _
  rw [if_neg e11]
  by_cases e12 : k = str "signaturetype"
  · rw [if_pos e12]; exact tun _ _
  rw [if_neg e12]
  by_cases e13 : k = str "explicitpeers"
  · rw [if_pos e13]; exact tun _ _
  rw [if_neg e13]
  by_cases e14 : k = str "multicast"
  · rw [if_pos e14]; exact tun _ _
  rw [if_neg e14]
  by_cases e15 : k = str "webircpassword"
  · rw [if_pos e15]; exact tun _ _
  rw [if_neg e15]
  by_cases e16 : k = str "maptoloopback"
  · rw [if_pos e16]; exact tun _ _
  rw [if_neg e16]
  by_cases e17 : k = str "enableuniquelocal"
  · rw [if_pos e17]; exact tun _ _
  rw [if_neg e17]
  by_cases e18 : startsWith (str "i2cp.") k = true
  · rw [if_pos e18]
    simp only [allGroupsSome_mk, isSome_mapSet, Option.isSome_some, h1, h2,
      h3, h4, Bool.and_self, Bool.and_true, Bool.true_and]
  rw [if_neg e18]
  by_cases e19 : startsWith (str "crypto.") k = true
  · rw [if_pos e19]; exact tun _ _
  rw [if_neg e19]
  by_cases e20 : startsWith (str "streamr.") k = true
  · rw [if_pos e20]; exact tun _ _
  rw [if_neg e20]
  by_cases e21 : startsWith (str "inbound.") k = true
  · rw [if_pos e21]
    simp only [allGroupsSome_mk, isSome_mapSet, Option.isSome_some, h1, h2,
      h3, h4, Bool.and_self, Bool.and_true, Bool.true_and]
  rw [if_neg e21]
  by_cases e22 : startsWith (str "outbound.") k = true
  · rw [if_pos e22]
    simp only [allGroupsSome_mk, isSome_mapSet, Option.isSome_some, h1, h2,
      h3, h4, Bool.and_self, Bool.and_true, Bool.true_and]
  rw [if_neg e22]
  exact tun _ _

set_option maxHeartbeats 1000000 in
theorem parseINILine_groups {input : Str} {st st₂ : TunnelConfig × Str}
    {idx : Nat} {line : Str}
    (h : parseINILine input st idx line = .ok st₂)
    (hc : allGroupsSome st.1 = true) : allGroupsSome st₂.1 = true := by
  have h' := hc
  simp only [allGroupsSome, Bool.and_eq_true] at h'
  obtain ⟨⟨⟨h1, h2⟩, h3⟩, h4⟩ := h'
  simp only [parseINILine] at h
  repeat' split at h
  all_goals first
    | (injection h with h2x; subst h2x;
       first
       | exact hc
       | (simp only []; exact parseINIKeyValue_groups _ _ _ hc)
       | simp only [allGroupsSome_mk, isSome_mapSet, Option.isSome_some, h1, h2,
           h3, h4, Bool.and_self, Bool.and_true, Bool.true_and])
    | (cases h)

theorem foldIdxM_groups {input : Str} :
    ∀ (ls : List Str) (i : Nat) (st st₂ : TunnelConfig × Str),
      allGroupsSome st.1 = true →
      foldIdxM (parseINILine input) st i ls = .ok st₂ →
      allGroupsSome st₂.1 = true := by
  intro ls
  induction ls with
  | nil =>
    intro i st st₂ h0 h
    cases h
    exact h0
  | cons l t ih =>
    intro i st st₂ h0 h
    unfold foldIdxM at h
    cases hf : parseINILine input st i l with
    | error e => rw [hf] at h; simp only [bind, Except.bind] at h; cases h
    | ok st₁ =>
      rw [hf] at h
      simp only [bind, Except.bind] at h
      exact ih (i + 1) st₁ st₂ (parseINILine_groups hf h0) h

/-- C8 (corrected): after a successful properties or INI parse all four
option groups are allocated (possibly empty) maps; the YAML parser,
however, returns the decoded entry's groups as they are, so a document
without the nested sub-objects leaves them nil. -/
theorem C8_groups_amended :
    (∀ (ts : List (Str × Str)) (c : TunnelConfig),
      parseJavaProperties ts = some c → allGroupsSome c = true) ∧
    (∀ (input : Str) (c : TunnelConfig),
      parseINI input = .ok c → allGroupsSome c = true) ∧
    (∀ (name : Str) (cfg : TunnelConfig) (rest : YamlDoc) (c : TunnelConfig),
      parseYAML ((name, cfg) :: rest) = .ok c →
      c.I2CP = cfg.I2CP ∧ c.Tunnel = cfg.Tunnel ∧
      c.Inbound = cfg.Inbound ∧ c.Outbound = cfg.Outbound) := by
  refine ⟨?_, ?_, ?_⟩
  · intro ts c h
    exact parseJavaProperties_groups_aux ts initConfig c (by decide) h
  · intro input c h
    unfold parseINI at h
    cases hff : foldIdxM (parseINILine input) (initConfig, []) 0 (splitCh '\n' input) with
    | error e => rw [hff] at h; simp only [bind, Except.bind] at h; cases h
    | ok st =>
      rw [hff] at h
      simp only [bind, Except.bind, pure, Except.pure] at h
      cases h
      exact foldIdxM_groups _ 0 _ st (by decide) hff
  · intro name cfg rest c h
    simp only [parseYAML] at h
    cases h
    exact ⟨rfl, rfl, rfl, rfl⟩

/-- C8 counterexample: the repo's own minimal YAML tunnel — a tunnels
map whose entry has type client and nothing else — parses successfully
with all four option groups nil, refuting the all-dialects claim. -/
theorem C8_counterexample :
    (parseYAML [(str "MinimalTunnel",
      { emptyConfig with Typ := str "client" })]).toOption.map
      (fun c => (c.I2CP, c.Tunnel, c.Inbound, c.Outbound, c.Name, c.Typ)) =
    some (none, none, none, none, str "MinimalTunnel", str "client") := by rfl

/-- C8 witness: the properties and INI clauses applied to concrete
parses. -/
theorem C8_witness :
    allGroupsSome initConfig = true ∧
    (∃ c, parseJavaProperties [(str "name", str "X")] = some c ∧
      allGroupsSome c = true) := by
  refine ⟨by decide, ?_⟩
  cases hp : parseJavaProperties [(str "name", str "X")] with
  | none => cases (by decide : ¬ parseJavaProperties [(str "name", str "X")] = none) hp
  | some c => exact ⟨c, rfl, C8_groups_amended.1 _ c hp⟩

theorem take_append_le (n : Nat) (p k : Str) (h : n ≤ p.length) :
    (p ++ k).take n = p.take n := by
  rw [List.take_append_eq_append_take, Nat.sub_eq_zero_of_le h, List.take_zero,
    List.append_nil]

theorem SetOptions_single (c₀ : TunnelConfig) (k v : Str) :
    SetOptions c₀ [(k, v)] = setOption c₀ k v := by
  unfold SetOptions
  cases h : setOption c₀ k v with
  | ok c => simp [List.foldlM, h, bind, Except.bind, pure, Except.pure]
  | error e => simp [List.foldlM, h, bind, Except.bind]

theorem SetOptions_append_ok {c₀ c₁ : TunnelConfig} {l₁ : List (Str × Str)}
    (l₂ : List (Str × Str)) (h : SetOptions c₀ l₁ = .ok c₁) :
    SetOptions c₀ (l₁ ++ l₂) = SetOptions c₁ l₂ := by
  induction l₁ generalizing c₀ with
  | nil =>
    cases h
    rfl
  | cons p t ih =>
    cases hp : setOption c₀ p.1 p.2 with
    | error e =>
      exfalso
      simp only [SetOptions, List.foldlM_cons, hp, bind, Except.bind] at h
      cases h
    | ok c =>
      simp only [SetOptions, List.cons_append, List.foldlM_cons, hp, bind,
        Except.bind] at h ⊢
      exact ih h

theorem SetOptions_seg_iface (c₀ : TunnelConfig) (i : Str) (h : c₀.Iface = []) :
    SetOptions c₀ (if i ≠ [] then [(str "Interface", i)] else []) =
      .ok { c₀ with Iface := i } := by
  by_cases hi : i = []
  · subst hi
    rw [if_neg (by simp)]
    have he : { c₀ with Iface := ([] : Str) } = c₀ := by rw [← h]
    rw [he]
    rfl
  · rw [if_pos hi]
    rfl

theorem SetOptions_seg_port (c₀ : TunnelConfig) (p : Int) (h : c₀.Port = 0) :
    SetOptions c₀ (if p ≠ 0 then [(str "Port", intToStr p)] else []) =
      .ok { c₀ with Port := p } := by
  by_cases hp : p = 0
  · subst hp
    rw [if_neg (by simp)]
    have he : { c₀ with Port := (0 : Int) } = c₀ := by rw [← h]
    rw [he]
    rfl
  · rw [if_pos hp, SetOptions_single]
    unfold setOption
    rw [if_neg (show ¬ str "Port" = str "Name" by decide),
      if_neg (show ¬ str "Port" = str "Type" by decide),
      if_neg (show ¬ str "Port" = str "Interface" by decide),
      if_pos (show str "Port" = str "Port" from rfl),
      atoi_intToStr]

theorem SetOptions_seg_target (c₀ : TunnelConfig) (t : Str) (h : c₀.Target = []) :
    SetOptions c₀ (if t ≠ [] then [(str "Target", t)] else []) =
      .ok { c₀ with Target := t } := by
  by_cases ht : t = []
  · subst ht
    rw [if_neg (by simp)]
    have he : { c₀ with Target := ([] : Str) } = c₀ := by rw [← h]
    rw [he]
    rfl
  · rw [if_pos ht]
    rfl

theorem SetOptions_seg_pk (c₀ : TunnelConfig) (b : Bool)
    (h : c₀.PersistentKey = false) :
    SetOptions c₀ (if b then [(str "PersistentKey", str "true")] else []) =
      .ok { c₀ with PersistentKey := b } := by
  cases b with
  | false =>
    rw [if_neg (by simp)]
    have he : { c₀ with PersistentKey := false } = c₀ := by rw [← h]
    rw [he]
    rfl
  | true =>
    rw [if_pos rfl]
    rfl

theorem SetOptions_seg_desc (c₀ : TunnelConfig) (d : Str)
    (h : c₀.Description = []) :
    SetOptions c₀ (if d ≠ [] then [(str "Description", d)] else []) =
      .ok { c₀ with Description := d } := by
  by_cases hd : d = []
  · subst hd
    rw [if_neg (by simp)]
    have he : { c₀ with Description := ([] : Str) } = c₀ := by rw [← h]
    rw [he]
    rfl
  · rw [if_pos hd]
    rfl

theorem prefix_cond_ne (p k : Str) (m : Nat) (q : Str)
    (hm : m ≤ p.length) (h : ¬ p.take m = q) :
    ¬ ((p ++ k).length > m ∧ (p ++ k).take m = q) :=
  fun hc => h (by rw [← take_append_le m p k hm]; exact hc.2)

theorem setOption_group (pre k v : Str) (c₀ : TunnelConfig)
    (hpre : pre = str "I2CP." ∨ pre = str "Tunnel." ∨ pre = str "Inbound." ∨
      pre = str "Outbound.") :
    ∃ c₁, setOption c₀ (pre ++ k) v = .ok c₁ ∧
      c₁.Name = c₀.Name ∧ c₁.Typ = c₀.Typ ∧ c₁.Iface = c₀.Iface ∧
      c₁.Port = c₀.Port ∧ c₁.Target = c₀.Target ∧
      c₁.PersistentKey = c₀.PersistentKey ∧ c₁.Description = c₀.Description := by
  by_cases hk : k = []
  · subst hk
    rw [List.append_nil]
    rcases hpre with h | h | h | h <;> subst h <;>
      exact ⟨c₀, rfl, rfl, rfl, rfl, rfl, rfl, rfl, rfl⟩
  have hlen : 0 < k.length := List.length_pos.mpr hk
  rcases hpre with h | h | h | h <;> subst h <;> unfold setOption
  · rw [if_neg (@append_ne_of_take (str "I2CP.") (str "Name") k (by decide)),
      if_neg (@append_ne_of_take (str "I2CP.") (str "Type") k (by decide)),
      if_neg (@append_ne_of_take (str "I2CP.") (str "Interface") k (by decide)),
      if_neg (@append_ne_of_take (str "I2CP.") (str "Port") k (by decide)),
      if_neg (@append_ne_of_take (str "I2CP.") (str "Target") k (by decide)),
      if_neg (@append_ne_of_take (str "I2CP.") (str "PersistentKey") k (by decide)),
      if_neg (@append_ne_of_take (str "I2CP.") (str "Description") k (by decide)),
      if_pos (show (str "I2CP." ++ k).length > 5 ∧
          (str "I2CP." ++ k).take 5 = str "I2CP." from
        ⟨by rw [List.length_append, show (str "I2CP.").length = 5 from rfl]; omega,
          List.take_left' rfl⟩)]
    exact ⟨_, rfl, rfl, rfl, rfl, rfl, rfl, rfl, rfl⟩
  · rw [if_neg (@append_ne_of_take (str "Tunnel.") (str "Name") k (by decide)),
      if_neg (@append_ne_of_take (str "Tunnel.") (str "Type") k (by decide)),
      if_neg (@append_ne_of_take (str "Tunnel.") (str "Interface") k (by decide)),
      if_neg (@append_ne_of_take (str "Tunnel.") (str "Port") k (by decide)),
      if_neg (@append_ne_of_take (str "Tunnel.") (str "Target") k (by decide)),
      if_neg (@append_ne_of_take (str "Tunnel.") (str "PersistentKey") k (by decide)),
      if_neg (@append_ne_of_take (str "Tunnel.") (str "Description") k (by decide)),
      if_neg (prefix_cond_ne (str "Tunnel.") k 5 (str "I2CP.") (by decide) (by decide)),
      if_pos (show (str "Tunnel." ++ k).length > 7 ∧
          (str "Tunnel." ++ k).take 7 = str "Tunnel." from
        ⟨by rw [List.length_append, show (str "Tunnel.").length = 7 from rfl]; omega,
          List.take_left' rfl⟩)]
    exact ⟨_, rfl, rfl, rfl, rfl, rfl, rfl, rfl, rfl⟩
  · rw [if_neg (@append_ne_of_take (str "Inbound.") (str "Name") k (by decide)),
      if_neg (@append_ne_of_take (str "Inbound.") (str "Type") k (by decide)),
      if_neg (@append_ne_of_take (str "Inbound.") (str "Interface") k (by decide)),
      if_neg (@append_ne_of_take (str "Inbound.") (str "Port") k (by decide)),
      if_neg (@append_ne_of_take (str "Inbound.") (str "Target") k (by decide)),
      if_neg (@append_ne_of_take (str "Inbound.") (str "PersistentKey") k (by decide)),
      if_neg (@append_ne_of_take (str "Inbound.") (str "Description") k (by decide)),
      if_neg (prefix_cond_ne (str "Inbound.") k 5 (str "I2CP.") (by decide) (by decide)),
      if_neg (prefix_cond_ne (str "Inbound.") k 7 (str "Tunnel.") (by decide) (by decide)),
      if_pos (show (str "Inbound." ++ k).length > 8 ∧
          (str "Inbound." ++ k).take 8 = str "Inbound." from
        ⟨by rw [List.length_append, show (str "Inbound.").length = 8 from rfl]; omega,
          List.take_left' rfl⟩)]
    exact ⟨_, rfl, rfl, rfl, rfl, rfl, rfl, rfl, rfl⟩
  · rw [if_neg (@append_ne_of_take (str "Outbound.") (str "Name") k (by decide)),
      if_neg (@append_ne_of_take (str "Outbound.") (str "Type") k (by decide)),
      if_neg (@append_ne_of_take (str "Outbound.") (str "Interface") k (by decide)),
      if_neg (@append_ne_of_take (str "Outbound.") (str "Port") k (by decide)),
      if_neg (@append_ne_of_take (str "Outbound.") (str "Target") k (by decide)),
      if_neg (@append_ne_of_take (str "Outbound.") (str "PersistentKey") k (by decide)),
      if_neg (@append_ne_of_take (str "Outbound.") (str "Description") k (by decide)),
      if_neg (prefix_cond_ne (str "Outbound.") k 5 (str "I2CP.") (by decide) (by decide)),
      if_neg (prefix_cond_ne (str "Outbound.") k 7 (str "Tunnel.") (by decide) (by decide)),
      if_neg (prefix_cond_ne (str "Outbound.") k 8 (str "Inbound.") (by decide) (by decide)),
      if_pos (show (str "Outbound." ++ k).length > 9 ∧
          (str "Outbound." ++ k).take 9 = str "Outbound." from
        ⟨by rw [List.length_append, show (str "Outbound.").length = 9 from rfl]; omega,
          List.take_left' rfl⟩)]
    exact ⟨_, rfl, rfl, rfl, rfl, rfl, rfl, rfl, rfl⟩

theorem SetOptions_group_fold (pre : Str)
    (hpre : pre = str "I2CP." ∨ pre = str "Tunnel." ∨ pre = str "Inbound." ∨
      pre = str "Outbound.") :
    ∀ (l : List (Str × Value)) (c₀ : TunnelConfig),
      ∃ c₁, SetOptions c₀ (l.map (fun p => (pre ++ p.1, goSprint p.2))) = .ok c₁ ∧
        c₁.Name = c₀.Name ∧ c₁.Typ = c₀.Typ ∧ c₁.Iface = c₀.Iface ∧
        c₁.Port = c₀.Port ∧ c₁.Target = c₀.Target ∧
        c₁.PersistentKey = c₀.PersistentKey ∧ c₁.Description = c₀.Description := by
  intro l
  induction l with
  | nil => exact fun c₀ => ⟨c₀, rfl, rfl, rfl, rfl, rfl, rfl, rfl, rfl⟩
  | cons p t ih =>
    intro c₀
    obtain ⟨c₁, hc₁, n1, t1, i1, p1, tg1, pk1, d1⟩ :=
      setOption_group pre p.1 (goSprint p.2) c₀ hpre
    obtain ⟨c₂, hc₂, n2, t2, i2, p2, tg2, pk2, d2⟩ := ih c₁
    refine ⟨c₂, ?_, n2.trans n1, t2.trans t1, i2.trans i1, p2.trans p1,
      tg2.trans tg1, pk2.trans pk1, d2.trans d1⟩
    rw [List.map_cons]
    unfold SetOptions
    rw [List.foldlM_cons, hc₁]
    simp only [bind, Except.bind]
    exact hc₂

/-- C10 (confirmed): for every TunnelConfig c, applying SetOptions to a
fresh empty config with the map produced by Options c succeeds with no
error, and the resulting config agrees with c on Name, Type, Interface,
Port, Target, PersistentKey and Description. -/
theorem C10_options_setoptions :
    ∀ c : TunnelConfig, ∃ c₂,
      SetOptions emptyConfig (Options c) = .ok c₂ ∧
      c₂.Name = c.Name ∧ c₂.Typ = c.Typ ∧ c₂.Iface = c.Iface ∧
      c₂.Port = c.Port ∧ c₂.Target = c.Target ∧
      c₂.PersistentKey = c.PersistentKey ∧ c₂.Description = c.Description := by
  intro c
  have hOpts : Options c =
      [(str "Name", c.Name), (str "Type", c.Typ)] ++
      ((if c.Iface ≠ [] then [(str "Interface", c.Iface)] else []) ++
       ((if c.Port ≠ 0 then [(str "Port", intToStr c.Port)] else []) ++
        ((if c.Target ≠ [] then [(str "Target", c.Target)] else []) ++
         ((if c.PersistentKey then [(str "PersistentKey", str "true")] else []) ++
          ((if c.Description ≠ [] then [(str "Description", c.Description)] else []) ++
           ((c.I2CP.getD []).map (fun p => (str "I2CP." ++ p.1, goSprint p.2)) ++
            ((c.Tunnel.getD []).map (fun p => (str "Tunnel." ++ p.1, goSprint p.2)) ++
             ((c.Inbound.getD []).map (fun p => (str "Inbound." ++ p.1, goSprint p.2)) ++
              (c.Outbound.getD []).map (fun p => (str "Outbound." ++ p.1, goSprint p.2)))))))))) := by
    simp only [Options, List.append_assoc]
  have e1 : SetOptions emptyConfig [(str "Name", c.Name), (str "Type", c.Typ)] =
      .ok { emptyConfig with Name := c.Name, Typ := c.Typ } := rfl
  have e2 : SetOptions { emptyConfig with Name := c.Name, Typ := c.Typ }
      (if c.Iface ≠ [] then [(str "Interface", c.Iface)] else []) =
      .ok { emptyConfig with Name := c.Name, Typ := c.Typ, Iface := c.Iface } :=
    SetOptions_seg_iface _ _ rfl
  have e3 : SetOptions { emptyConfig with Name := c.Name, Typ := c.Typ, Iface := c.Iface }
      (if c.Port ≠ 0 then [(str "Port", intToStr c.Port)] else []) =
      .ok { emptyConfig with Name := c.Name, Typ := c.Typ, Iface := c.Iface, Port := c.Port } :=
    SetOptions_seg_port _ _ rfl
  have e4 : SetOptions { emptyConfig with Name := c.Name, Typ := c.Typ, Iface := c.Iface, Port := c.Port }
      (if c.Target ≠ [] then [(str "Target", c.Target)] else []) =
      .ok { emptyConfig with Name := c.Name, Typ := c.Typ, Iface := c.Iface, Port := c.Port, Target := c.Target } :=
    SetOptions_seg_target _ _ rfl
  have e5 : SetOptions { emptyConfig with Name := c.Name, Typ := c.Typ, Iface := c.Iface, Port := c.Port, Target := c.Target }
      (if c.PersistentKey then [(str "PersistentKey", str "true")] else []) =
      .ok { emptyConfig with Name := c.Name, Typ := c.Typ, Iface := c.Iface, Port := c.Port, Target := c.Target, PersistentKey := c.PersistentKey } :=
    SetOptions_seg_pk _ _ rfl
  have e6 : SetOptions { emptyConfig with Name := c.Name, Typ := c.Typ, Iface := c.Iface, Port := c.Port, Target := c.Target, PersistentKey := c.PersistentKey }
      (if c.Description ≠ [] then [(str "Description", c.Description)] else []) =
      .ok { emptyConfig with Name := c.Name, Typ := c.Typ, Iface := c.Iface, Port := c.Port, Target := c.Target, PersistentKey := c.PersistentKey, Description := c.Description } :=
    SetOptions_seg_desc _ _ rfl
  obtain ⟨g1, hg1, n1, t1, i1, p1, tg1, pk1, d1⟩ :=
    SetOptions_group_fold (str "I2CP.") (Or.inl rfl) (c.I2CP.getD [])
      { emptyConfig with Name := c.Name, Typ := c.Typ, Iface := c.Iface, Port := c.Port, Target := c.Target, PersistentKey := c.PersistentKey, Description := c.Description }
  obtain ⟨g2, hg2, n2, t2, i2, p2, tg2, pk2, d2⟩ :=
    SetOptions_group_fold (str "Tunnel.") (Or.inr (Or.inl rfl)) (c.Tunnel.getD []) g1
  obtain ⟨g3, hg3, n3, t3, i3, p3, tg3, pk3, d3⟩ :=
    SetOptions_group_fold (str "Inbound.") (Or.inr (Or.inr (Or.inl rfl)))
      (c.Inbound.getD []) g2
  obtain ⟨g4, hg4, n4, t4, i4, p4, tg4, pk4, d4⟩ :=
    SetOptions_group_fold (str "Outbound.") (Or.inr (Or.inr (Or.inr rfl)))
      (c.Outbound.getD []) g3
  refine ⟨g4, ?_, ?_, ?_, ?_, ?_, ?_, ?_, ?_⟩
  · rw [hOpts,
      SetOptions_append_ok _ e1,
      SetOptions_append_ok _ e2,
      SetOptions_append_ok _ e3,
      SetOptions_append_ok _ e4,
      SetOptions_append_ok _ e5,
      SetOptions_append_ok _ e6,
      SetOptions_append_ok _ hg1,
      SetOptions_append_ok _ hg2,
      SetOptions_append_ok _ hg3]
    exact hg4
  · rw [n4, n3, n2, n1]
  · rw [t4, t3, t2, t1]
  · rw [i4, i3, i2, i1]
  · rw [p4, p3, p2, p1]
  · rw [tg4, tg3, tg2, tg1]
  · rw [pk4, pk3, pk2, pk1]
  · rw [d4, d3, d2, d1]

/-- C10 witness: the round trip evaluated on a concrete config touching
every field and every option group. -/
theorem C10_witness :
    (SetOptions emptyConfig (Options
      { Name := str "web", Typ := str "httpclient", Iface := str "127.0.0.1",
        Port := 4444, Target := str "example.i2p", PersistentKey := true,
        Description := str "d", I2CP := some [(str "a", .int 3)],
        Tunnel := some [(str "b", .bool true)],
        Inbound := some [(str "c", .str (str "x"))],
        Outbound := some [(str "d", .list [str "4", str "0"])] })).toOption.map
      (fun c => (c.Name, c.Typ, c.Iface, c.Port, c.Target, c.PersistentKey,
        c.Description)) =
    some (str "web", str "httpclient", str "127.0.0.1", 4444,
      str "example.i2p", true, str "d") := by rfl

theorem dropWhile_append_formula (f : Char → Bool) (a b : Str) :
    (a ++ b).dropWhile f =
      if a.dropWhile f = [] then b.dropWhile f else a.dropWhile f ++ b := by
  induction a with
  | nil => simp
  | cons x xs ih =>
    by_cases hx : f x = true
    · simpa [List.dropWhile, hx] using ih
    · simp [List.dropWhile, hx]

theorem takeWhile_append_all {f : Char → Bool} {a : Str} (b : Str)
    (h : ∀ c ∈ a, f c = true) : (a ++ b).takeWhile f = a ++ b.takeWhile f := by
  induction a with
  | nil => simp
  | cons x xs ih =>
    simp only [List.cons_append, List.takeWhile]
    rw [h x (List.mem_cons_self x xs)]
    simp only [List.cons.injEq, true_and]
    exact ih (fun c hc => h c (List.mem_cons_of_mem x hc))

theorem dropWhile_append_all {f : Char → Bool} {a : Str} (b : Str)
    (h : ∀ c ∈ a, f c = true) : (a ++ b).dropWhile f = b.dropWhile f := by
  induction a with
  | nil => simp
  | cons x xs ih =>
    simp only [List.cons_append, List.dropWhile]
    rw [h x (List.mem_cons_self x xs)]
    exact ih (fun c hc => h c (List.mem_cons_of_mem x hc))

theorem trimRight_append {p : Str} (x : Str)
    (h : p.reverse.dropWhile isSpaceGo = p.reverse) :
    trimRight (p ++ x) = p ++ trimRight x := by
  unfold trimRight
  rw [List.reverse_append, dropWhile_append_formula]
  by_cases hx : x.reverse.dropWhile isSpaceGo = []
  · rw [if_pos hx, h, hx, List.reverse_reverse, List.reverse_nil, List.append_nil]
  · rw [if_neg hx, List.reverse_append, List.reverse_reverse]

theorem trimRight_cons_of_ne {a : Char} {x : Str}
    (h : x.reverse.dropWhile isSpaceGo ≠ []) :
    trimRight (a :: x) = a :: trimRight x := by
  unfold trimRight
  rw [show (a :: x).reverse = x.reverse ++ [a] from by simp,
    dropWhile_append_formula, if_neg h, List.reverse_append]
  rfl

theorem trimRight_eq_self_rev {x : Str} (h : trimRight x = x) :
    x.reverse.dropWhile isSpaceGo = x.reverse := by
  have := congrArg List.reverse h
  rwa [trimRight, List.reverse_reverse] at this

theorem splitFirst_append_free {sep : Char} {p : Str} (s : Str)
    (hp : ∀ c ∈ p, ¬ c = sep) :
    splitFirst sep (p ++ s) =
      (splitFirst sep s).map (fun q => (p ++ q.1, q.2)) := by
  induction p with
  | nil =>
    cases hs : splitFirst sep s <;> simp [hs]
  | cons x xs ih =>
    simp only [List.cons_append, splitFirst, List.append_eq]
    rw [if_neg (hp x (List.mem_cons_self x xs)),
      ih (fun c hc => hp c (List.mem_cons_of_mem x hc))]
    cases splitFirst sep s <;> rfl

theorem splitCh_cons_line {l : Str} (rest : Str)
    (h : containsChar '\n' l = false) :
    splitCh '\n' (l ++ '\n' :: rest) = l :: splitCh '\n' rest := by
  induction l with
  | nil => simp [splitCh]
  | cons a t ih =>
    have ha : ¬ a = '\n' := by
      intro he
      rw [he] at h
      simp [containsChar] at h
    have ht : containsChar '\n' t = false := by
      simp only [containsChar, List.contains_cons] at h
      exact (Bool.or_eq_false_iff.mp h).2
    have ih2 := ih ht
    simp only [List.cons_append, splitCh, if_neg ha, List.append_eq]
    rw [ih2]

theorem splitCh_joinNL {ls : List Str}
    (h : ∀ l ∈ ls, containsChar '\n' l = false) :
    splitCh '\n' (joinNL ls) = ls ++ [[]] := by
  induction ls with
  | nil => rfl
  | cons l t ih =>
    have hjoin : joinNL (l :: t) = l ++ '\n' :: joinNL t := by
      simp [joinNL]
    rw [hjoin, splitCh_cons_line _ (h l (List.mem_cons_self l t)),
      ih (fun x hx => h x (List.mem_cons_of_mem l hx))]
    rfl

theorem endsWith_append_self (x p : Str) : endsWith p (x ++ p) = true := by
  unfold endsWith
  exact List.isSuffixOf_iff_suffix.mpr ⟨x, rfl⟩

/-- The six fields of the round-trip law, as one tuple. -/
def scalars6 (c : TunnelConfig) : Str × Str × Str × Int × Str × Bool :=
  (c.Name, c.Typ, c.Iface, c.Port, c.Target, c.PersistentKey)

/-- A scalar field survives the properties round trip when it contains
no newline and no leading blank (the tokenizer strips leading blanks
from values). -/
def fieldPropOK (s : Str) : Prop :=
  containsChar '\n' s = false ∧ s.dropWhile (fun c => c = ' ' || c = '\t') = s

/-- An option-group entry generates one properties line when its key and
its formatted value contain no newline. -/
def entryPropOK (p : Str × Value) : Prop :=
  containsChar '\n' p.1 = false ∧ containsChar '\n' (formatPropertyValue p.2) = false

/-- The well-formedness of a parsed config under which the properties
round trip is provable: newline-free fields without leading blanks, and
newline-free option entries. -/
def propClean (c : TunnelConfig) : Prop :=
  fieldPropOK c.Name ∧ fieldPropOK c.Typ ∧ fieldPropOK c.Iface ∧
  fieldPropOK c.Target ∧ containsChar '\n' c.Description = false ∧
  (∀ p ∈ c.I2CP.getD [], entryPropOK p) ∧
  (∀ p ∈ c.Tunnel.getD [], entryPropOK p) ∧
  (∀ p ∈ c.Inbound.getD [], entryPropOK p) ∧
  (∀ p ∈ c.Outbound.getD [], entryPropOK p)

/-- One input line of the properties pipeline: tokenize it and feed the
token, if any, to the key handler. -/
def propLineStep (c : TunnelConfig) (l : Str) : Option TunnelConfig :=
  match lineToToken l with
  | none => some c
  | some (k, v) => parsePropertyKey k v c

theorem foldlM_filterMap_token (ls : List Str) :
    ∀ c₀ : TunnelConfig,
      (ls.filterMap lineToToken).foldlM (fun c p => parsePropertyKey p.1 p.2 c) c₀ =
        ls.foldlM propLineStep c₀ := by
  induction ls with
  | nil => intro c₀; rfl
  | cons l t ih =>
    intro c₀
    cases hl : lineToToken l with
    | none =>
      rw [List.filterMap_cons_none hl, List.foldlM_cons,
        show propLineStep c₀ l = some c₀ from by simp [propLineStep, hl]]
      simp only [bind, Option.bind]
      exact ih c₀
    | some kv =>
      rw [List.filterMap_cons_some hl, List.foldlM_cons, List.foldlM_cons,
        show propLineStep c₀ l = parsePropertyKey kv.1 kv.2 c₀ from by
          simp [propLineStep, hl]]
      cases parsePropertyKey kv.1 kv.2 c₀ with
      | none => rfl
      | some c₁ => simp only [bind, Option.bind]; exact ih c₁

theorem propsText_as_lines (s : Str) :
    parsePropsText s = (splitCh '\n' s).foldlM propLineStep initConfig := by
  unfold parsePropsText parseJavaProperties propTokenize
  exact foldlM_filterMap_token (splitCh '\n' s) initConfig

theorem propFold_single (c₀ : TunnelConfig) (l : Str) :
    List.foldlM propLineStep c₀ [l] = propLineStep c₀ l := by
  rw [List.foldlM_cons]
  cases h : propLineStep c₀ l with
  | none => rfl
  | some c => simp only [bind, Option.bind]; rfl

theorem propFold_append_ok {c₀ c₁ : TunnelConfig} {l₁ : List Str} (l₂ : List Str)
    (h : List.foldlM propLineStep c₀ l₁ = some c₁) :
    List.foldlM propLineStep c₀ (l₁ ++ l₂) = List.foldlM propLineStep c₁ l₂ := by
  induction l₁ generalizing c₀ with
  | nil => cases h; rfl
  | cons p t ih =>
    cases hp : propLineStep c₀ p with
    | none =>
      exfalso
      simp only [List.foldlM_cons, hp, bind, Option.bind] at h
      cases h
    | some c =>
      simp only [List.cons_append, List.foldlM_cons, hp, bind, Option.bind] at h ⊢
      exact ih h

theorem propFold_neutral (ls : List Str)
    (h : ∀ l ∈ ls, ∀ c₀ : TunnelConfig,
      ∃ c₁, propLineStep c₀ l = some c₁ ∧ scalars6 c₁ = scalars6 c₀) :
    ∀ c₀ : TunnelConfig, ∃ c₁, List.foldlM propLineStep c₀ ls = some c₁ ∧
      scalars6 c₁ = scalars6 c₀ := by
  induction ls with
  | nil => exact fun c₀ => ⟨c₀, rfl, rfl⟩
  | cons l t ih =>
    intro c₀
    obtain ⟨c₁, hc₁, hs₁⟩ := h l (List.mem_cons_self l t) c₀
    obtain ⟨c₂, hc₂, hs₂⟩ := ih (fun x hx => h x (List.mem_cons_of_mem l hx)) c₁
    refine ⟨c₂, ?_, hs₂.trans hs₁⟩
    rw [List.foldlM_cons, hc₁]
    simp only [bind, Option.bind]
    exact hc₂

theorem bool_ne_true {b : Bool} (h : b = false) : ¬ b = true := by simp [h]

theorem dropPre_append (p w : Str) : dropPre p (p ++ w) = w := by
  unfold dropPre
  rw [if_pos (startsWith_append p w), List.drop_left]

theorem parsePropertyKey_i2cp (w v : Str) (c : TunnelConfig) :
    parsePropertyKey (str "option.i2cp." ++ w) v c =
      some { c with I2CP := mapSet c.I2CP w (parseValue v) } := by
  show optionRoute (str "option.i2cp." ++ w) v
      (flatSwitch (str "option.i2cp." ++ w) v c) = _
  rw [show flatSwitch (str "option.i2cp." ++ w) v c = c from rfl]
  unfold optionRoute
  rw [if_pos (startsWith_append (str "option.i2cp.") w), dropPre_append]

theorem parsePropertyKey_i2pt (w v : Str) (c : TunnelConfig) :
    parsePropertyKey (str "option.i2ptunnel." ++ w) v c =
      some { c with Tunnel := mapSet c.Tunnel w (parseValue v) } := by
  show optionRoute (str "option.i2ptunnel." ++ w) v
      (flatSwitch (str "option.i2ptunnel." ++ w) v c) = _
  rw [show flatSwitch (str "option.i2ptunnel." ++ w) v c = c from rfl]
  unfold optionRoute
  rw [if_neg (bool_ne_true (show startsWith (str "option.i2cp.")
      (str "option.i2ptunnel." ++ w) = false from rfl)),
    if_pos (startsWith_append (str "option.i2ptunnel.") w), dropPre_append]

theorem parsePropertyKey_inb (w v : Str) (c : TunnelConfig) :
    parsePropertyKey (str "option.inbound." ++ w) v c =
      some { c with Inbound := mapSet c.Inbound w (parseValue v) } := by
  show optionRoute (str "option.inbound." ++ w) v
      (flatSwitch (str "option.inbound." ++ w) v c) = _
  rw [show flatSwitch (str "option.inbound." ++ w) v c = c from rfl]
  unfold optionRoute
  rw [if_neg (bool_ne_true (show startsWith (str "option.i2cp.")
      (str "option.inbound." ++ w) = false from rfl)),
    if_neg (bool_ne_true (show startsWith (str "option.i2ptunnel.")
      (str "option.inbound." ++ w) = false from rfl)),
    if_pos (startsWith_append (str "option.inbound.") w), dropPre_append]

theorem parsePropertyKey_outb (w v : Str) (c : TunnelConfig) :
    parsePropertyKey (str "option.outbound." ++ w) v c =
      some { c with Outbound := mapSet c.Outbound w (parseValue v) } := by
  show optionRoute (str "option.outbound." ++ w) v
      (flatSwitch (str "option.outbound." ++ w) v c) = _
  rw [show flatSwitch (str "option.outbound." ++ w) v c = c from rfl]
  unfold optionRoute
  rw [if_neg (bool_ne_true (show startsWith (str "option.i2cp.")
      (str "option.outbound." ++ w) = false from rfl)),
    if_neg (bool_ne_true (show startsWith (str "option.i2ptunnel.")
      (str "option.outbound." ++ w) = false from rfl)),
    if_neg (bool_ne_true (show startsWith (str "option.inbound.")
      (str "option.outbound." ++ w) = false from rfl)),
    if_pos (startsWith_append (str "option.outbound.") w), dropPre_append]

theorem lineToToken_prefixed (c₀ : Char) (pre rest : Str)
    (h₀ : (c₀ = ' ' || c₀ = '\t' || c₀ = '\x0c') = false)
    (h₁ : ¬ (c₀ = '#' ∨ c₀ = '!'))
    (h₂ : ∀ c ∈ c₀ :: pre, (!(isKeySep c)) = true) :
    ∃ v, lineToToken ((c₀ :: pre) ++ rest) =
      some ((c₀ :: pre) ++ rest.takeWhile (fun c => !(isKeySep c)), v) := by
  have hkey : ((c₀ :: pre) ++ rest).takeWhile (fun c => !(isKeySep c)) =
      (c₀ :: pre) ++ rest.takeWhile (fun c => !(isKeySep c)) :=
    takeWhile_append_all rest h₂
  exact ⟨_, by
    simp only [lineToToken, List.cons_append, List.dropWhile_cons, h₀,
      Bool.false_eq_true, if_false]
    rw [if_neg h₁]
    rw [show (c₀ :: (pre ++ rest)).takeWhile (fun c => !(isKeySep c)) =
        ((c₀ :: pre) ++ rest).takeWhile (fun c => !(isKeySep c)) from rfl, hkey]
    simp only [List.cons_append]
    rfl⟩

theorem lineToToken_name (n : Str) :
    lineToToken (str "name=" ++ n) =
      some (str "name", n.dropWhile (fun c => c = ' ' || c = '\t')) := rfl

theorem lineToToken_type (n : Str) :
    lineToToken (str "type=" ++ n) =
      some (str "type", n.dropWhile (fun c => c = ' ' || c = '\t')) := rfl

theorem lineToToken_iface (n : Str) :
    lineToToken (str "interface=" ++ n) =
      some (str "interface", n.dropWhile (fun c => c = ' ' || c = '\t')) := rfl

theorem lineToToken_lport (n : Str) :
    lineToToken (str "listenPort=" ++ n) =
      some (str "listenPort", n.dropWhile (fun c => c = ' ' || c = '\t')) := rfl

theorem lineToToken_target (n : Str) :
    lineToToken (str "targetDestination=" ++ n) =
      some (str "targetDestination", n.dropWhile (fun c => c = ' ' || c = '\t')) := rfl

theorem intToStr_noLead (p : Int) :
    (intToStr p).dropWhile (fun c => c = ' ' || c = '\t') = intToStr p := by
  apply dropWhile_eq_self_of_none
  intro c hc
  have hns := atoiChar_not_space ((atoi_chars (atoi_intToStr p)).2 c hc)
  simp only [isSpaceGo, Bool.or_eq_false_iff, decide_eq_false_iff_not] at hns
  simp [hns.1.1.1.1.1, hns.1.1.1.1.2]

theorem propSeg_name (c₀ : TunnelConfig) (n : Str) (h : fieldPropOK n)
    (hc : c₀.Name = []) :
    List.foldlM propLineStep c₀ (if n ≠ [] then [str "name=" ++ n] else []) =
      some { c₀ with Name := n } := by
  by_cases hn : n = []
  · subst hn
    rw [if_neg (by simp)]
    have he : { c₀ with Name := ([] : Str) } = c₀ := by rw [← hc]
    rw [he]
    rfl
  · rw [if_pos hn, propFold_single]
    simp only [propLineStep, lineToToken_name, h.2]
    rfl

theorem propSeg_type (c₀ : TunnelConfig) (n : Str) (h : fieldPropOK n)
    (hc : c₀.Typ = []) :
    List.foldlM propLineStep c₀ (if n ≠ [] then [str "type=" ++ n] else []) =
      some { c₀ with Typ := n } := by
  by_cases hn : n = []
  · subst hn
    rw [if_neg (by simp)]
    have he : { c₀ with Typ := ([] : Str) } = c₀ := by rw [← hc]
    rw [he]
    rfl
  · rw [if_pos hn, propFold_single]
    simp only [propLineStep, lineToToken_type, h.2]
    rfl

theorem propSeg_iface (c₀ : TunnelConfig) (n : Str) (h : fieldPropOK n)
    (hc : c₀.Iface = []) :
    List.foldlM propLineStep c₀ (if n ≠ [] then [str "interface=" ++ n] else []) =
      some { c₀ with Iface := n } := by
  by_cases hn : n = []
  · subst hn
    rw [if_neg (by simp)]
    have he : { c₀ with Iface := ([] : Str) } = c₀ := by rw [← hc]
    rw [he]
    rfl
  · rw [if_pos hn, propFold_single]
    simp only [propLineStep, lineToToken_iface, h.2]
    rfl

theorem propSeg_port (c₀ : TunnelConfig) (p : Int) (hc : c₀.Port = 0) :
    List.foldlM propLineStep c₀
      (if p ≠ 0 then [str "listenPort=" ++ intToStr p] else []) =
      some { c₀ with Port := p } := by
  by_cases hp : p = 0
  · subst hp
    rw [if_neg (by simp)]
    have he : { c₀ with Port := (0 : Int) } = c₀ := by rw [← hc]
    rw [he]
    rfl
  · rw [if_pos hp, propFold_single]
    simp only [propLineStep, lineToToken_lport, intToStr_noLead]
    rw [show parsePropertyKey (str "listenPort") (intToStr p) c₀ =
      some (match atoi (intToStr p) with
            | some q => { c₀ with Port := q }
            | none => c₀) from rfl, atoi_intToStr]

theorem propSeg_target (c₀ : TunnelConfig) (n : Str) (h : fieldPropOK n)
    (hc : c₀.Target = []) :
    List.foldlM propLineStep c₀
      (if n ≠ [] then [str "targetDestination=" ++ n] else []) =
      some { c₀ with Target := n } := by
  by_cases hn : n = []
  · subst hn
    rw [if_neg (by simp)]
    have he : { c₀ with Target := ([] : Str) } = c₀ := by rw [← hc]
    rw [he]
    rfl
  · rw [if_pos hn, propFold_single]
    simp only [propLineStep, lineToToken_target, h.2]
    rfl

theorem propSeg_pk (c₀ : TunnelConfig) (b : Bool) (hc : c₀.PersistentKey = false) :
    List.foldlM propLineStep c₀
      (if b then [str "option.persistentClientKey=true"] else []) =
      some { c₀ with PersistentKey := b } := by
  cases b with
  | false =>
    rw [if_neg (by simp)]
    have he : { c₀ with PersistentKey := false } = c₀ := by rw [← hc]
    rw [he]
    rfl
  | true =>
    rw [if_pos rfl, propFold_single]
    rfl

theorem propLine_desc_neutral (d : Str) (c₀ : TunnelConfig) :
    ∃ c₁, propLineStep c₀ (str "description=" ++ d) = some c₁ ∧
      scalars6 c₁ = scalars6 c₀ :=
  ⟨_, rfl, rfl⟩

theorem propLine_i2cp_neutral (k fv : Str) (c₀ : TunnelConfig) :
    ∃ c₁, propLineStep c₀ (str "option.i2cp." ++ k ++ '=' :: fv) = some c₁ ∧
      scalars6 c₁ = scalars6 c₀ := by
  have hrw : str "option.i2cp." ++ k ++ '=' :: fv =
      str "option.i2cp." ++ (k ++ '=' :: fv) := List.append_assoc _ _ _
  obtain ⟨v, hv⟩ := lineToToken_prefixed 'o' (str "ption.i2cp.") (k ++ '=' :: fv)
    (by decide) (by decide) (by decide)
  rw [show ('o' :: str "ption.i2cp." : Str) = str "option.i2cp." from rfl] at hv
  refine ⟨{ c₀ with I2CP := mapSet c₀.I2CP ((k ++ '=' :: fv).takeWhile (fun c => !(isKeySep c))) (parseValue v) }, ?_, rfl⟩
  unfold propLineStep
  rw [hrw, hv]
  exact parsePropertyKey_i2cp _ v c₀

theorem propLine_i2pt_neutral (k fv : Str) (c₀ : TunnelConfig) :
    ∃ c₁, propLineStep c₀ (str "option.i2ptunnel." ++ k ++ '=' :: fv) = some c₁ ∧
      scalars6 c₁ = scalars6 c₀ := by
  have hrw : str "option.i2ptunnel." ++ k ++ '=' :: fv =
      str "option.i2ptunnel." ++ (k ++ '=' :: fv) := List.append_assoc _ _ _
  obtain ⟨v, hv⟩ := lineToToken_prefixed 'o' (str "ption.i2ptunnel.") (k ++ '=' :: fv)
    (by decide) (by decide) (by decide)
  rw [show ('o' :: str "ption.i2ptunnel." : Str) = str "option.i2ptunnel." from rfl] at hv
  refine ⟨{ c₀ with Tunnel := mapSet c₀.Tunnel ((k ++ '=' :: fv).takeWhile (fun c => !(isKeySep c))) (parseValue v) }, ?_, rfl⟩
  unfold propLineStep
  rw [hrw, hv]
  exact parsePropertyKey_i2pt _ v c₀

theorem propLine_inb_neutral (k fv : Str) (c₀ : TunnelConfig) :
    ∃ c₁, propLineStep c₀ (str "option.inbound." ++ k ++ '=' :: fv) = some c₁ ∧
      scalars6 c₁ = scalars6 c₀ := by
  have hrw : str "option.inbound." ++ k ++ '=' :: fv =
      str "option.inbound." ++ (k ++ '=' :: fv) := List.append_assoc _ _ _
  obtain ⟨v, hv⟩ := lineToToken_prefixed 'o' (str "ption.inbound.") (k ++ '=' :: fv)
    (by decide) (by decide) (by decide)
  rw [show ('o' :: str "ption.inbound." : Str) = str "option.inbound." from rfl] at hv
  refine ⟨{ c₀ with Inbound := mapSet c₀.Inbound ((k ++ '=' :: fv).takeWhile (fun c => !(isKeySep c))) (parseValue v) }, ?_, rfl⟩
  unfold propLineStep
  rw [hrw, hv]
  exact parsePropertyKey_inb _ v c₀

theorem propLine_outb_neutral (k fv : Str) (c₀ : TunnelConfig) :
    ∃ c₁, propLineStep c₀ (str "option.outbound." ++ k ++ '=' :: fv) = some c₁ ∧
      scalars6 c₁ = scalars6 c₀ := by
  have hrw : str "option.outbound." ++ k ++ '=' :: fv =
      str "option.outbound." ++ (k ++ '=' :: fv) := List.append_assoc _ _ _
  obtain ⟨v, hv⟩ := lineToToken_prefixed 'o' (str "ption.outbound.") (k ++ '=' :: fv)
    (by decide) (by decide) (by decide)
  rw [show ('o' :: str "ption.outbound." : Str) = str "option.outbound." from rfl] at hv
  refine ⟨{ c₀ with Outbound := mapSet c₀.Outbound ((k ++ '=' :: fv).takeWhile (fun c => !(isKeySep c))) (parseValue v) }, ?_, rfl⟩
  unfold propLineStep
  rw [hrw, hv]
  exact parsePropertyKey_outb _ v c₀

theorem propLine_tunnelEntry_neutral (p : Str × Value) (c₀ : TunnelConfig) :
    ∃ c₁, propLineStep c₀
      (if p.1 = str "proxyList" ∨ p.1 = str "sharedClient" ∨
          p.1 = str "startOnLoad" ∨ p.1 = str "accessList" ∨
          p.1 = str "spoofedHost" ∨ p.1 = str "targetPort"
       then p.1 ++ '=' :: formatPropertyValue p.2
       else str "option.i2ptunnel." ++ p.1 ++ '=' :: formatPropertyValue p.2) =
      some c₁ ∧ scalars6 c₁ = scalars6 c₀ := by
  by_cases hf : p.1 = str "proxyList" ∨ p.1 = str "sharedClient" ∨
      p.1 = str "startOnLoad" ∨ p.1 = str "accessList" ∨
      p.1 = str "spoofedHost" ∨ p.1 = str "targetPort"
  · rw [if_pos hf]
    rcases hf with h | h | h | h | h | h <;> rw [h]
    · exact ⟨_, rfl, rfl⟩
    · exact ⟨_, rfl, rfl⟩
    · exact ⟨_, rfl, rfl⟩
    · exact ⟨_, rfl, rfl⟩
    · exact ⟨_, rfl, rfl⟩
    · rw [show propLineStep c₀ (str "targetPort" ++ '=' :: formatPropertyValue p.2) =
        some (match atoi ((formatPropertyValue p.2).dropWhile
            (fun c => c = ' ' || c = '\t')) with
          | some q => { c₀ with Tunnel := mapSet c₀.Tunnel (str "targetPort") (.int q) }
          | none => c₀) from rfl]
      cases atoi ((formatPropertyValue p.2).dropWhile (fun c => c = ' ' || c = '\t')) with
      | none => exact ⟨_, rfl, rfl⟩
      | some q => exact ⟨_, rfl, rfl⟩
  · rw [if_neg hf]
    exact propLine_i2pt_neutral p.1 (formatPropertyValue p.2) c₀

theorem containsChar_append (ch : Char) (a b : Str) :
    containsChar ch (a ++ b) = (containsChar ch a || containsChar ch b) := by
  simp [containsChar]

theorem containsChar_cons (ch c : Char) (s : Str) :
    containsChar ch (c :: s) = (decide (ch = c) || containsChar ch s) := by
  simp [containsChar]

theorem containsChar_eq_false_of {ch : Char} {s : Str} (h : ∀ c ∈ s, ¬ c = ch) :
    containsChar ch s = false := by
  simp [containsChar]
  intro hmem
  exact h ch hmem rfl

theorem intToStr_noNL (p : Int) : containsChar '\n' (intToStr p) = false :=
  containsChar_eq_false_of (fun c hc => by
    rcases (atoi_chars (atoi_intToStr p)).2 c hc with hd | hd | hd
    · intro he; subst he; exact absurd hd (by decide)
    · subst hd; decide
    · subst hd; decide)

theorem mem_ite_singleton {P : Prop} [inst : Decidable P] {l x : Str}
    (h : l ∈ (if P then [x] else ([] : List Str))) : l = x := by
  split at h
  · simpa using h
  · simp at h

theorem propLines_noNL {c : TunnelConfig} (h : propClean c) :
    ∀ l ∈ propLines c, containsChar '\n' l = false := by
  obtain ⟨hN, hT, hI, hTg, hD, hg1, hg2, hg3, hg4⟩ := h
  intro l hl
  simp only [propLines, List.mem_append] at hl
  rcases hl with ((((((((((h1 | h2) | h3) | h4) | h5) | h6) | h7) | h8) | h9) | h10) | h11)
  · rw [mem_ite_singleton h1, containsChar_append, hN.1]; decide
  · rw [mem_ite_singleton h2, containsChar_append, hT.1]; decide
  · rw [mem_ite_singleton h3, containsChar_append, hI.1]; decide
  · rw [mem_ite_singleton h4, containsChar_append, intToStr_noNL]; decide
  · rw [mem_ite_singleton h5, containsChar_append, hTg.1]; decide
  · rw [mem_ite_singleton h6]; decide
  · rw [mem_ite_singleton h7, containsChar_append, hD]; decide
  · obtain ⟨p, hp, hline⟩ := List.mem_map.mp h8
    subst hline
    rw [containsChar_append, containsChar_append, containsChar_cons,
      (hg1 p hp).1, (hg1 p hp).2]
    decide
  · obtain ⟨p, hp, hline⟩ := List.mem_map.mp h9
    subst hline
    by_cases hf : p.1 = str "proxyList" ∨ p.1 = str "sharedClient" ∨
        p.1 = str "startOnLoad" ∨ p.1 = str "accessList" ∨
        p.1 = str "spoofedHost" ∨ p.1 = str "targetPort"
    · rw [if_pos hf, containsChar_append, containsChar_cons,
        (hg2 p hp).1, (hg2 p hp).2]
      decide
    · rw [if_neg hf, containsChar_append, containsChar_append, containsChar_cons,
        (hg2 p hp).1, (hg2 p hp).2]
      decide
  · obtain ⟨p, hp, hline⟩ := List.mem_map.mp h10
    subst hline
    rw [containsChar_append, containsChar_append, containsChar_cons,
      (hg3 p hp).1, (hg3 p hp).2]
    decide
  · obtain ⟨p, hp, hline⟩ := List.mem_map.mp h11
    subst hline
    rw [containsChar_append, containsChar_append, containsChar_cons,
      (hg4 p hp).1, (hg4 p hp).2]
    decide

theorem props_roundtrip (c : TunnelConfig) (h : propClean c) :
    ∃ c₂, parsePropsText (generateJavaProperties c) = some c₂ ∧
      scalars6 c₂ = scalars6 c := by
  have hsplit : splitCh '\n' (joinNL (propLines c)) = propLines c ++ [[]] :=
    splitCh_joinNL (propLines_noNL h)
  obtain ⟨hN, hT, hI, hTg, hD, hg1, hg2, hg3, hg4⟩ := h
  rw [show generateJavaProperties c = joinNL (propLines c) from rfl,
    propsText_as_lines, hsplit]
  have hOpts : propLines c ++ [[]] =
      (if c.Name ≠ [] then [str "name=" ++ c.Name] else []) ++
      ((if c.Typ ≠ [] then [str "type=" ++ c.Typ] else []) ++
       ((if c.Iface ≠ [] then [str "interface=" ++ c.Iface] else []) ++
        ((if c.Port ≠ 0 then [str "listenPort=" ++ intToStr c.Port] else []) ++
         ((if c.Target ≠ [] then [str "targetDestination=" ++ c.Target] else []) ++
          ((if c.PersistentKey then [str "option.persistentClientKey=true"] else []) ++
           ((if c.Description ≠ [] then [str "description=" ++ c.Description] else []) ++
            ((c.I2CP.getD []).map (fun p => str "option.i2cp." ++ p.1 ++ '=' :: formatPropertyValue p.2) ++
             ((c.Tunnel.getD []).map (fun p =>
                if p.1 = str "proxyList" ∨ p.1 = str "sharedClient" ∨ p.1 = str "startOnLoad" ∨
                   p.1 = str "accessList" ∨ p.1 = str "spoofedHost" ∨ p.1 = str "targetPort"
                then p.1 ++ '=' :: formatPropertyValue p.2
                else str "option.i2ptunnel." ++ p.1 ++ '=' :: formatPropertyValue p.2) ++
              ((c.Inbound.getD []).map (fun p => str "option.inbound." ++ p.1 ++ '=' :: formatPropertyValue p.2) ++
               ((c.Outbound.getD []).map (fun p => str "option.outbound." ++ p.1 ++ '=' :: formatPropertyValue p.2) ++
                [[]])))))))))) := by
    simp only [propLines, List.append_assoc]
  rw [hOpts]
  have e1 : List.foldlM propLineStep initConfig
      (if c.Name ≠ [] then [str "name=" ++ c.Name] else []) =
      some { initConfig with Name := c.Name } :=
    propSeg_name initConfig c.Name hN rfl
  have e2 : List.foldlM propLineStep { initConfig with Name := c.Name }
      (if c.Typ ≠ [] then [str "type=" ++ c.Typ] else []) =
      some { initConfig with Name := c.Name, Typ := c.Typ } :=
    propSeg_type _ c.Typ hT rfl
  have e3 : List.foldlM propLineStep { initConfig with Name := c.Name, Typ := c.Typ }
      (if c.Iface ≠ [] then [str "interface=" ++ c.Iface] else []) =
      some { initConfig with Name := c.Name, Typ := c.Typ, Iface := c.Iface } :=
    propSeg_iface _ c.Iface hI rfl
  have e4 : List.foldlM propLineStep { initConfig with Name := c.Name, Typ := c.Typ, Iface := c.Iface }
      (if c.Port ≠ 0 then [str "listenPort=" ++ intToStr c.Port] else []) =
      some { initConfig with Name := c.Name, Typ := c.Typ, Iface := c.Iface, Port := c.Port } :=
    propSeg_port _ c.Port rfl
  have e5 : List.foldlM propLineStep { initConfig with Name := c.Name, Typ := c.Typ, Iface := c.Iface, Port := c.Port }
      (if c.Target ≠ [] then [str "targetDestination=" ++ c.Target] else []) =
      some { initConfig with Name := c.Name, Typ := c.Typ, Iface := c.Iface, Port := c.Port, Target := c.Target } :=
    propSeg_target _ c.Target hTg rfl
  have e6 : List.foldlM propLineStep { initConfig with Name := c.Name, Typ := c.Typ, Iface := c.Iface, Port := c.Port, Target := c.Target }
      (if c.PersistentKey then [str "option.persistentClientKey=true"] else []) =
      some { initConfig with Name := c.Name, Typ := c.Typ, Iface := c.Iface, Port := c.Port, Target := c.Target, PersistentKey := c.PersistentKey } :=
    propSeg_pk _ c.PersistentKey rfl
  have hdesc : ∀ c₀ : TunnelConfig, ∃ c₁, List.foldlM propLineStep c₀
      (if c.Description ≠ [] then [str "description=" ++ c.Description] else []) =
      some c₁ ∧ scalars6 c₁ = scalars6 c₀ := by
    intro c₀
    by_cases hd : c.Description = []
    · rw [if_neg (by simp [hd])]
      exact ⟨c₀, rfl, rfl⟩
    · rw [if_pos hd, propFold_single]
      exact propLine_desc_neutral _ c₀
  obtain ⟨g1, hgd, hs1⟩ := hdesc { initConfig with Name := c.Name, Typ := c.Typ, Iface := c.Iface, Port := c.Port, Target := c.Target, PersistentKey := c.PersistentKey }
  obtain ⟨g2, hgi, hs2⟩ := propFold_neutral (
      (c.I2CP.getD []).map (fun p => str "option.i2cp." ++ p.1 ++ '=' :: formatPropertyValue p.2))
    (by
      intro l hl c₀
      obtain ⟨p, hp, hline⟩ := List.mem_map.mp hl
      subst hline
      exact propLine_i2cp_neutral p.1 (formatPropertyValue p.2) c₀) g1
  obtain ⟨g3, hgt, hs3⟩ := propFold_neutral (
      (c.Tunnel.getD []).map (fun p =>
        if p.1 = str "proxyList" ∨ p.1 = str "sharedClient" ∨ p.1 = str "startOnLoad" ∨
           p.1 = str "accessList" ∨ p.1 = str "spoofedHost" ∨ p.1 = str "targetPort"
        then p.1 ++ '=' :: formatPropertyValue p.2
        else str "option.i2ptunnel." ++ p.1 ++ '=' :: formatPropertyValue p.2))
    (by
      intro l hl c₀
      obtain ⟨p, hp, hline⟩ := List.mem_map.mp hl
      subst hline
      exact propLine_tunnelEntry_neutral p c₀) g2
  obtain ⟨g4, hgn, hs4⟩ := propFold_neutral (
      (c.Inbound.getD []).map (fun p => str "option.inbound." ++ p.1 ++ '=' :: formatPropertyValue p.2))
    (by
      intro l hl c₀
      obtain ⟨p, hp, hline⟩ := List.mem_map.mp hl
      subst hline
      exact propLine_inb_neutral p.1 (formatPropertyValue p.2) c₀) g3
  obtain ⟨g5, hgo, hs5⟩ := propFold_neutral (
      (c.Outbound.getD []).map (fun p => str "option.outbound." ++ p.1 ++ '=' :: formatPropertyValue p.2))
    (by
      intro l hl c₀
      obtain ⟨p, hp, hline⟩ := List.mem_map.mp hl
      subst hline
      exact propLine_outb_neutral p.1 (formatPropertyValue p.2) c₀) g4
  refine ⟨g5, ?_, ?_⟩
  · rw [propFold_append_ok _ e1, propFold_append_ok _ e2, propFold_append_ok _ e3,
      propFold_append_ok _ e4, propFold_append_ok _ e5, propFold_append_ok _ e6,
      propFold_append_ok _ hgd, propFold_append_ok _ hgi, propFold_append_ok _ hgt,
      propFold_append_ok _ hgn, propFold_append_ok _ hgo, propFold_single]
    rfl
  · exact hs5.trans (hs4.trans (hs3.trans (hs2.trans hs1)))

/-- A scalar field survives the INI round trip when it contains no
newline and is invariant under trimming on both sides. -/
def fieldINIOK (s : Str) : Prop :=
  containsChar '\n' s = false ∧ trimLeft s = s ∧ trimRight s = s

/-- An option-group entry generates one INI line when its key and its
formatted value contain no newline. -/
def entryINIOK (p : Str × Value) : Prop :=
  containsChar '\n' p.1 = false ∧ containsChar '\n' (formatINIValue p.2) = false

/-- A flat Tunnel entry key reparses to itself and stays out of the
scalar-field branches of parseINIKeyValue. -/
def tunnelKeyOK (k : Str) : Prop :=
  k ≠ [] ∧ (∀ ch ∈ k, isSpaceGo ch = false) ∧ containsChar '=' k = false ∧
  ¬ k.head? = some '[' ∧ ¬ k.head? = some ';' ∧ ¬ k.head? = some '#' ∧
  ¬ k = str "name" ∧ ¬ k = str "type" ∧ ¬ k = str "host" ∧
  ¬ k = str "interface" ∧ ¬ k = str "port" ∧ ¬ k = str "destination" ∧
  ¬ k = str "address" ∧ ¬ k = str "keys"

/-- The well-formedness of a parsed config under which the INI round
trip is provable: newline-free trim-invariant fields, a keys value that
does not collide with the transient keyword, and tame option entries. -/
def iniClean (c : TunnelConfig) : Prop :=
  containsChar '\n' c.Name = false ∧
  fieldINIOK c.Typ ∧ fieldINIOK c.Iface ∧ fieldINIOK c.Target ∧
  fieldINIOK c.Description ∧
  (iniKeysVal c ≠ [] ∧ (∀ ch ∈ iniKeysVal c, isSpaceGo ch = false) ∧
    (c.PersistentKey = true → ¬ toLowerS (iniKeysVal c) = str "transient")) ∧
  (∀ p ∈ c.I2CP.getD [], entryINIOK p) ∧
  (∀ p ∈ c.Tunnel.getD [], ¬ p.1 = str "keyfile" → tunnelKeyOK p.1 ∧ entryINIOK p) ∧
  (∀ p ∈ c.Inbound.getD [], entryINIOK p) ∧
  (∀ p ∈ c.Outbound.getD [], entryINIOK p)

set_option maxHeartbeats 1000000 in
theorem parseINIKeyValue_scalars (k v : Str) (c : TunnelConfig)
    (h1 : ¬ k = str "name") (h2 : ¬ k = str "type")
    (h3 : ¬ (k = str "host" ∨ k = str "interface")) (h4 : ¬ k = str "port")
    (h5 : ¬ k = str "destination") (h6 : ¬ k = str "address")
    (h7 : ¬ k = str "keys") :
    scalars6 (parseINIKeyValue k v c) = scalars6 c := by
  unfold parseINIKeyValue
  rw [if_neg h1, if_neg h2, if_neg h3, if_neg h4, if_neg h5, if_neg h6]
  by_cases e7 : k = str "hostoverride"
  · rw [if_pos e7]; rfl
  rw [if_neg e7]
  by_cases e8 : k = str "description"
  · rw [if_pos e8]; rfl
  rw [if_neg e8]
  rw [if_neg h7]
  by_cases e10 : k = str "gzip"
  · rw [if_pos e10]; rfl
  rw [if_neg e10]
  by_cases e11 : k = str "accesslist"
  · rw [if_pos e11]; rfl
  rw [if_neg e11]
  by_cases e12 : k = str "signaturetype"
  · rw [if_pos e12]; rfl
  rw [if_neg e12]
  by_cases e13 : k = str "explicitpeers"
  · rw [if_pos e13]; rfl
  rw [if_neg e13]
  by_cases e14 : k = str "multicast"
  · rw [if_pos e14]; rfl
  rw [if_neg e14]
  by_cases e15 : k = str "webircpassword"
  · rw [if_pos e15]; rfl
  rw [if_neg e15]
  by_cases e16 : k = str "maptoloopback"
  · rw [if_pos e16]; rfl
  rw [if_neg e16]
  by_cases e17 : k = str "enableuniquelocal"
  · rw [if_pos e17]; rfl
  rw [if_neg e17]
  by_cases e18 : startsWith (str "i2cp.") k = true
  · rw [if_pos e18]; rfl
  rw [if_neg e18]
  by_cases e19 : startsWith (str "crypto.") k = true
  · rw [if_pos e19]; rfl
  rw [if_neg e19]
  by_cases e20 : startsWith (str "streamr.") k = true
  · rw [if_pos e20]; rfl
  rw [if_neg e20]
  by_cases e21 : startsWith (str "inbound.") k = true
  · rw [if_pos e21]; rfl
  rw [if_neg e21]
  by_cases e22 : startsWith (str "outbound.") k = true
  · rw [if_pos e22]; rfl
  rw [if_neg e22]
  rfl

theorem cons_append_ne_nil {a : Char} {t y : Str} : ¬ ((a :: t) ++ y = []) := by
  simp

theorem ini_skip_neg {s : Str} (hne : ¬ s = [])
    (h1 : startsWith (str ";") s = false) (h2 : startsWith (str "#") s = false) :
    ¬ (s = [] ∨ startsWith (str ";") s = true ∨ startsWith (str "#") s = true) := by
  intro hc
  rcases hc with h | h | h
  · exact hne h
  · rw [h1] at h; cases h
  · rw [h2] at h; cases h

theorem trimLeft_cons_append {ch : Char} (t y : Str) (h : isSpaceGo ch = false) :
    trimLeft ((ch :: t) ++ y) = (ch :: t) ++ y := by
  simp [trimLeft, List.dropWhile, h]

theorem trimRight_append_nonblank {A : Str} {ch : Char} (h : isSpaceGo ch = false) :
    trimRight (A ++ [ch]) = A ++ [ch] := by
  unfold trimRight
  rw [List.reverse_append,
    show ([ch] : Str).reverse = [ch] from rfl,
    show (([ch] : Str) ++ A.reverse).dropWhile isSpaceGo = [ch] ++ A.reverse from by
      simp [List.dropWhile, h]]
  simp

theorem dropSuf_append (s p : Str) : dropSuf p (s ++ p) = s := by
  unfold dropSuf
  rw [if_pos (endsWith_append_self s p), List.length_append,
    show s.length + p.length - p.length = s.length from by omega]
  exact List.take_left s p

theorem not_mem_of_containsChar_false {ch : Char} {s : Str}
    (h : containsChar ch s = false) : ∀ c ∈ s, ¬ c = ch := by
  intro c hc he
  subst he
  simp [containsChar] at h
  exact h hc

theorem splitFirst_none_of_not_mem {sep : Char} {s : Str}
    (h : ∀ x ∈ s, ¬ x = sep) : splitFirst sep s = none := by
  induction s with
  | nil => rfl
  | cons a t ih =>
    simp only [splitFirst, if_neg (h a (List.mem_cons_self a t))]
    rw [ih (fun x hx => h x (List.mem_cons_of_mem a hx))]
    rfl

theorem splitFirst_append_cases (sep : Char) (A B : Str) :
    splitFirst sep (A ++ B) =
      (match splitFirst sep A with
       | some q => some (q.1, q.2 ++ B)
       | none => (splitFirst sep B).map (fun q => (A ++ q.1, q.2))) := by
  induction A with
  | nil =>
    cases hb : splitFirst sep B with
    | none => simp [splitFirst, hb]
    | some q => simp [splitFirst, hb]
  | cons a t ih =>
    by_cases ha : a = sep
    · subst ha
      simp [splitFirst]
    · simp only [List.cons_append, splitFirst, if_neg ha, List.append_eq]
      rw [ih]
      cases ht : splitFirst sep t with
      | none =>
        cases hb : splitFirst sep B with
        | none => rfl
        | some qb => rfl
      | some q => rfl

theorem trimRight_keyeq (k T : Str) :
    trimRight ((k ++ str " =") ++ T) = (k ++ str " =") ++ trimRight T := by
  apply trimRight_append
  rw [show (k ++ str " =").reverse = '=' :: ' ' :: k.reverse from by simp; rfl]
  rfl

theorem trimRight_cons_space {v : Str} (hv : trimRight v = v) (hne : ¬ v = []) :
    trimRight (' ' :: v) = ' ' :: v := by
  have hrev : v.reverse.dropWhile isSpaceGo ≠ [] := by
    rw [trimRight_eq_self_rev hv]
    simpa using hne
  rw [trimRight_cons_of_ne hrev, hv]

theorem trimRight_append_blank (k : Str) (hk : ∀ ch ∈ k, isSpaceGo ch = false) :
    trimRight (k ++ str " ") = k := by
  unfold trimRight
  rw [show (k ++ str " ").reverse = ' ' :: k.reverse from by simp; rfl,
    show (' ' :: k.reverse).dropWhile isSpaceGo = k.reverse.dropWhile isSpaceGo from rfl,
    dropWhile_eq_self_of_none (fun c hc => hk c (List.mem_reverse.mp hc)),
    List.reverse_reverse]

theorem iniStep_type (input : Str) (c₀ : TunnelConfig) (sec : Str) (idx : Nat)
    (v : Str) (hv : fieldINIOK v) (hne : ¬ v = []) :
    parseINILine input (c₀, sec) idx (str "type = " ++ v) =
      .ok ({ c₀ with Typ := v }, sec) := by
  have htrim : trimSpace (str "type = " ++ v) = str "type = " ++ v := by
    unfold trimSpace
    rw [show trimLeft (str "type = " ++ v) = str "type = " ++ v from rfl,
      show (str "type = " ++ v : Str) = (str "type =") ++ (' ' :: v) from rfl,
      trimRight_append (' ' :: v) (by decide), trimRight_cons_space hv.2.2 hne]
  have hval : trimSpace (' ' :: v) = v := by
    unfold trimSpace
    rw [show trimLeft (' ' :: v) = trimLeft v from rfl, hv.2.1, hv.2.2]
  simp only [parseINILine]
  rw [htrim,
    if_neg (ini_skip_neg (show ¬ (str "type = " ++ v) = [] from cons_append_ne_nil) rfl rfl),
    if_neg (bool_ne_true (show startsWith (str "[") (str "type = " ++ v) = false from rfl)),
    show splitFirst '=' (str "type = " ++ v) = some (str "type ", ' ' :: v) from rfl]
  simp only [hval]
  rfl

theorem iniStep_host (input : Str) (c₀ : TunnelConfig) (sec : Str) (idx : Nat)
    (v : Str) (hv : fieldINIOK v) (hne : ¬ v = []) :
    parseINILine input (c₀, sec) idx (str "host = " ++ v) =
      .ok ({ c₀ with Iface := v }, sec) := by
  have htrim : trimSpace (str "host = " ++ v) = str "host = " ++ v := by
    unfold trimSpace
    rw [show trimLeft (str "host = " ++ v) = str "host = " ++ v from rfl,
      show (str "host = " ++ v : Str) = (str "host =") ++ (' ' :: v) from rfl,
      trimRight_append (' ' :: v) (by decide), trimRight_cons_space hv.2.2 hne]
  have hval : trimSpace (' ' :: v) = v := by
    unfold trimSpace
    rw [show trimLeft (' ' :: v) = trimLeft v from rfl, hv.2.1, hv.2.2]
  simp only [parseINILine]
  rw [htrim,
    if_neg (ini_skip_neg (show ¬ (str "host = " ++ v) = [] from cons_append_ne_nil) rfl rfl),
    if_neg (bool_ne_true (show startsWith (str "[") (str "host = " ++ v) = false from rfl)),
    show splitFirst '=' (str "host = " ++ v) = some (str "host ", ' ' :: v) from rfl]
  simp only [hval]
  rfl

theorem iniStep_address (input : Str) (c₀ : TunnelConfig) (sec : Str) (idx : Nat)
    (v : Str) (hv : fieldINIOK v) (hne : ¬ v = []) :
    parseINILine input (c₀, sec) idx (str "address = " ++ v) =
      .ok ({ c₀ with Target := v }, sec) := by
  have htrim : trimSpace (str "address = " ++ v) = str "address = " ++ v := by
    unfold trimSpace
    rw [show trimLeft (str "address = " ++ v) = str "address = " ++ v from rfl,
      show (str "address = " ++ v : Str) = (str "address =") ++ (' ' :: v) from rfl,
      trimRight_append (' ' :: v) (by decide), trimRight_cons_space hv.2.2 hne]
  have hval : trimSpace (' ' :: v) = v := by
    unfold trimSpace
    rw [show trimLeft (' ' :: v) = trimLeft v from rfl, hv.2.1, hv.2.2]
  simp only [parseINILine]
  rw [htrim,
    if_neg (ini_skip_neg (show ¬ (str "address = " ++ v) = [] from cons_append_ne_nil) rfl rfl),
    if_neg (bool_ne_true (show startsWith (str "[") (str "address = " ++ v) = false from rfl)),
    show splitFirst '=' (str "address = " ++ v) = some (str "address ", ' ' :: v) from rfl]
  simp only [hval]
  rfl

theorem iniStep_destination (input : Str) (c₀ : TunnelConfig) (sec : Str) (idx : Nat)
    (v : Str) (hv : fieldINIOK v) (hne : ¬ v = []) :
    parseINILine input (c₀, sec) idx (str "destination = " ++ v) =
      .ok ({ c₀ with Target := v }, sec) := by
  have htrim : trimSpace (str "destination = " ++ v) = str "destination = " ++ v := by
    unfold trimSpace
    rw [show trimLeft (str "destination = " ++ v) = str "destination = " ++ v from rfl,
      show (str "destination = " ++ v : Str) = (str "destination =") ++ (' ' :: v) from rfl,
      trimRight_append (' ' :: v) (by decide), trimRight_cons_space hv.2.2 hne]
  have hval : trimSpace (' ' :: v) = v := by
    unfold trimSpace
    rw [show trimLeft (' ' :: v) = trimLeft v from rfl, hv.2.1, hv.2.2]
  simp only [parseINILine]
  rw [htrim,
    if_neg (ini_skip_neg (show ¬ (str "destination = " ++ v) = [] from cons_append_ne_nil) rfl rfl),
    if_neg (bool_ne_true (show startsWith (str "[") (str "destination = " ++ v) = false from rfl)),
    show splitFirst '=' (str "destination = " ++ v) = some (str "destination ", ' ' :: v) from rfl]
  simp only [hval]
  rfl

theorem iniStep_descriptionL (input : Str) (c₀ : TunnelConfig) (sec : Str) (idx : Nat)
    (v : Str) (hv : fieldINIOK v) (hne : ¬ v = []) :
    parseINILine input (c₀, sec) idx (str "description = " ++ v) =
      .ok ({ c₀ with Description := v }, sec) := by
  have htrim : trimSpace (str "description = " ++ v) = str "description = " ++ v := by
    unfold trimSpace
    rw [show trimLeft (str "description = " ++ v) = str "description = " ++ v from rfl,
      show (str "description = " ++ v : Str) = (str "description =") ++ (' ' :: v) from rfl,
      trimRight_append (' ' :: v) (by decide), trimRight_cons_space hv.2.2 hne]
  have hval : trimSpace (' ' :: v) = v := by
    unfold trimSpace
    rw [show trimLeft (' ' :: v) = trimLeft v from rfl, hv.2.1, hv.2.2]
  simp only [parseINILine]
  rw [htrim,
    if_neg (ini_skip_neg (show ¬ (str "description = " ++ v) = [] from cons_append_ne_nil) rfl rfl),
    if_neg (bool_ne_true (show startsWith (str "[") (str "description = " ++ v) = false from rfl)),
    show splitFirst '=' (str "description = " ++ v) = some (str "description ", ' ' :: v) from rfl]
  simp only [hval]
  rfl

theorem iniStep_port (input : Str) (c₀ : TunnelConfig) (sec : Str) (idx : Nat)
    (p : Int) :
    parseINILine input (c₀, sec) idx (str "port = " ++ intToStr p) =
      .ok ({ c₀ with Port := p }, sec) := by
  have hns : ∀ ch ∈ intToStr p, isSpaceGo ch = false := fun ch hc =>
    atoiChar_not_space ((atoi_chars (atoi_intToStr p)).2 ch hc)
  have hv : fieldINIOK (intToStr p) :=
    ⟨containsChar_eq_false_of (fun ch hc he => by
        subst he; exact absurd (hns '\n' hc) (by decide)),
     trimLeft_eq_self hns, trimRight_eq_self hns⟩
  have hne : ¬ intToStr p = [] := (atoi_chars (atoi_intToStr p)).1
  have htrim : trimSpace (str "port = " ++ intToStr p) = str "port = " ++ intToStr p := by
    unfold trimSpace
    rw [show trimLeft (str "port = " ++ intToStr p) = str "port = " ++ intToStr p from rfl,
      show (str "port = " ++ intToStr p : Str) = (str "port =") ++ (' ' :: intToStr p) from rfl,
      trimRight_append (' ' :: intToStr p) (by decide), trimRight_cons_space hv.2.2 hne]
  have hval : trimSpace (' ' :: intToStr p) = intToStr p := by
    unfold trimSpace
    rw [show trimLeft (' ' :: intToStr p) = trimLeft (intToStr p) from rfl, hv.2.1, hv.2.2]
  simp only [parseINILine]
  rw [htrim,
    if_neg (ini_skip_neg (show ¬ (str "port = " ++ intToStr p) = [] from cons_append_ne_nil) rfl rfl),
    if_neg (bool_ne_true (show startsWith (str "[") (str "port = " ++ intToStr p) = false from rfl)),
    show splitFirst '=' (str "port = " ++ intToStr p) = some (str "port ", ' ' :: intToStr p) from rfl]
  simp only [hval]
  rw [show (if trimSpace (str "port ") = ([] : Str) then
      Except.error (newParseError input ((idx + 1 : Nat) : Int) 0 (str "ini")
        (str "empty key name - key=value pairs must have a key"))
    else Except.ok (parseINIKeyValue (trimSpace (str "port ")) (intToStr p) c₀, sec)) =
    Except.ok ((match atoi (intToStr p) with
      | some q => { c₀ with Port := q }
      | none => c₀), sec) from rfl, atoi_intToStr]

theorem iniStep_keys (input : Str) (c₀ : TunnelConfig) (sec : Str) (idx : Nat)
    (kv : Str) (hkne : ¬ kv = []) (hks : ∀ ch ∈ kv, isSpaceGo ch = false) :
    parseINILine input (c₀, sec) idx (str "keys = " ++ kv) =
      .ok (parseINIKeyValue (str "keys") kv c₀, sec) := by
  have hv2 : trimLeft kv = kv := trimLeft_eq_self hks
  have hv3 : trimRight kv = kv := trimRight_eq_self hks
  have htrim : trimSpace (str "keys = " ++ kv) = str "keys = " ++ kv := by
    unfold trimSpace
    rw [show trimLeft (str "keys = " ++ kv) = str "keys = " ++ kv from rfl,
      show (str "keys = " ++ kv : Str) = (str "keys =") ++ (' ' :: kv) from rfl,
      trimRight_append (' ' :: kv) (by decide), trimRight_cons_space hv3 hkne]
  have hval : trimSpace (' ' :: kv) = kv := by
    unfold trimSpace
    rw [show trimLeft (' ' :: kv) = trimLeft kv from rfl, hv2, hv3]
  simp only [parseINILine]
  rw [htrim,
    if_neg (ini_skip_neg (show ¬ (str "keys = " ++ kv) = [] from cons_append_ne_nil) rfl rfl),
    if_neg (bool_ne_true (show startsWith (str "[") (str "keys = " ++ kv) = false from rfl)),
    show splitFirst '=' (str "keys = " ++ kv) = some (str "keys ", ' ' :: kv) from rfl]
  simp only [hval]
  rfl

theorem iniStep_section (input : Str) (c₀ : TunnelConfig) (sec : Str) (idx : Nat)
    (nm : Str) (hnm : ¬ nm = []) (hc : c₀.Name = []) :
    parseINILine input (c₀, sec) idx (str "[" ++ (nm ++ str "]")) =
      .ok ({ c₀ with Name := nm }, nm) := by
  have htrim : trimSpace (str "[" ++ (nm ++ str "]")) = str "[" ++ (nm ++ str "]") := by
    unfold trimSpace
    rw [show trimLeft (str "[" ++ (nm ++ str "]")) = str "[" ++ (nm ++ str "]") from rfl,
      show (str "[" ++ (nm ++ str "]") : Str) = (str "[" ++ nm) ++ ([']'] : Str) from by
        simp
        rfl]
    exact trimRight_append_nonblank (by decide)
  simp only [parseINILine]
  rw [htrim,
    if_neg (ini_skip_neg (show ¬ (str "[" ++ (nm ++ str "]")) = [] from cons_append_ne_nil) rfl rfl),
    if_pos (startsWith_append (str "[") (nm ++ str "]")),
    if_neg (show ¬ ¬ endsWith (str "]") (str "[" ++ (nm ++ str "]")) = true from
      not_not_intro (show endsWith (str "]") ((str "[" ++ nm) ++ str "]") = true from
        endsWith_append_self (str "[" ++ nm) (str "]"))),
    dropPre_append, dropSuf_append,
    if_neg hnm, if_pos hc]

theorem startsWith_one_cons_false {p c0 : Char} {t : Str} (h : ¬ c0 = p) :
    startsWith (p :: ([] : Str)) (c0 :: t) = false := by
  simp [startsWith, List.isPrefixOf]
  exact fun he => h he.symm

theorem splitFirst_keyeq_exists (k T : Str) :
    ∃ a b, splitFirst '=' ((k ++ str " =") ++ T) = some (a, b) := by
  rw [splitFirst_append_cases]
  cases h : splitFirst '=' (k ++ str " =") with
  | some q => exact ⟨q.1, q.2 ++ T, rfl⟩
  | none =>
    exfalso
    have h2 := splitFirst_eq_none h
    rw [containsChar_append, show containsChar '=' (str " =") = true from by decide] at h2
    simp at h2

theorem iniStep_i2cp_neutral (input : Str) (c₀ : TunnelConfig) (sec : Str)
    (idx : Nat) (k fv : Str) :
    ∃ c₁, parseINILine input (c₀, sec) idx
      (str "i2cp." ++ k ++ str " = " ++ fv) = .ok (c₁, sec) ∧
      scalars6 c₁ = scalars6 c₀ := by
  have hL : (str "i2cp." ++ k ++ str " = " ++ fv : Str) =
      str "i2cp." ++ ((k ++ str " =") ++ (' ' :: fv)) := by
    simp [List.append_assoc]
    rfl
  obtain ⟨a, b, hab⟩ := splitFirst_keyeq_exists k (trimRight (' ' :: fv))
  have htrim : trimSpace (str "i2cp." ++ ((k ++ str " =") ++ (' ' :: fv))) =
      str "i2cp." ++ ((k ++ str " =") ++ trimRight (' ' :: fv)) := by
    unfold trimSpace
    rw [show trimLeft (str "i2cp." ++ ((k ++ str " =") ++ (' ' :: fv))) =
        str "i2cp." ++ ((k ++ str " =") ++ (' ' :: fv)) from rfl,
      trimRight_append _ (by decide), trimRight_keyeq]
  have hsp : splitFirst '=' (str "i2cp." ++ ((k ++ str " =") ++ trimRight (' ' :: fv))) =
      some (str "i2cp." ++ a, b) := by
    rw [splitFirst_append_free _ (by decide), hab]
    rfl
  have hkey : trimSpace (str "i2cp." ++ a) = str "i2cp." ++ trimRight a := by
    unfold trimSpace
    rw [show trimLeft (str "i2cp." ++ a) = str "i2cp." ++ a from rfl,
      trimRight_append _ (by decide)]
  refine ⟨parseINIKeyValue (str "i2cp." ++ trimRight a) (trimSpace b) c₀, ?_, ?_⟩
  · simp only [parseINILine]
    rw [hL, htrim,
      if_neg (ini_skip_neg (show ¬ (str "i2cp." ++ ((k ++ str " =") ++ trimRight (' ' :: fv))) = [] from cons_append_ne_nil) rfl rfl),
      if_neg (bool_ne_true (show startsWith (str "[") (str "i2cp." ++ ((k ++ str " =") ++ trimRight (' ' :: fv))) = false from rfl)),
      hsp]
    simp only [hkey]
    rw [if_neg (show ¬ (str "i2cp." ++ trimRight a) = [] from cons_append_ne_nil)]
  · exact parseINIKeyValue_scalars _ _ _
      (append_ne_of_take _ (by decide)) (append_ne_of_take _ (by decide))
      (fun hor => Or.elim hor (append_ne_of_take _ (by decide))
        (append_ne_of_take _ (by decide)))
      (append_ne_of_take _ (by decide)) (append_ne_of_take _ (by decide))
      (append_ne_of_take _ (by decide)) (append_ne_of_take _ (by decide))

theorem iniStep_inbound_neutral (input : Str) (c₀ : TunnelConfig) (sec : Str)
    (idx : Nat) (k fv : Str) :
    ∃ c₁, parseINILine input (c₀, sec) idx
      (str "inbound." ++ k ++ str " = " ++ fv) = .ok (c₁, sec) ∧
      scalars6 c₁ = scalars6 c₀ := by
  have hL : (str "inbound." ++ k ++ str " = " ++ fv : Str) =
      str "inbound." ++ ((k ++ str " =") ++ (' ' :: fv)) := by
    simp [List.append_assoc]
    rfl
  obtain ⟨a, b, hab⟩ := splitFirst_keyeq_exists k (trimRight (' ' :: fv))
  have htrim : trimSpace (str "inbound." ++ ((k ++ str " =") ++ (' ' :: fv))) =
      str "inbound." ++ ((k ++ str " =") ++ trimRight (' ' :: fv)) := by
    unfold trimSpace
    rw [show trimLeft (str "inbound." ++ ((k ++ str " =") ++ (' ' :: fv))) =
        str "inbound." ++ ((k ++ str " =") ++ (' ' :: fv)) from rfl,
      trimRight_append _ (by decide), trimRight_keyeq]
  have hsp : splitFirst '=' (str "inbound." ++ ((k ++ str " =") ++ trimRight (' ' :: fv))) =
      some (str "inbound." ++ a, b) := by
    rw [splitFirst_append_free _ (by decide), hab]
    rfl
  have hkey : trimSpace (str "inbound." ++ a) = str "inbound." ++ trimRight a := by
    unfold trimSpace
    rw [show trimLeft (str "inbound." ++ a) = str "inbound." ++ a from rfl,
      trimRight_append _ (by decide)]
  refine ⟨parseINIKeyValue (str "inbound." ++ trimRight a) (trimSpace b) c₀, ?_, ?_⟩
  · simp only [parseINILine]
    rw [hL, htrim,
      if_neg (ini_skip_neg (show ¬ (str "inbound." ++ ((k ++ str " =") ++ trimRight (' ' :: fv))) = [] from cons_append_ne_nil) rfl rfl),
      if_neg (bool_ne_true (show startsWith (str "[") (str "inbound." ++ ((k ++ str " =") ++ trimRight (' ' :: fv))) = false from rfl)),
      hsp]
    simp only [hkey]
    rw [if_neg (show ¬ (str "inbound." ++ trimRight a) = [] from cons_append_ne_nil)]
  · exact parseINIKeyValue_scalars _ _ _
      (append_ne_of_take _ (by decide)) (append_ne_of_take _ (by decide))
      (fun hor => Or.elim hor (append_ne_of_take _ (by decide))
        (append_ne_of_take _ (by decide)))
      (append_ne_of_take _ (by decide)) (append_ne_of_take _ (by decide))
      (append_ne_of_take _ (by decide)) (append_ne_of_take _ (by decide))

theorem iniStep_outbound_neutral (input : Str) (c₀ : TunnelConfig) (sec : Str)
    (idx : Nat) (k fv : Str) :
    ∃ c₁, parseINILine input (c₀, sec) idx
      (str "outbound." ++ k ++ str " = " ++ fv) = .ok (c₁, sec) ∧
      scalars6 c₁ = scalars6 c₀ := by
  have hL : (str "outbound." ++ k ++ str " = " ++ fv : Str) =
      str "outbound." ++ ((k ++ str " =") ++ (' ' :: fv)) := by
    simp [List.append_assoc]
    rfl
  obtain ⟨a, b, hab⟩ := splitFirst_keyeq_exists k (trimRight (' ' :: fv))
  have htrim : trimSpace (str "outbound." ++ ((k ++ str " =") ++ (' ' :: fv))) =
      str "outbound." ++ ((k ++ str " =") ++ trimRight (' ' :: fv)) := by
    unfold trimSpace
    rw [show trimLeft (str "outbound." ++ ((k ++ str " =") ++ (' ' :: fv))) =
        str "outbound." ++ ((k ++ str " =") ++ (' ' :: fv)) from rfl,
      trimRight_append _ (by decide), trimRight_keyeq]
  have hsp : splitFirst '=' (str "outbound." ++ ((k ++ str " =") ++ trimRight (' ' :: fv))) =
      some (str "outbound." ++ a, b) := by
    rw [splitFirst_append_free _ (by decide), hab]
    rfl
  have hkey : trimSpace (str "outbound." ++ a) = str "outbound." ++ trimRight a := by
    unfold trimSpace
    rw [show trimLeft (str "outbound." ++ a) = str "outbound." ++ a from rfl,
      trimRight_append _ (by decide)]
  refine ⟨parseINIKeyValue (str "outbound." ++ trimRight a) (trimSpace b) c₀, ?_, ?_⟩
  · simp only [parseINILine]
    rw [hL, htrim,
      if_neg (ini_skip_neg (show ¬ (str "outbound." ++ ((k ++ str " =") ++ trimRight (' ' :: fv))) = [] from cons_append_ne_nil) rfl rfl),
      if_neg (bool_ne_true (show startsWith (str "[") (str "outbound." ++ ((k ++ str " =") ++ trimRight (' ' :: fv))) = false from rfl)),
      hsp]
    simp only [hkey]
    rw [if_neg (show ¬ (str "outbound." ++ trimRight a) = [] from cons_append_ne_nil)]
  · exact parseINIKeyValue_scalars _ _ _
      (append_ne_of_take _ (by decide)) (append_ne_of_take _ (by decide))
      (fun hor => Or.elim hor (append_ne_of_take _ (by decide))
        (append_ne_of_take _ (by decide)))
      (append_ne_of_take _ (by decide)) (append_ne_of_take _ (by decide))
      (append_ne_of_take _ (by decide)) (append_ne_of_take _ (by decide))

theorem iniStep_tunnel_neutral (input : Str) (c₀ : TunnelConfig) (sec : Str)
    (idx : Nat) (k fv : Str) (hk : tunnelKeyOK k) :
    ∃ c₁, parseINILine input (c₀, sec) idx (k ++ str " = " ++ fv) =
      .ok (c₁, sec) ∧ scalars6 c₁ = scalars6 c₀ := by
  obtain ⟨hne, hns, heqf, hbr, hsc, hhash, hn1, hn2, hn3, hn4, hn5, hn6, hn7, hn8⟩ := hk
  obtain ⟨c0, t, hkc⟩ : ∃ c0 t, k = c0 :: t := by
    cases k with
    | nil => exact absurd rfl hne
    | cons c0 t => exact ⟨c0, t, rfl⟩
  have hc0br : ¬ c0 = '[' := fun he => hbr (by rw [hkc, he]; rfl)
  have hc0sc : ¬ c0 = ';' := fun he => hsc (by rw [hkc, he]; rfl)
  have hc0hash : ¬ c0 = '#' := fun he => hhash (by rw [hkc, he]; rfl)
  have hhead : isSpaceGo c0 = false := hns c0 (by rw [hkc]; exact List.mem_cons_self c0 t)
  have hL : (k ++ str " = " ++ fv : Str) = (k ++ str " =") ++ (' ' :: fv) := by
    simp [List.append_assoc]
    rfl
  have htrimL : trimLeft ((k ++ str " =") ++ (' ' :: fv)) = (k ++ str " =") ++ (' ' :: fv) := by
    subst hkc
    simp [trimLeft, List.dropWhile_cons, hhead]
  have htrim : trimSpace ((k ++ str " =") ++ (' ' :: fv)) =
      (k ++ str " =") ++ trimRight (' ' :: fv) := by
    unfold trimSpace
    rw [htrimL, trimRight_keyeq]
  have hsp1 : splitFirst '=' k = none :=
    splitFirst_none_of_not_mem (not_mem_of_containsChar_false heqf)
  have hsp : splitFirst '=' ((k ++ str " =") ++ trimRight (' ' :: fv)) =
      some (k ++ str " ", trimRight (' ' :: fv)) := by
    rw [show ((k ++ str " =") ++ trimRight (' ' :: fv) : Str) =
        k ++ (str " =" ++ trimRight (' ' :: fv)) from by simp,
      splitFirst_append_cases, hsp1,
      show splitFirst '=' (str " =" ++ trimRight (' ' :: fv)) =
        some (str " ", trimRight (' ' :: fv)) from rfl]
    rfl
  have hkey : trimSpace (k ++ str " ") = k := by
    unfold trimSpace
    rw [show trimLeft (k ++ str " ") = k ++ str " " from by
        subst hkc; simp [trimLeft, List.dropWhile_cons, hhead]]
    exact trimRight_append_blank k hns
  refine ⟨parseINIKeyValue k (trimSpace (trimRight (' ' :: fv))) c₀, ?_, ?_⟩
  · simp only [parseINILine]
    rw [hL, htrim,
      if_neg (ini_skip_neg
        (show ¬ ((k ++ str " =") ++ trimRight (' ' :: fv)) = [] from by
          subst hkc; exact cons_append_ne_nil)
        (show startsWith (str ";") ((k ++ str " =") ++ trimRight (' ' :: fv)) = false from by
          subst hkc; exact startsWith_one_cons_false hc0sc)
        (show startsWith (str "#") ((k ++ str " =") ++ trimRight (' ' :: fv)) = false from by
          subst hkc; exact startsWith_one_cons_false hc0hash)),
      if_neg (bool_ne_true
        (show startsWith (str "[") ((k ++ str " =") ++ trimRight (' ' :: fv)) = false from by
          subst hkc; exact startsWith_one_cons_false hc0br)),
      hsp]
    simp only [hkey]
    rw [if_neg hne]
  · exact parseINIKeyValue_scalars _ _ _ hn1 hn2
      (fun hor => Or.elim hor hn3 hn4) hn5 hn6 hn7 hn8

theorem foldIdxM_append_ok {input : Str} {st st₁ : TunnelConfig × Str}
    {l₁ : List Str} (l₂ : List Str) (i : Nat)
    (h : foldIdxM (parseINILine input) st i l₁ = .ok st₁) :
    foldIdxM (parseINILine input) st i (l₁ ++ l₂) =
      foldIdxM (parseINILine input) st₁ (i + l₁.length) l₂ := by
  induction l₁ generalizing st i with
  | nil => cases h; rfl
  | cons l t ih =>
    cases hl : parseINILine input st i l with
    | error e =>
      exfalso
      simp only [foldIdxM, hl, bind, Except.bind] at h
      cases h
    | ok st2 =>
      simp only [List.cons_append, foldIdxM, hl, bind, Except.bind,
        List.append_eq] at h ⊢
      rw [ih _ h, show i + 1 + t.length = i + (t.length + 1) from by omega]
      rfl

theorem iniFold_neutral (input : Str) (ls : List Str)
    (h : ∀ l ∈ ls, ∀ (c₀ : TunnelConfig) (sec : Str) (idx : Nat),
      ∃ c₁, parseINILine input (c₀, sec) idx l = .ok (c₁, sec) ∧
        scalars6 c₁ = scalars6 c₀) :
    ∀ (cs : TunnelConfig) (ss : Str) (i : Nat),
      ∃ c₁, foldIdxM (parseINILine input) (cs, ss) i ls = .ok (c₁, ss) ∧
        scalars6 c₁ = scalars6 cs := by
  induction ls with
  | nil => exact fun cs ss i => ⟨cs, rfl, rfl⟩
  | cons l t ih =>
    intro cs ss i
    obtain ⟨c₁, hc₁, hs₁⟩ := h l (List.mem_cons_self l t) cs ss i
    obtain ⟨c₂, hc₂, hs₂⟩ := ih (fun x hx => h x (List.mem_cons_of_mem l hx)) c₁ ss (i + 1)
    refine ⟨c₂, ?_, hs₂.trans hs₁⟩
    simp only [foldIdxM, hc₁, bind, Except.bind]
    exact hc₂

theorem isSpaceGo_false_not_nl {ch : Char} (h : isSpaceGo ch = false) :
    ¬ ch = '\n' := by
  intro he
  subst he
  exact absurd h (by decide)

theorem iniLines_noNL {c : TunnelConfig} (h : iniClean c) :
    ∀ l ∈ iniLines c, containsChar '\n' l = false := by
  obtain ⟨hN, hT, hI, hTg, hD, ⟨hkne, hks, hktr⟩, hg1, hg2, hg3, hg4⟩ := h
  intro l hl
  simp only [iniLines, List.mem_append] at hl
  rcases hl with ((((((((((h1 | h2) | h3) | h4) | h5) | h6) | h7) | h8) | h9) | h10) | h11)
  · rw [mem_ite_singleton h1, containsChar_append, containsChar_cons, hN]
    decide
  · rw [mem_ite_singleton h2, containsChar_append, hT.1]
    decide
  · rw [mem_ite_singleton h3, containsChar_append, hI.1]
    decide
  · rw [mem_ite_singleton h4, containsChar_append, intToStr_noNL]
    decide
  · by_cases ht : c.Target ≠ []
    · rw [if_pos ht] at h5
      by_cases hsv : c.Typ = str "server" ∨ c.Typ = str "httpserver" ∨ c.Typ = str "ircserver"
      · rw [if_pos hsv] at h5
        rw [mem_ite_singleton (show l ∈ (if True then [str "address = " ++ c.Target] else []) from by simpa using h5),
          containsChar_append, hTg.1]
        decide
      · rw [if_neg hsv] at h5
        rw [mem_ite_singleton (show l ∈ (if True then [str "destination = " ++ c.Target] else []) from by simpa using h5),
          containsChar_append, hTg.1]
        decide
    · rw [if_neg ht] at h5
      simp at h5
  · rw [mem_ite_singleton h6, containsChar_append, hD.1]
    decide
  · rw [show l = iniKeysLine c from by simpa using h7]
    rw [show iniKeysLine c = str "keys = " ++ iniKeysVal c from rfl, containsChar_append,
      containsChar_eq_false_of (fun ch hch => isSpaceGo_false_not_nl (hks ch hch))]
    decide
  · obtain ⟨p, hp, hline⟩ := List.mem_map.mp h8
    subst hline
    rw [containsChar_append, containsChar_append, containsChar_append,
      (hg1 p hp).1, (hg1 p hp).2]
    decide
  · obtain ⟨p, hp, hline⟩ := List.mem_map.mp h9
    subst hline
    have hpf := List.mem_filter.mp hp
    have hkf : ¬ p.1 = str "keyfile" := by simpa using hpf.2
    obtain ⟨hkOK, hvOK⟩ := hg2 p hpf.1 hkf
    rw [containsChar_append, containsChar_append,
      containsChar_eq_false_of (fun ch hch => isSpaceGo_false_not_nl (hkOK.2.1 ch hch)),
      hvOK.2]
    decide
  · obtain ⟨p, hp, hline⟩ := List.mem_map.mp h10
    subst hline
    rw [containsChar_append, containsChar_append, containsChar_append,
      (hg3 p hp).1, (hg3 p hp).2]
    decide
  · obtain ⟨p, hp, hline⟩ := List.mem_map.mp h11
    subst hline
    rw [containsChar_append, containsChar_append, containsChar_append,
      (hg4 p hp).1, (hg4 p hp).2]
    decide

set_option maxHeartbeats 2000000 in
theorem ini_roundtrip (c : TunnelConfig) (h : iniClean c) :
    ∃ c₂, parseINI (generateINI c) = .ok c₂ ∧ scalars6 c₂ = scalars6 c := by
  have hsplit : splitCh '\n' (generateINI c) = iniLines c ++ [[]] :=
    splitCh_joinNL (iniLines_noNL h)
  obtain ⟨hN, hT, hI, hTg, hD, ⟨hkne, hks, hktr⟩, hg1, hg2, hg3, hg4⟩ := h
  have hOpts : iniLines c ++ [[]] =
      (if c.Name ≠ [] then ['[' :: c.Name ++ [']']] else []) ++
      ((if c.Typ ≠ [] then [str "type = " ++ c.Typ] else []) ++
       ((if c.Iface ≠ [] then [str "host = " ++ c.Iface] else []) ++
        ((if c.Port ≠ 0 then [str "port = " ++ intToStr c.Port] else []) ++
         ((if c.Target ≠ [] then
            if c.Typ = str "server" ∨ c.Typ = str "httpserver" ∨ c.Typ = str "ircserver"
            then [str "address = " ++ c.Target]
            else [str "destination = " ++ c.Target]
           else []) ++
          ((if c.Description ≠ [] then [str "description = " ++ c.Description] else []) ++
           ([iniKeysLine c] ++
            ((c.I2CP.getD []).map (fun p => str "i2cp." ++ p.1 ++ str " = " ++ formatINIValue p.2) ++
             (((c.Tunnel.getD []).filter (fun p => p.1 ≠ str "keyfile")).map
                (fun p => p.1 ++ str " = " ++ formatINIValue p.2) ++
              ((c.Inbound.getD []).map (fun p => str "inbound." ++ p.1 ++ str " = " ++ formatINIValue p.2) ++
               ((c.Outbound.getD []).map (fun p => str "outbound." ++ p.1 ++ str " = " ++ formatINIValue p.2) ++
                [[]])))))))))) := by
    simp only [iniLines, List.append_assoc]
  have e1 : ∃ sec₁, ∀ i : Nat, foldIdxM (parseINILine (generateINI c)) (initConfig, []) i
      (if c.Name ≠ [] then ['[' :: c.Name ++ [']']] else []) =
      .ok ({ initConfig with Name := c.Name }, sec₁) := by
    by_cases hn : c.Name = []
    · refine ⟨[], fun i => ?_⟩
      rw [if_neg (by simp [hn]),
        show ({ initConfig with Name := c.Name } : TunnelConfig) = initConfig from by
          rw [hn]; rfl]
      rfl
    · refine ⟨c.Name, fun i => ?_⟩
      rw [if_pos hn]
      simp only [foldIdxM]
      rw [show ('[' :: c.Name ++ [']'] : Str) = str "[" ++ (c.Name ++ str "]") from rfl,
        iniStep_section (generateINI c) initConfig [] i c.Name hn rfl]
      rfl
  obtain ⟨sec₁, e1⟩ := e1
  have e2 : ∀ i : Nat, foldIdxM (parseINILine (generateINI c))
      ({ initConfig with Name := c.Name }, sec₁) i
      (if c.Typ ≠ [] then [str "type = " ++ c.Typ] else []) =
      .ok ({ initConfig with Name := c.Name, Typ := c.Typ }, sec₁) := by
    intro i
    by_cases hx : c.Typ = []
    · rw [if_neg (by simp [hx]),
        show ({ initConfig with Name := c.Name, Typ := c.Typ } : TunnelConfig) =
          { initConfig with Name := c.Name } from by rw [hx]; rfl]
      rfl
    · rw [if_pos hx]
      simp only [foldIdxM]
      rw [iniStep_type (generateINI c) _ sec₁ i c.Typ hT hx]
      rfl
  have e3 : ∀ i : Nat, foldIdxM (parseINILine (generateINI c))
      ({ initConfig with Name := c.Name, Typ := c.Typ }, sec₁) i
      (if c.Iface ≠ [] then [str "host = " ++ c.Iface] else []) =
      .ok ({ initConfig with Name := c.Name, Typ := c.Typ, Iface := c.Iface }, sec₁) := by
    intro i
    by_cases hx : c.Iface = []
    · rw [if_neg (by simp [hx]),
        show ({ initConfig with Name := c.Name, Typ := c.Typ, Iface := c.Iface } : TunnelConfig) =
          { initConfig with Name := c.Name, Typ := c.Typ } from by rw [hx]; rfl]
      rfl
    · rw [if_pos hx]
      simp only [foldIdxM]
      rw [iniStep_host (generateINI c) _ sec₁ i c.Iface hI hx]
      rfl
  have e4 : ∀ i : Nat, foldIdxM (parseINILine (generateINI c))
      ({ initConfig with Name := c.Name, Typ := c.Typ, Iface := c.Iface }, sec₁) i
      (if c.Port ≠ 0 then [str "port = " ++ intToStr c.Port] else []) =
      .ok ({ initConfig with Name := c.Name, Typ := c.Typ, Iface := c.Iface, Port := c.Port }, sec₁) := by
    intro i
    by_cases hx : c.Port = 0
    · rw [if_neg (by simp [hx]),
        show ({ initConfig with Name := c.Name, Typ := c.Typ, Iface := c.Iface, Port := c.Port } : TunnelConfig) =
          { initConfig with Name := c.Name, Typ := c.Typ, Iface := c.Iface } from by rw [hx]; rfl]
      rfl
    · rw [if_pos hx]
      simp only [foldIdxM]
      rw [iniStep_port (generateINI c) _ sec₁ i c.Port]
      rfl
  have e5 : ∀ i : Nat, foldIdxM (parseINILine (generateINI c))
      ({ initConfig with Name := c.Name, Typ := c.Typ, Iface := c.Iface, Port := c.Port }, sec₁) i
      (if c.Target ≠ [] then
        if c.Typ = str "server" ∨ c.Typ = str "httpserver" ∨ c.Typ = str "ircserver"
        then [str "address = " ++ c.Target]
        else [str "destination = " ++ c.Target]
       else []) =
      .ok ({ initConfig with Name := c.Name, Typ := c.Typ, Iface := c.Iface, Port := c.Port, Target := c.Target }, sec₁) := by
    intro i
    by_cases hx : c.Target = []
    · rw [if_neg (by simp [hx]),
        show ({ initConfig with Name := c.Name, Typ := c.Typ, Iface := c.Iface, Port := c.Port, Target := c.Target } : TunnelConfig) =
          { initConfig with Name := c.Name, Typ := c.Typ, Iface := c.Iface, Port := c.Port } from by rw [hx]; rfl]
      rfl
    · rw [if_pos hx]
      by_cases hsv : c.Typ = str "server" ∨ c.Typ = str "httpserver" ∨ c.Typ = str "ircserver"
      · rw [if_pos hsv]
        simp only [foldIdxM]
        rw [iniStep_address (generateINI c) _ sec₁ i c.Target hTg hx]
        rfl
      · rw [if_neg hsv]
        simp only [foldIdxM]
        rw [iniStep_destination (generateINI c) _ sec₁ i c.Target hTg hx]
        rfl
  have e6 : ∀ i : Nat, foldIdxM (parseINILine (generateINI c))
      ({ initConfig with Name := c.Name, Typ := c.Typ, Iface := c.Iface, Port := c.Port, Target := c.Target }, sec₁) i
      (if c.Description ≠ [] then [str "description = " ++ c.Description] else []) =
      .ok ({ initConfig with Name := c.Name, Typ := c.Typ, Iface := c.Iface, Port := c.Port, Target := c.Target, Description := c.Description }, sec₁) := by
    intro i
    by_cases hx : c.Description = []
    · rw [if_neg (by simp [hx]),
        show ({ initConfig with Name := c.Name, Typ := c.Typ, Iface := c.Iface, Port := c.Port, Target := c.Target, Description := c.Description } : TunnelConfig) =
          { initConfig with Name := c.Name, Typ := c.Typ, Iface := c.Iface, Port := c.Port, Target := c.Target } from by rw [hx]; rfl]
      rfl
    · rw [if_pos hx]
      simp only [foldIdxM]
      rw [iniStep_descriptionL (generateINI c) _ sec₁ i c.Description hD hx]
      rfl
  have e7 : ∀ i : Nat, foldIdxM (parseINILine (generateINI c))
      ({ initConfig with Name := c.Name, Typ := c.Typ, Iface := c.Iface, Port := c.Port, Target := c.Target, Description := c.Description }, sec₁) i
      [iniKeysLine c] =
      .ok (parseINIKeyValue (str "keys") (iniKeysVal c) { initConfig with Name := c.Name, Typ := c.Typ, Iface := c.Iface, Port := c.Port, Target := c.Target, Description := c.Description }, sec₁) := by
    intro i
    simp only [foldIdxM]
    rw [show iniKeysLine c = str "keys = " ++ iniKeysVal c from rfl,
      iniStep_keys (generateINI c) _ sec₁ i (iniKeysVal c) hkne hks]
    rfl
  have hs7 : scalars6 (parseINIKeyValue (str "keys") (iniKeysVal c) { initConfig with Name := c.Name, Typ := c.Typ, Iface := c.Iface, Port := c.Port, Target := c.Target, Description := c.Description }) =
      (c.Name, c.Typ, c.Iface, c.Port, c.Target, c.PersistentKey) := by
    cases hpk : c.PersistentKey with
    | false =>
      rw [show iniKeysVal c = str "transient" from by unfold iniKeysVal; rw [hpk]; rfl]
      rw [show parseINIKeyValue (str "keys") (str "transient")
          ({ initConfig with Name := c.Name, Typ := c.Typ, Iface := c.Iface, Port := c.Port, Target := c.Target, Description := c.Description } : TunnelConfig) =
          ({ initConfig with Name := c.Name, Typ := c.Typ, Iface := c.Iface, Port := c.Port, Target := c.Target, Description := c.Description, PersistentKey := false } : TunnelConfig) from rfl]
      rfl
    | true =>
      rw [show parseINIKeyValue (str "keys") (iniKeysVal c)
          ({ initConfig with Name := c.Name, Typ := c.Typ, Iface := c.Iface, Port := c.Port, Target := c.Target, Description := c.Description } : TunnelConfig) =
          (if toLowerS (iniKeysVal c) = str "transient"
           then ({ initConfig with Name := c.Name, Typ := c.Typ, Iface := c.Iface, Port := c.Port, Target := c.Target, Description := c.Description, PersistentKey := false } : TunnelConfig)
           else ({ initConfig with Name := c.Name, Typ := c.Typ, Iface := c.Iface, Port := c.Port, Target := c.Target, Description := c.Description, PersistentKey := true, Tunnel := mapSet (initConfig.Tunnel) (str "keyfile") (.str (iniKeysVal c)) } : TunnelConfig)) from rfl,
        if_neg (hktr hpk)]
      rfl
  have m1 : ∀ (cs : TunnelConfig) (ss : Str) (i : Nat),
      ∃ c₁, foldIdxM (parseINILine (generateINI c)) (cs, ss) i
        ((c.I2CP.getD []).map (fun p => str "i2cp." ++ p.1 ++ str " = " ++ formatINIValue p.2)) =
        .ok (c₁, ss) ∧ scalars6 c₁ = scalars6 cs := by
    refine iniFold_neutral _ _ ?_
    intro l hl c₀ sec idx
    obtain ⟨p, hp, hline⟩ := List.mem_map.mp hl
    subst hline
    exact iniStep_i2cp_neutral (generateINI c) c₀ sec idx p.1 (formatINIValue p.2)
  have m2 : ∀ (cs : TunnelConfig) (ss : Str) (i : Nat),
      ∃ c₁, foldIdxM (parseINILine (generateINI c)) (cs, ss) i
        (((c.Tunnel.getD []).filter (fun p => p.1 ≠ str "keyfile")).map
          (fun p => p.1 ++ str " = " ++ formatINIValue p.2)) =
        .ok (c₁, ss) ∧ scalars6 c₁ = scalars6 cs := by
    refine iniFold_neutral _ _ ?_
    intro l hl c₀ sec idx
    obtain ⟨p, hp, hline⟩ := List.mem_map.mp hl
    subst hline
    obtain ⟨hpm, hpk⟩ := List.mem_filter.mp hp
    exact iniStep_tunnel_neutral (generateINI c) c₀ sec idx p.1 (formatINIValue p.2)
      (hg2 p hpm (of_decide_eq_true hpk)).1
  have m3 : ∀ (cs : TunnelConfig) (ss : Str) (i : Nat),
      ∃ c₁, foldIdxM (parseINILine (generateINI c)) (cs, ss) i
        ((c.Inbound.getD []).map (fun p => str "inbound." ++ p.1 ++ str " = " ++ formatINIValue p.2)) =
        .ok (c₁, ss) ∧ scalars6 c₁ = scalars6 cs := by
    refine iniFold_neutral _ _ ?_
    intro l hl c₀ sec idx
    obtain ⟨p, hp, hline⟩ := List.mem_map.mp hl
    subst hline
    exact iniStep_inbound_neutral (generateINI c) c₀ sec idx p.1 (formatINIValue p.2)
  have m4 : ∀ (cs : TunnelConfig) (ss : Str) (i : Nat),
      ∃ c₁, foldIdxM (parseINILine (generateINI c)) (cs, ss) i
        ((c.Outbound.getD []).map (fun p => str "outbound." ++ p.1 ++ str " = " ++ formatINIValue p.2)) =
        .ok (c₁, ss) ∧ scalars6 c₁ = scalars6 cs := by
    refine iniFold_neutral _ _ ?_
    intro l hl c₀ sec idx
    obtain ⟨p, hp, hline⟩ := List.mem_map.mp hl
    subst hline
    exact iniStep_outbound_neutral (generateINI c) c₀ sec idx p.1 (formatINIValue p.2)
  have tail : ∀ i : Nat, ∃ cF, foldIdxM (parseINILine (generateINI c))
      (parseINIKeyValue (str "keys") (iniKeysVal c) { initConfig with Name := c.Name, Typ := c.Typ, Iface := c.Iface, Port := c.Port, Target := c.Target, Description := c.Description }, sec₁) i
      ((c.I2CP.getD []).map (fun p => str "i2cp." ++ p.1 ++ str " = " ++ formatINIValue p.2) ++
       (((c.Tunnel.getD []).filter (fun p => p.1 ≠ str "keyfile")).map
          (fun p => p.1 ++ str " = " ++ formatINIValue p.2) ++
        ((c.Inbound.getD []).map (fun p => str "inbound." ++ p.1 ++ str " = " ++ formatINIValue p.2) ++
         ((c.Outbound.getD []).map (fun p => str "outbound." ++ p.1 ++ str " = " ++ formatINIValue p.2) ++
          [[]])))) = .ok (cF, sec₁) ∧
      scalars6 cF = (c.Name, c.Typ, c.Iface, c.Port, c.Target, c.PersistentKey) := by
    intro i
    obtain ⟨c₈, h8, s8⟩ := m1 (parseINIKeyValue (str "keys") (iniKeysVal c) { initConfig with Name := c.Name, Typ := c.Typ, Iface := c.Iface, Port := c.Port, Target := c.Target, Description := c.Description }) sec₁ i
    rw [foldIdxM_append_ok _ i h8]
    obtain ⟨c₉, h9, s9⟩ := m2 c₈ sec₁
      (i + ((c.I2CP.getD []).map (fun p => str "i2cp." ++ p.1 ++ str " = " ++ formatINIValue p.2)).length)
    rw [foldIdxM_append_ok _ _ h9]
    obtain ⟨c₁₀, h10, s10⟩ := m3 c₉ sec₁
      (i + ((c.I2CP.getD []).map (fun p => str "i2cp." ++ p.1 ++ str " = " ++ formatINIValue p.2)).length +
        (((c.Tunnel.getD []).filter (fun p => p.1 ≠ str "keyfile")).map
          (fun p => p.1 ++ str " = " ++ formatINIValue p.2)).length)
    rw [foldIdxM_append_ok _ _ h10]
    obtain ⟨c₁₁, h11, s11⟩ := m4 c₁₀ sec₁
      (i + ((c.I2CP.getD []).map (fun p => str "i2cp." ++ p.1 ++ str " = " ++ formatINIValue p.2)).length +
        (((c.Tunnel.getD []).filter (fun p => p.1 ≠ str "keyfile")).map
          (fun p => p.1 ++ str " = " ++ formatINIValue p.2)).length +
        ((c.Inbound.getD []).map (fun p => str "inbound." ++ p.1 ++ str " = " ++ formatINIValue p.2)).length)
    rw [foldIdxM_append_ok _ _ h11]
    refine ⟨c₁₁, ?_, ?_⟩
    · rfl
    · rw [s11, s10, s9, s8]
      exact hs7
  have hfold : ∃ cF, foldIdxM (parseINILine (generateINI c))
      (initConfig, ([] : Str)) 0 (iniLines c ++ [[]]) = .ok (cF, sec₁) ∧
      scalars6 cF = (c.Name, c.Typ, c.Iface, c.Port, c.Target, c.PersistentKey) := by
    rw [hOpts]
    rw [foldIdxM_append_ok _ 0 (e1 0)]
    rw [foldIdxM_append_ok _ _ (e2 _)]
    rw [foldIdxM_append_ok _ _ (e3 _)]
    rw [foldIdxM_append_ok _ _ (e4 _)]
    rw [foldIdxM_append_ok _ _ (e5 _)]
    rw [foldIdxM_append_ok _ _ (e6 _)]
    rw [foldIdxM_append_ok _ _ (e7 _)]
    exact tail _
  obtain ⟨cF, hF, sF⟩ := hfold
  refine ⟨cF, ?_, ?_⟩
  · show parseINI (generateINI c) = .ok cF
    unfold parseINI
    rw [hsplit, hF]
    rfl
  · exact sF



/-- Item kinds of the magiconair/properties lexer (lex.go, v1.8.9, the
library parseJavaProperties loads input with): comments, keys and
values; the end of the item list stands for itemEOF and a lex error
surfaces as the Except error. -/
inductive PropItem where
  | itemComment (s : Str)
  | itemKey (s : Str)
  | itemValue (s : Str)
deriving DecidableEq, Repr

/-- whitespace (lex.go): space, form feed and tab — the class skipped
around keys and separators; line ends are handled separately. -/
def isWhitespace (r : Char) : Bool := r = ' ' || r = '\x0c' || r = '\t'

/-- isEOL (lex.go). -/
def isEOL (r : Char) : Bool := r = '\n' || r = '\r'

/-- isComment (lex.go). -/
def isComment (r : Char) : Bool := r = '#' || r = '!'

/-- isEndOfKey (lex.go): the characters that terminate a key. -/
def isEndOfKey (r : Char) : Bool :=
  r = ' ' || r = '\x0c' || r = '\t' || r = '\r' || r = '\n' || r = ':' || r = '='

/-- isEscape (lex.go). -/
def isEscape (r : Char) : Bool := r = '\\'

/-- isEscapedCharacter (lex.go): the characters with a fixed decoding
after a backslash. -/
def isEscapedCharacter (r : Char) : Bool :=
  r = ' ' || r = ':' || r = '=' || r = 'f' || r = 'n' || r = 'r' || r = 't'

/-- decodeEscapedCharacter (lex.go). -/
def decodeEscapedCharacter (r : Char) : Char :=
  if r = 'f' then '\x0c'
  else if r = 'n' then '\n'
  else if r = 'r' then '\x0d'
  else if r = 't' then '\t'
  else r

/-- The hexadecimal digit class of scanUnicodeLiteral (lex.go). -/
def isHexDigit (r : Char) : Bool :=
  ('0' ≤ r && r ≤ '9') || ('a' ≤ r && r ≤ 'f') || ('A' ≤ r && r ≤ 'F')

/-- The value of one hexadecimal digit. -/
def hexVal (r : Char) : Nat :=
  if '0' ≤ r && r ≤ '9' then r.toNat - 48
  else if 'a' ≤ r && r ≤ 'f' then r.toNat - 87
  else r.toNat - 55

/-- scanUnicodeLiteral (lex.go): exactly four hexadecimal digits decode
to one rune; a bad digit or EOF is the invalid-unicode-literal error.
A decoded surrogate is not a valid code point and becomes the
replacement character when the accumulated runes are turned into a
string. -/
def scanUnicodeLiteral : Str → Except Str (Char × Str)
  | d1 :: d2 :: d3 :: d4 :: rest =>
    if isHexDigit d1 && isHexDigit d2 && isHexDigit d3 && isHexDigit d4 then
      let v := ((hexVal d1 * 16 + hexVal d2) * 16 + hexVal d3) * 16 + hexVal d4
      .ok (Char.ofNat (if 0xD800 ≤ v ∧ v ≤ 0xDFFF then 0xFFFD else v), rest)
    else .error (str "invalid unicode literal")
  | _ => .error (str "invalid unicode literal")

/-- scanEscapeSequence (lex.go): decode one escape after a backslash —
a fixed escape, a unicode literal, the premature-EOF error, or any
other character with the backslash silently dropped. -/
def scanEscapeSequence : Str → Except Str (Char × Str)
  | [] => .error (str "premature EOF")
  | r :: rest =>
    if isEscapedCharacter r then .ok (decodeEscapedCharacter r, rest)
    else if r = 'u' then scanUnicodeLiteral rest
    else .ok (r, rest)

theorem scanUnicodeLiteral_length {s t : Str} {c : Char}
    (h : scanUnicodeLiteral s = .ok (c, t)) : t.length + 4 = s.length := by
  match s with
  | [] => simp [scanUnicodeLiteral] at h
  | [_] => simp [scanUnicodeLiteral] at h
  | [_, _] => simp [scanUnicodeLiteral] at h
  | [_, _, _] => simp [scanUnicodeLiteral] at h
  | d1 :: d2 :: d3 :: d4 :: rest =>
    simp only [scanUnicodeLiteral] at h
    by_cases hd : (isHexDigit d1 && isHexDigit d2 && isHexDigit d3 && isHexDigit d4) = true
    · rw [if_pos hd] at h
      cases h
      simp
    · rw [if_neg hd] at h
      cases h

theorem scanEscapeSequence_length {s t : Str} {c : Char}
    (h : scanEscapeSequence s = .ok (c, t)) : t.length < s.length := by
  match s with
  | [] => simp [scanEscapeSequence] at h
  | r :: rest =>
    simp only [scanEscapeSequence] at h
    by_cases h1 : isEscapedCharacter r = true
    · rw [if_pos h1] at h
      cases h
      simp
    · rw [if_neg h1] at h
      by_cases h2 : r = 'u'
      · rw [if_pos h2] at h
        have := scanUnicodeLiteral_length h
        simp
        omega
      · rw [if_neg h2] at h
        cases h
        simp

mutual

/-- lexBeforeKey (lex.go): between items — skip line ends and
whitespace, branch to comments or keys, stop at EOF. -/
def lexBeforeKey : Str → Except Str (List PropItem)
  | [] => .ok []
  | r :: t =>
    if isEOL r then lexBeforeKey t
    else if isComment r then lexCommentWS t
    else if isWhitespace r then lexBeforeKey t
    else lexKey [] (r :: t)
termination_by s => 8 * s.length + 6
decreasing_by
  all_goals simp_wf
  all_goals omega

/-- The acceptRun of whitespace that opens lexComment (lex.go). -/
def lexCommentWS : Str → Except Str (List PropItem)
  | [] => lexComment [] []
  | r :: t =>
    if isWhitespace r then lexCommentWS t
    else lexComment [] (r :: t)
termination_by s => 8 * s.length + 3
decreasing_by
  all_goals simp_wf
  all_goals omega

/-- lexComment (lex.go): the comment text after the marker and its
whitespace run, up to the line end; a comment at EOF is dropped. -/
def lexComment (acc : Str) : Str → Except Str (List PropItem)
  | [] => .ok []
  | r :: t =>
    if isEOL r then (lexBeforeKey t).map (fun its => .itemComment acc :: its)
    else lexComment (acc ++ [r]) t
termination_by s => 8 * s.length + 2
decreasing_by
  all_goals simp_wf
  all_goals omega

/-- lexKey (lex.go): accumulate key runes, decoding escape sequences,
until a key-terminating character or EOF; a non-empty key is emitted. -/
def lexKey (acc : Str) : Str → Except Str (List PropItem)
  | [] => if acc = [] then .ok [] else .ok [.itemKey acc]
  | r :: t =>
    if isEscape r then
      match hesc : scanEscapeSequence t with
      | .error e => .error e
      | .ok (ch, t2) => lexKey (acc ++ [ch]) t2
    else if isEndOfKey r then
      (lexBeforeValue (r :: t)).map
        (fun its => if acc = [] then its else .itemKey acc :: its)
    else lexKey (acc ++ [r]) t
termination_by s => 8 * s.length + 5
decreasing_by
  all_goals simp_wf
  all_goals try omega
  all_goals (have h := scanEscapeSequence_length hesc; omega)

/-- lexBeforeValue (lex.go): skip whitespace, at most one = or :
separator, and more whitespace. -/
def lexBeforeValue : Str → Except Str (List PropItem)
  | [] => lexValue [] []
  | r :: t =>
    if isWhitespace r then lexBeforeValue t
    else if r = ':' ∨ r = '=' then lexValueWS [] t
    else lexValue [] (r :: t)
termination_by s => 8 * s.length + 4
decreasing_by
  all_goals simp_wf
  all_goals omega

/-- The acceptRun of whitespace after the separator in lexBeforeValue,
and after a line continuation in lexValue (lex.go). -/
def lexValueWS (acc : Str) : Str → Except Str (List PropItem)
  | [] => lexValue acc []
  | r :: t =>
    if isWhitespace r then lexValueWS acc t
    else lexValue acc (r :: t)
termination_by s => 8 * s.length + 3
decreasing_by
  all_goals simp_wf
  all_goals omega

/-- lexValue (lex.go): accumulate value runes, decoding escape
sequences; a backslash before a line end is a line continuation that
consumes the line end and the next line's leading whitespace; the
value ends at a line end or EOF. -/
def lexValue (acc : Str) : Str → Except Str (List PropItem)
  | [] => .ok [.itemValue acc]
  | r :: t =>
    if isEscape r then
      match t with
      | c :: tc =>
        if isEOL c then lexValueWS acc tc
        else
          match hesc : scanEscapeSequence (c :: tc) with
          | .error e => .error e
          | .ok (ch, t2) => lexValue (acc ++ [ch]) t2
      | [] => .error (str "premature EOF")
    else if isEOL r then (lexBeforeKey t).map (fun its => .itemValue acc :: its)
    else lexValue (acc ++ [r]) t
termination_by s => 8 * s.length + 2
decreasing_by
  all_goals simp_wf
  all_goals try omega
  all_goals (have h := scanEscapeSequence_length hesc; simp only [List.length_cons] at h; omega)

end

/-- The backing store of Properties (properties.go): the key list k in
first-occurrence order fused with the value map m, as an association
list where a repeated key overwrites its value in place. -/
def propsSet (m : List (Str × Str)) (k v : Str) : List (Str × Str) :=
  match m with
  | [] => [(k, v)]
  | (k₀, v₀) :: t => if k₀ = k then (k, v) :: t else (k₀, v₀) :: propsSet t k v

/-- parse (parser.go): comments are collected and dropped, every key
takes the next value (or the empty string at EOF), and any other item
sequence is the unexpected-token error that MustLoadString turns into
a panic. -/
def parse (props : List (Str × Str)) : List PropItem → Except Str (List (Str × Str))
  | [] => .ok props
  | .itemComment _ :: rest => parse props rest
  | .itemKey k :: .itemValue v :: rest => parse (propsSet props k v) rest
  | [.itemKey k] => .ok (propsSet props k [])
  | _ => .error (str "unexpected token")

/-- LoadString and MustLoadString (properties.go): lex, then parse.
The value expander that runs on load and on Get is the identity on any
value without the interpolation opener; the cleanliness hypotheses of
the round-trip theorems keep every value free of the dollar character,
so it is not modelled further. -/
def loadString (input : Str) : Except Str (List (Str × Str)) :=
  (lexBeforeKey input).bind (parse [])

/-- parseJavaProperties (src/lib/properties.go) from raw text:
MustLoadString (a lex or parse failure panics, modelled as none), then
the key loop over the stored keys in first-occurrence order with their
final values. -/
def parseJavaPropertiesText (input : Str) : Option TunnelConfig :=
  match loadString input with
  | .error _ => none
  | .ok kvs => parseJavaProperties kvs


example : lexBeforeKey (str "a=b") = .ok [.itemKey (str "a"), .itemValue (str "b")] := by
  simp [lexBeforeKey, lexKey, lexBeforeValue, lexValue, lexValueWS, isEOL, isComment,
    isWhitespace, isEscape, isEndOfKey, str, scanEscapeSequence, isEscapedCharacter,
    decodeEscapedCharacter, Except.map]

example : loadString (str "k=a\\b") = .ok [(str "k", str "ab")] := by
  simp [loadString, lexBeforeKey, lexKey, lexBeforeValue, lexValue, lexValueWS,
    lexComment, lexCommentWS, scanEscapeSequence, scanUnicodeLiteral, isEscapedCharacter,
    decodeEscapedCharacter, isWhitespace, isEOL, isComment, isEndOfKey, isEscape,
    isHexDigit, hexVal, Except.map, Except.bind, parse, propsSet, str]

example : loadString (str "a=b\rc=d") = .ok [(str "a", str "b"), (str "c", str "d")] := by
  simp [loadString, lexBeforeKey, lexKey, lexBeforeValue, lexValue, lexValueWS,
    lexComment, lexCommentWS, scanEscapeSequence, scanUnicodeLiteral, isEscapedCharacter,
    decodeEscapedCharacter, isWhitespace, isEOL, isComment, isEndOfKey, isEscape,
    isHexDigit, hexVal, Except.map, Except.bind, parse, propsSet, str]

example : loadString (str "k=a\\\nb") = .ok [(str "k", str "ab")] := by
  simp [loadString, lexBeforeKey, lexKey, lexBeforeValue, lexValue, lexValueWS,
    lexComment, lexCommentWS, scanEscapeSequence, scanUnicodeLiteral, isEscapedCharacter,
    decodeEscapedCharacter, isWhitespace, isEOL, isComment, isEndOfKey, isEscape,
    isHexDigit, hexVal, Except.map, Except.bind, parse, propsSet, str]

example : loadString (str "k=x\\") = .error (str "premature EOF") := by
  simp [loadString, lexBeforeKey, lexKey, lexBeforeValue, lexValue, lexValueWS,
    lexComment, lexCommentWS, scanEscapeSequence, scanUnicodeLiteral, isEscapedCharacter,
    decodeEscapedCharacter, isWhitespace, isEOL, isComment, isEndOfKey, isEscape,
    isHexDigit, hexVal, Except.map, Except.bind, parse, propsSet, str]

example : loadString (str "k=\\u12") = .error (str "invalid unicode literal") := by
  simp [loadString, lexBeforeKey, lexKey, lexBeforeValue, lexValue, lexValueWS,
    lexComment, lexCommentWS, scanEscapeSequence, scanUnicodeLiteral, isEscapedCharacter,
    decodeEscapedCharacter, isWhitespace, isEOL, isComment, isEndOfKey, isEscape,
    isHexDigit, hexVal, Except.map, Except.bind, parse, propsSet, str]

example : loadString (str "k=\\u0041") = .ok [(str "k", str "A")] := by
  simp [loadString, lexBeforeKey, lexKey, lexBeforeValue, lexValue, lexValueWS,
    lexComment, lexCommentWS, scanEscapeSequence, scanUnicodeLiteral, isEscapedCharacter,
    decodeEscapedCharacter, isWhitespace, isEOL, isComment, isEndOfKey, isEscape,
    isHexDigit, hexVal, Except.map, Except.bind, parse, propsSet, str]

example : loadString (str "a=1\na=2") = .ok [(str "a", str "2")] := by
  simp [loadString, lexBeforeKey, lexKey, lexBeforeValue, lexValue, lexValueWS,
    lexComment, lexCommentWS, scanEscapeSequence, scanUnicodeLiteral, isEscapedCharacter,
    decodeEscapedCharacter, isWhitespace, isEOL, isComment, isEndOfKey, isEscape,
    isHexDigit, hexVal, Except.map, Except.bind, parse, propsSet, str]


/-- A key every character of which the magiconair lexer reads verbatim:
non-empty, free of key terminators and escapes, and not opening a
comment line. -/
def propKeyOK (k : Str) : Prop :=
  k ≠ [] ∧ (∀ ch ∈ k, isEndOfKey ch = false ∧ ch ≠ '\\') ∧
  ¬ k.head? = some '#' ∧ ¬ k.head? = some '!'

/-- A value the magiconair lexer reads verbatim and the expander leaves
alone: no escapes, no line ends, no interpolation dollar, and no
leading whitespace (which the lexer would strip). -/
def propValOK (v : Str) : Prop :=
  (∀ ch ∈ v, ch ≠ '\\' ∧ ch ≠ '\n' ∧ ch ≠ '\r' ∧ ch ≠ '$') ∧
  v.dropWhile isWhitespace = v

/-- The character condition on an option-group key, whose generated
line prefixes it with a clean literal. -/
def entryKeyOK (k : Str) : Prop := ∀ ch ∈ k, isEndOfKey ch = false ∧ ch ≠ '\\'

theorem length_dropWhile_le (p : Char → Bool) (l : Str) :
    (l.dropWhile p).length ≤ l.length := by
  induction l with
  | nil => simp
  | cons c t ih =>
    rw [List.dropWhile_cons]
    by_cases hp : p c = true
    · rw [if_pos hp]
      simp only [List.length_cons]
      omega
    · rw [if_neg hp]

theorem dropWhile_eq_self_head {p : Char → Bool} {v : Str}
    (h : v.dropWhile p = v) : ∀ c t, v = c :: t → p c = false := by
  intro c t he
  subst he
  by_cases hp : p c = true
  · rw [List.dropWhile_cons, if_pos hp] at h
    have hlen := congrArg List.length h
    have hle := length_dropWhile_le p t
    simp at hlen
    omega
  · simpa using hp

theorem except_map_map {α β γ : Type} (f : α → β) (g : β → γ) (e : Except Str α) :
    (e.map f).map g = e.map (fun x => g (f x)) := by
  cases e <;> rfl

theorem lexKey_run (k : Str) (hk : ∀ ch ∈ k, isEndOfKey ch = false ∧ ch ≠ '\\') :
    ∀ (acc : Str) (r : Char), isEndOfKey r = true → ∀ t : Str,
    lexKey acc (k ++ r :: t) = (lexBeforeValue (r :: t)).map
      (fun its => if acc ++ k = [] then its else .itemKey (acc ++ k) :: its) := by
  induction k with
  | nil =>
    intro acc r hr t
    have hesc : isEscape r = false := by
      simp [isEscape]
      intro he
      subst he
      exact absurd hr (by decide)
    simp only [List.nil_append, List.append_nil, lexKey, hesc, hr,
      Bool.false_eq_true, if_false, if_true]
  | cons c k2 ih =>
    intro acc r hr t
    have hc := hk c (List.mem_cons_self c k2)
    have hce : isEscape c = false := by
      simp [isEscape]
      exact hc.2
    simp only [List.cons_append, lexKey, hce, hc.1, Bool.false_eq_true, if_false]
    rw [ih (fun ch hch => hk ch (List.mem_cons_of_mem c hch)) (acc ++ [c]) r hr t,
      List.append_assoc]
    rfl

theorem lexValue_cons_plain (acc : Str) (r : Char) (t : Str)
    (hre : isEscape r = false) (hrl : isEOL r = false) :
    lexValue acc (r :: t) = lexValue (acc ++ [r]) t := by
  cases t with
  | nil => simp only [lexValue, hre, hrl, Bool.false_eq_true, if_false]
  | cons c tc => simp only [lexValue, hre, hrl, Bool.false_eq_true, if_false]

theorem lexValue_cons_eol (acc : Str) (r : Char) (t : Str)
    (hre : isEscape r = false) (hrl : isEOL r = true) :
    lexValue acc (r :: t) = (lexBeforeKey t).map (fun its => .itemValue acc :: its) := by
  cases t with
  | nil => simp only [lexValue, hre, hrl, Bool.false_eq_true, if_false, if_true]
  | cons c tc => simp only [lexValue, hre, hrl, Bool.false_eq_true, if_false, if_true]

theorem lexValue_run (v : Str) (hv : ∀ ch ∈ v, ch ≠ '\\' ∧ ch ≠ '\n' ∧ ch ≠ '\r') :
    ∀ (acc rest : Str),
    lexValue acc (v ++ '\n' :: rest) =
      (lexBeforeKey rest).map (fun its => .itemValue (acc ++ v) :: its) := by
  induction v with
  | nil =>
    intro acc rest
    rw [List.nil_append, lexValue_cons_eol acc '\n' rest rfl rfl, List.append_nil]
  | cons c v2 ih =>
    intro acc rest
    have hc := hv c (List.mem_cons_self c v2)
    have hce : isEscape c = false := by
      simp [isEscape]
      exact hc.1
    have hcl : isEOL c = false := by
      simp [isEOL]
      exact ⟨hc.2.1, hc.2.2⟩
    rw [List.cons_append, lexValue_cons_plain acc c (v2 ++ '\n' :: rest) hce hcl,
      ih (fun ch hch => hv ch (List.mem_cons_of_mem c hch)) (acc ++ [c]) rest,
      List.append_assoc]
    rfl


theorem isEndOfKey_of_isEOL (ch : Char) (h : isEOL ch = true) :
    isEndOfKey ch = true := by
  simp [isEOL] at h
  rcases h with h | h <;> (subst h; rfl)

theorem isEndOfKey_of_isWhitespace (ch : Char) (h : isWhitespace ch = true) :
    isEndOfKey ch = true := by
  simp [isWhitespace] at h
  rcases h with (h | h) | h <;> (subst h; rfl)

theorem lexBeforeKey_line (k v rest : Str) (hk : propKeyOK k) (hv : propValOK v) :
    lexBeforeKey ((k ++ '=' :: v) ++ '\n' :: rest) =
      (lexBeforeKey rest).map (fun its => .itemKey k :: .itemValue v :: its) := by
  obtain ⟨hkne, hkch, hkh1, hkh2⟩ := hk
  obtain ⟨hvch, hvdw⟩ := hv
  obtain ⟨c₀, k2, hk0⟩ : ∃ c₀ k2, k = c₀ :: k2 := by
    cases k with
    | nil => exact absurd rfl hkne
    | cons a b => exact ⟨a, b, rfl⟩
  subst hk0
  have hc0 := hkch c₀ (List.mem_cons_self c₀ k2)
  have h1 : isEOL c₀ = false := by
    cases hw : isEOL c₀ with
    | false => rfl
    | true => exact absurd hc0.1 (by rw [isEndOfKey_of_isEOL c₀ hw]; simp)
  have h2 : isComment c₀ = false := by
    simp [isComment]
    constructor
    · intro he
      exact hkh1 (by subst he; rfl)
    · intro he
      exact hkh2 (by subst he; rfl)
  have h3 : isWhitespace c₀ = false := by
    cases hw : isWhitespace c₀ with
    | false => rfl
    | true => exact absurd hc0.1 (by rw [isEndOfKey_of_isWhitespace c₀ hw]; simp)
  have hshape : (((c₀ :: k2) ++ '=' :: v) ++ '\n' :: rest : Str) =
      c₀ :: (k2 ++ '=' :: (v ++ '\n' :: rest)) := by
    simp
  rw [hshape]
  simp only [lexBeforeKey, h1, h2, h3, Bool.false_eq_true, if_false]
  rw [show (c₀ :: (k2 ++ '=' :: (v ++ '\n' :: rest)) : Str) =
      (c₀ :: k2) ++ '=' :: (v ++ '\n' :: rest) from by simp]
  rw [lexKey_run (c₀ :: k2) hkch [] '=' (by decide) (v ++ '\n' :: rest)]
  have hbv : lexBeforeValue ('=' :: (v ++ '\n' :: rest)) =
      (lexBeforeKey rest).map (fun its => .itemValue v :: its) := by
    simp only [lexBeforeValue, show isWhitespace '=' = false from rfl,
      Bool.false_eq_true, if_false,
      show ('=' = ':' ∨ '=' = '=') = True from by simp, if_true]
    cases v with
    | nil =>
      simp only [List.nil_append, lexValueWS,
        show isWhitespace '\n' = false from rfl, Bool.false_eq_true, if_false]
      rw [show ('\n' :: rest : Str) = [] ++ '\n' :: rest from rfl,
        lexValue_run [] (by intro ch hch; cases hch) [] rest]
      rfl
    | cons c v2 =>
      have hcw : isWhitespace c = false := dropWhile_eq_self_head hvdw c v2 rfl
      simp only [List.cons_append, lexValueWS, hcw, Bool.false_eq_true, if_false]
      rw [show (c :: (v2 ++ '\n' :: rest) : Str) = (c :: v2) ++ '\n' :: rest from by simp,
        lexValue_run (c :: v2)
          (fun ch hch => ⟨(hvch ch hch).1, (hvch ch hch).2.1, (hvch ch hch).2.2.1⟩) [] rest]
      rfl
  rw [hbv, except_map_map]
  cases lexBeforeKey rest with
  | error e => rfl
  | ok its => simp [Except.map]

theorem lexBeforeKey_lines (lines : List Str)
    (h : ∀ l ∈ lines, ∃ k v, l = k ++ '=' :: v ∧ propKeyOK k ∧ propValOK v ∧
      lineToToken l = some (k, v)) :
    lexBeforeKey (joinNL lines) =
      .ok ((lines.filterMap lineToToken).foldr
        (fun p its => .itemKey p.1 :: .itemValue p.2 :: its) []) := by
  induction lines with
  | nil =>
    rw [show joinNL [] = [] from rfl]
    simp [lexBeforeKey]
  | cons l rest ih =>
    obtain ⟨k, v, hl, hk, hv, htok⟩ := h l (List.mem_cons_self l rest)
    have hrest := ih (fun x hx => h x (List.mem_cons_of_mem l hx))
    have hjoin : joinNL (l :: rest) = (k ++ '=' :: v) ++ '\n' :: joinNL rest := by
      rw [hl]
      simp [joinNL]
    rw [hjoin, lexBeforeKey_line k v (joinNL rest) hk hv, hrest]
    simp only [List.filterMap_cons, htok, List.foldr_cons]
    rfl


theorem parse_items (tks : List (Str × Str)) : ∀ props,
    parse props (tks.foldr (fun p its => .itemKey p.1 :: .itemValue p.2 :: its) []) =
      .ok (tks.foldl (fun m p => propsSet m p.1 p.2) props) := by
  induction tks with
  | nil => intro props; rfl
  | cons p rest ih =>
    intro props
    simp only [List.foldr_cons, List.foldl_cons]
    exact ih (propsSet props p.1 p.2)

theorem propsSet_append (k v : Str) : ∀ m : List (Str × Str),
    (∀ p ∈ m, p.1 ≠ k) → propsSet m k v = m ++ [(k, v)] := by
  intro m
  induction m with
  | nil => intro _; rfl
  | cons q t ih =>
    intro h
    obtain ⟨k₀, v₀⟩ := q
    simp only [propsSet]
    rw [if_neg (h (k₀, v₀) (List.mem_cons_self (k₀, v₀) t)),
      ih (fun p hp => h p (List.mem_cons_of_mem (k₀, v₀) hp))]
    rfl

theorem foldl_propsSet_nodup : ∀ (tks m : List (Str × Str)),
    (∀ p ∈ tks, ∀ q ∈ m, q.1 ≠ p.1) → (tks.map Prod.fst).Nodup →
    tks.foldl (fun m p => propsSet m p.1 p.2) m = m ++ tks
  | [], m, _, _ => by simp
  | p :: rest, m, hfresh, hnd => by
    simp only [List.foldl_cons]
    rw [propsSet_append p.1 p.2 m
      (fun q hq => hfresh p (List.mem_cons_self p rest) q hq)]
    have hn2 : (rest.map Prod.fst).Nodup := by
      simp only [List.map_cons, List.nodup_cons] at hnd
      exact hnd.2
    have hf2 : ∀ r ∈ rest, ∀ q ∈ m ++ [p], q.1 ≠ r.1 := by
      intro r hr q hq
      rcases List.mem_append.mp hq with hq | hq
      · exact hfresh r (List.mem_cons_of_mem p hr) q hq
      · have hqp : q = p := by simpa using hq
        subst hqp
        simp only [List.map_cons, List.nodup_cons] at hnd
        intro he
        exact hnd.1 (he ▸ List.mem_map_of_mem Prod.fst hr)
    rw [foldl_propsSet_nodup rest (m ++ [p]) hf2 hn2]
    simp

theorem dropWhile_blank2_of_ws {v : Str} (h : v.dropWhile isWhitespace = v) :
    v.dropWhile (fun c => c = ' ' || c = '\t') = v := by
  cases v with
  | nil => rfl
  | cons c t =>
    have hc := dropWhile_eq_self_head h c t rfl
    have hA : c ≠ ' ' := by intro he; subst he; exact absurd hc (by decide)
    have hB : c ≠ '\t' := by intro he; subst he; exact absurd hc (by decide)
    have hb : (c = ' ' || c = '\t') = false := by simp [hA, hB]
    rw [List.dropWhile_cons, hb]
    simp

theorem fieldPropOK_of_valOK {v : Str} (h : propValOK v) : fieldPropOK v :=
  ⟨containsChar_eq_false_of (fun c hc => (h.1 c hc).2.1),
   dropWhile_blank2_of_ws h.2⟩

theorem keyNoNL_of_entryKeyOK {k : Str} (h : entryKeyOK k) :
    containsChar '\n' k = false :=
  containsChar_eq_false_of (fun c hc he => by
    subst he
    exact absurd (h '\n' hc).1 (by decide))

theorem propValOK_intToStr (p : Int) : propValOK (intToStr p) := by
  constructor
  · intro ch hch
    rcases (atoi_chars (atoi_intToStr p)).2 ch hch with hd | hd | hd
    · refine ⟨?_, ?_, ?_, ?_⟩ <;> (intro he; subst he; exact absurd hd (by decide))
    · subst hd; decide
    · subst hd; decide
  · apply dropWhile_eq_self_of_none
    intro ch hch
    rcases (atoi_chars (atoi_intToStr p)).2 ch hch with hd | hd | hd
    · cases hw : isWhitespace ch with
      | false => rfl
      | true =>
        simp [isWhitespace] at hw
        rcases hw with (hw | hw) | hw <;> (subst hw; exact absurd hd (by decide))
    · subst hd; decide
    · subst hd; decide

theorem lineToToken_clean {k v : Str} (hk : propKeyOK k) (hv : propValOK v) :
    lineToToken (k ++ '=' :: v) = some (k, v) := by
  obtain ⟨hkne, hkch, hh1, hh2⟩ := hk
  obtain ⟨c₀, k2, hk0⟩ : ∃ c₀ k2, k = c₀ :: k2 := by
    cases k with
    | nil => exact absurd rfl hkne
    | cons a b => exact ⟨a, b, rfl⟩
  subst hk0
  have hc0 := hkch c₀ (List.mem_cons_self c₀ k2)
  have hbA : c₀ ≠ ' ' := by intro he; subst he; exact absurd hc0.1 (by decide)
  have hbB : c₀ ≠ '\t' := by intro he; subst he; exact absurd hc0.1 (by decide)
  have hbC : c₀ ≠ '\x0c' := by intro he; subst he; exact absurd hc0.1 (by decide)
  have hb0 : (c₀ = ' ' || c₀ = '\t' || c₀ = '\x0c') = false := by simp [hbA, hbB, hbC]
  have hni : ¬ (c₀ = '#' ∨ c₀ = '!') := by
    rintro (he | he)
    · exact hh1 (by subst he; rfl)
    · exact hh2 (by subst he; rfl)
  have hkeyall : ∀ c ∈ c₀ :: k2, (!(isKeySep c)) = true := by
    intro c hc
    have h := hkch c hc
    cases hks : isKeySep c with
    | false => rfl
    | true =>
      exfalso
      have : isEndOfKey c = true := by
        simp only [isKeySep, Bool.or_eq_true, decide_eq_true_eq] at hks
        rcases hks with ((hks | hks) | hks) | hks <;> (subst hks; rfl)
      exact absurd h.1 (by rw [this]; simp)
  have hshape : (c₀ :: (k2 ++ '=' :: v) : Str) = (c₀ :: k2) ++ '=' :: v := by simp
  have h_t : (c₀ :: (k2 ++ '=' :: v) : Str).dropWhile
      (fun c => c = ' ' || c = '\t' || c = '\x0c') = c₀ :: (k2 ++ '=' :: v) := by
    rw [List.dropWhile_cons, hb0]
    simp
  have h_key : (c₀ :: (k2 ++ '=' :: v) : Str).takeWhile (fun c => !(isKeySep c)) =
      c₀ :: k2 := by
    rw [hshape, takeWhile_append_all ('=' :: v) hkeyall,
      show (('=' :: v : Str).takeWhile fun c => !(isKeySep c)) = [] from rfl,
      List.append_nil]
  have h_rest : (c₀ :: (k2 ++ '=' :: v) : Str).dropWhile (fun c => !(isKeySep c)) =
      '=' :: v := by
    rw [hshape, dropWhile_append_all ('=' :: v) hkeyall]
    rfl
  have h_r1 : (('=' :: v : Str).dropWhile fun c => c = ' ' || c = '\t') = '=' :: v := rfl
  simp only [lineToToken, List.cons_append, h_t, h_key, h_rest, h_r1]
  rw [if_neg hni]
  simp only [true_or, if_true]
  rw [dropWhile_blank2_of_ws hv.2]


/-- The well-formedness of a config under which the properties round
trip is provable over the full magiconair pipeline: every scalar field
and formatted entry value free of escapes, line ends, interpolation
dollars and leading whitespace; every group key free of key
terminators and escapes; and the generated key set duplicate-free. -/
def propCleanStrong (c : TunnelConfig) : Prop :=
  propValOK c.Name ∧ propValOK c.Typ ∧ propValOK c.Iface ∧ propValOK c.Target ∧
  propValOK c.Description ∧
  (∀ p ∈ c.I2CP.getD [], entryKeyOK p.1 ∧ propValOK (formatPropertyValue p.2)) ∧
  (∀ p ∈ c.Tunnel.getD [], entryKeyOK p.1 ∧ propValOK (formatPropertyValue p.2)) ∧
  (∀ p ∈ c.Inbound.getD [], entryKeyOK p.1 ∧ propValOK (formatPropertyValue p.2)) ∧
  (∀ p ∈ c.Outbound.getD [], entryKeyOK p.1 ∧ propValOK (formatPropertyValue p.2)) ∧
  (((propLines c).filterMap lineToToken).map Prod.fst).Nodup

theorem propClean_of_strong {c : TunnelConfig} (h : propCleanStrong c) :
    propClean c := by
  obtain ⟨h1, h2, h3, h4, h5, h6, h7, h8, h9, _⟩ := h
  refine ⟨fieldPropOK_of_valOK h1, fieldPropOK_of_valOK h2, fieldPropOK_of_valOK h3,
    fieldPropOK_of_valOK h4, (fieldPropOK_of_valOK h5).1, ?_, ?_, ?_, ?_⟩
  · intro p hp
    exact ⟨keyNoNL_of_entryKeyOK (h6 p hp).1, (fieldPropOK_of_valOK (h6 p hp).2).1⟩
  · intro p hp
    exact ⟨keyNoNL_of_entryKeyOK (h7 p hp).1, (fieldPropOK_of_valOK (h7 p hp).2).1⟩
  · intro p hp
    exact ⟨keyNoNL_of_entryKeyOK (h8 p hp).1, (fieldPropOK_of_valOK (h8 p hp).2).1⟩
  · intro p hp
    exact ⟨keyNoNL_of_entryKeyOK (h9 p hp).1, (fieldPropOK_of_valOK (h9 p hp).2).1⟩

theorem propKeyOK_prefixed (pre : Str) (c₀ : Char) (k : Str)
    (h₀ : ¬ c₀ = '#' ∧ ¬ c₀ = '!')
    (hpre : ∀ ch ∈ c₀ :: pre, isEndOfKey ch = false ∧ ch ≠ '\\')
    (hk : entryKeyOK k) : propKeyOK ((c₀ :: pre) ++ k) := by
  refine ⟨by simp, ?_, ?_, ?_⟩
  · intro ch hch
    rcases List.mem_append.mp hch with hch | hch
    · exact hpre ch hch
    · exact hk ch hch
  · intro he
    rw [show ((c₀ :: pre) ++ k : Str).head? = some c₀ from rfl] at he
    exact h₀.1 (by cases he; rfl)
  · intro he
    rw [show ((c₀ :: pre) ++ k : Str).head? = some c₀ from rfl] at he
    exact h₀.2 (by cases he; rfl)

theorem propLines_clean {c : TunnelConfig} (h : propCleanStrong c) :
    ∀ l ∈ propLines c, ∃ k v, l = k ++ '=' :: v ∧ propKeyOK k ∧ propValOK v ∧
      lineToToken l = some (k, v) := by
  obtain ⟨h1, h2, h3, h4, h5, hg1, hg2, hg3, hg4, _⟩ := h
  intro l hl
  simp only [propLines, List.mem_append] at hl
  rcases hl with ((((((((((m1 | m2) | m3) | m4) | m5) | m6) | m7) | m8) | m9) | m10) | m11)
  · rw [mem_ite_singleton m1]
    have hk : propKeyOK (str "name") := ⟨by decide, by decide, by decide, by decide⟩
    exact ⟨str "name", c.Name, rfl, hk, h1, lineToToken_clean hk h1⟩
  · rw [mem_ite_singleton m2]
    have hk : propKeyOK (str "type") := ⟨by decide, by decide, by decide, by decide⟩
    exact ⟨str "type", c.Typ, rfl, hk, h2, lineToToken_clean hk h2⟩
  · rw [mem_ite_singleton m3]
    have hk : propKeyOK (str "interface") := ⟨by decide, by decide, by decide, by decide⟩
    exact ⟨str "interface", c.Iface, rfl, hk, h3, lineToToken_clean hk h3⟩
  · rw [mem_ite_singleton m4]
    have hk : propKeyOK (str "listenPort") := ⟨by decide, by decide, by decide, by decide⟩
    exact ⟨str "listenPort", intToStr c.Port, rfl, hk, propValOK_intToStr c.Port,
      lineToToken_clean hk (propValOK_intToStr c.Port)⟩
  · rw [mem_ite_singleton m5]
    have hk : propKeyOK (str "targetDestination") := ⟨by decide, by decide, by decide, by decide⟩
    exact ⟨str "targetDestination", c.Target, rfl, hk, h4, lineToToken_clean hk h4⟩
  · rw [mem_ite_singleton m6]
    have hk : propKeyOK (str "option.persistentClientKey") :=
      ⟨by decide, by decide, by decide, by decide⟩
    have hv : propValOK (str "true") := ⟨by decide, by decide⟩
    exact ⟨str "option.persistentClientKey", str "true", rfl, hk, hv,
      lineToToken_clean hk hv⟩
  · rw [mem_ite_singleton m7]
    have hk : propKeyOK (str "description") := ⟨by decide, by decide, by decide, by decide⟩
    exact ⟨str "description", c.Description, rfl, hk, h5, lineToToken_clean hk h5⟩
  · obtain ⟨p, hp, hline⟩ := List.mem_map.mp m8
    subst hline
    have hk : propKeyOK (str "option.i2cp." ++ p.1) :=
      propKeyOK_prefixed (str "ption.i2cp.") 'o' p.1 (by decide)
        (by decide) (hg1 p hp).1
    exact ⟨str "option.i2cp." ++ p.1, formatPropertyValue p.2, rfl, hk,
      (hg1 p hp).2, lineToToken_clean hk (hg1 p hp).2⟩
  · obtain ⟨p, hp, hline⟩ := List.mem_map.mp m9
    subst hline
    by_cases hf : p.1 = str "proxyList" ∨ p.1 = str "sharedClient" ∨
        p.1 = str "startOnLoad" ∨ p.1 = str "accessList" ∨
        p.1 = str "spoofedHost" ∨ p.1 = str "targetPort"
    · rw [if_pos hf]
      have hk : propKeyOK p.1 := by
        rcases hf with hf | hf | hf | hf | hf | hf <;>
          (rw [hf]; exact ⟨by decide, by decide, by decide, by decide⟩)
      exact ⟨p.1, formatPropertyValue p.2, rfl, hk, (hg2 p hp).2,
        lineToToken_clean hk (hg2 p hp).2⟩
    · rw [if_neg hf]
      have hk : propKeyOK (str "option.i2ptunnel." ++ p.1) :=
        propKeyOK_prefixed (str "ption.i2ptunnel.") 'o' p.1 (by decide)
          (by decide) (hg2 p hp).1
      exact ⟨str "option.i2ptunnel." ++ p.1, formatPropertyValue p.2, rfl, hk,
        (hg2 p hp).2, lineToToken_clean hk (hg2 p hp).2⟩
  · obtain ⟨p, hp, hline⟩ := List.mem_map.mp m10
    subst hline
    have hk : propKeyOK (str "option.inbound." ++ p.1) :=
      propKeyOK_prefixed (str "ption.inbound.") 'o' p.1 (by decide)
        (by decide) (hg3 p hp).1
    exact ⟨str "option.inbound." ++ p.1, formatPropertyValue p.2, rfl, hk,
      (hg3 p hp).2, lineToToken_clean hk (hg3 p hp).2⟩
  · obtain ⟨p, hp, hline⟩ := List.mem_map.mp m11
    subst hline
    have hk : propKeyOK (str "option.outbound." ++ p.1) :=
      propKeyOK_prefixed (str "ption.outbound.") 'o' p.1 (by decide)
        (by decide) (hg4 p hp).1
    exact ⟨str "option.outbound." ++ p.1, formatPropertyValue p.2, rfl, hk,
      (hg4 p hp).2, lineToToken_clean hk (hg4 p hp).2⟩


theorem propsFull_roundtrip (c : TunnelConfig) (h : propCleanStrong c) :
    ∃ c₂, parseJavaPropertiesText (generateJavaProperties c) = some c₂ ∧
      scalars6 c₂ = scalars6 c := by
  have hold : propClean c := propClean_of_strong h
  obtain ⟨c₂, hp, hs⟩ := props_roundtrip c hold
  have hlex := lexBeforeKey_lines (propLines c) (propLines_clean h)
  have hparse := parse_items ((propLines c).filterMap lineToToken) []
  have hfold := foldl_propsSet_nodup ((propLines c).filterMap lineToToken) []
    (by intro p hp q hq; cases hq)
    (by
      obtain ⟨_, _, _, _, _, _, _, _, _, hnd⟩ := h
      exact hnd)
  have hload : loadString (generateJavaProperties c) =
      .ok ((propLines c).filterMap lineToToken) := by
    unfold loadString
    rw [show generateJavaProperties c = joinNL (propLines c) from rfl, hlex]
    simp only [Except.bind]
    rw [hparse, hfold]
    rfl
  have htok : propTokenize (generateJavaProperties c) =
      (propLines c).filterMap lineToToken := by
    unfold propTokenize
    rw [show generateJavaProperties c = joinNL (propLines c) from rfl,
      splitCh_joinNL (propLines_noNL hold), List.filterMap_append]
    rw [show (([[]] : List Str).filterMap lineToToken) = [] from rfl, List.append_nil]
  refine ⟨c₂, ?_, hs⟩
  unfold parseJavaPropertiesText
  rw [hload]
  show parseJavaProperties ((propLines c).filterMap lineToToken) = some c₂
  rw [show parseJavaProperties ((propLines c).filterMap lineToToken) =
      parsePropsText (generateJavaProperties c) from by
    unfold parsePropsText
    rw [htok]]
  exact hp


end I2PConv
